import Mathlib

/-!
# task-list: storage format and command loop

A shallow embedding of `main.go` (an interactive task-list manager) and the
properties of its storage format, its index-selection loop and its command
loop.

Go strings are modelled as lists of characters (`Str`).  The program is
single-threaded; its effects (lines read from standard input, frames printed,
calls of `storage.write`, the file behind the storage) are threaded explicitly
through a `World` value.  `log.Fatal` is modelled by an error result carrying
the logged text: `Except.error` in the storage, `Failure.fatal` in the command
loop, where the Scanner refuses a line of `MaxScanTokenSize` bytes or more.
An out-of-range slice index (a Go panic) is `Failure.panic`.
-/

namespace TaskList

/-- A Go string, as the list of its characters. -/
abbrev Str := List Char

/-! ## Data model (`main.go` lines 14-27) -/

/-- The `task` struct. -/
structure task where
  title : Str
  desc : Str
deriving DecidableEq, Repr

/-- The `state` struct. -/
structure state where
  tasks : List task
  message : Str
  modifying : Bool
deriving DecidableEq, Repr

/-- An `os.File` opened read-write: the bytes of the file and the offset of the handle. -/
structure File where
  contents : Str
  offset : Nat
deriving DecidableEq, Repr

/-- The `storage` struct. -/
structure storage where
  fd : File
deriving DecidableEq, Repr

/-! ## The library functions the program calls -/

/-- The separator between title and description in a stored line. -/
def SEP : Str := ['<', '-', '$', '-', '>']

/-- The placeholder written for an empty description. -/
def SENTINEL : Str := ['-', '$', '-']

/-- The newline string. -/
def NL : Str := ['\n']

/-- The test `unicode.IsSpace` of Go. -/
def isSpace (c : Char) : Bool :=
  c = '\t' || c = '\n' || c = '\x0b' || c = '\x0c' || c = '\r' || c = ' ' ||
  c = '\u0085' || c = '\u00a0' || c = '\u1680' ||
  (decide (0x2000 ≤ c.toNat) && decide (c.toNat ≤ 0x200a)) ||
  c = '\u2028' || c = '\u2029' || c = '\u202f' || c = '\u205f' || c = '\u3000'

/-- The function `strings.TrimSpace`: leading and trailing white space removed. -/
def TrimSpace (s : Str) : Str :=
  ((s.dropWhile isSpace).reverse.dropWhile isSpace).reverse

/-- The digit loop of `strconv.ParseUint` in base 10: `n` is the value so far;
`none` is the syntax error on a character that is no decimal digit. -/
def parseDigits : Str → Nat → Option Nat
  | [], n => some n
  | c :: cs, n =>
    if '0' ≤ c ∧ c ≤ '9' then parseDigits cs (n * 10 + (c.toNat - '0'.toNat)) else none

/-- The function `strconv.Atoi` for a 64-bit `int`: an optional sign, then at
least one decimal digit; `none` stands for a non-nil `err` (syntax or range). -/
def Atoi (s : Str) : Option Int :=
  match s with
  | [] => none
  | c :: cs =>
    let ds := if c = '-' ∨ c = '+' then cs else c :: cs
    if ds = [] then none
    else
      match parseDigits ds 0 with
      | none => none
      | some n =>
        if c = '-' then (if n ≤ 2 ^ 63 then some (-(n : Int)) else none)
        else (if n < 2 ^ 63 then some (n : Int) else none)

/-- The function `strings.Index`: the position of the first occurrence of `sep`
in the string, `none` for Go's `-1`. -/
def Index (sep : Str) : Str → Option Nat
  | [] => if sep = [] then some 0 else none
  | c :: s => if sep <+: c :: s then some 0 else (Index sep s).map Nat.succ

/-- The function `strings.Contains`. -/
def Contains (s sep : Str) : Bool := (Index sep s).isSome

/-- The function `strings.Cut`: the text before and after the first occurrence
of `sep`, and whether there is one. -/
def Cut (s sep : Str) : Str × Str × Bool :=
  match Index sep s with
  | some i => (s.take i, s.drop (i + sep.length), true)
  | none => (s, [], false)

/-- The function `strings.Split(s, "\n")`: the segments between newlines, in
order; its result always has one more element than the string has newlines. -/
def Split : Str → List Str
  | [] => [[]]
  | c :: s =>
    if c = '\n' then [] :: Split s
    else
      match Split s with
      | [] => [[c]]
      | seg :: segs => (c :: seg) :: segs

/-- The method `File.Truncate`: the file cut (or padded with NUL) to `size`; the offset stays. -/
def File.Truncate (f : File) (size : Nat) : File :=
  { f with contents := f.contents.take size ++ List.replicate (size - f.contents.length) '\x00' }

/-- The method `File.Seek(offset, os.SEEK_SET)`. -/
def File.Seek (f : File) (offset : Nat) : File :=
  { f with offset := offset }

/-- The method `File.WriteString`: the text written over the contents at the
offset (a gap past the end is filled with NUL); the offset moves past it. -/
def File.WriteString (f : File) (s : Str) : File :=
  { contents := f.contents.take f.offset ++ List.replicate (f.offset - f.contents.length) '\x00'
      ++ s ++ f.contents.drop (f.offset + s.length)
    offset := f.offset + s.length }

/-- The call `io.ReadAll(fd)`: the bytes from the offset to the end of the
file; the handle is left at the end of the file. -/
def File.ReadAll (f : File) : Str × File :=
  (f.contents.drop f.offset, { f with offset := max f.offset f.contents.length })

/-! ## Storage (`main.go` lines 163-221) -/

/-- The function `newStorage`: the file, holding `disk` (empty when it is
created), opened with the handle at its start. -/
def newStorage (disk : Str) : storage :=
  { fd := { contents := disk, offset := 0 } }

/-- The body of the `for` loop of `storage.read` for one line (lines 188-195):
the task appended to `items`, or `none` when the separator is not found and
`fatal` is called. -/
def readLine (line : Str) : Option task :=
  match Cut line SEP with
  | (title, desc, true) => some (task.mk title (if desc = SENTINEL then [] else desc))
  | (_, _, false) => none

/-- The `for` loop of `storage.read` (lines 187-196) over the lines left to
parse; `items` is the slice built so far. `Except.error` is the `fatal` call. -/
def readLoop : List Str → List task → Except Str (List task)
  | [], items => .ok items
  | line :: lines, items =>
    match readLine line with
    | some t => readLoop lines (items ++ [t])
    | none => .error ("Error parsing task: ".toList ++ line)

/-- The body of `storage.read` after `io.ReadAll` (lines 182-199), on the data read. -/
def parse (data : Str) : Except Str (List task) :=
  if data.length > 0 then
    let lines := Split data
    readLoop (lines.take (lines.length - 1)) []
  else .ok []

/-- The method `storage.read`: the tasks parsed from the bytes between the
handle's offset and the end of the file, and the storage afterwards. -/
def storage.read (store : storage) : Except Str (List task × storage) :=
  let r := store.fd.ReadAll
  match parse r.1 with
  | .ok items => .ok (items, { fd := r.2 })
  | .error e => .error e

/-- The text the `for` loop of `storage.write` appends for one task (lines 206-210). -/
def storedLine (t : task) : Str :=
  let desc := if t.desc = [] then SENTINEL else t.desc
  t.title ++ SEP ++ desc ++ NL

/-- The `for` loop of `storage.write` (lines 205-211); `b` is the builder. -/
def writeLoop : List task → Str → Str
  | [], b => b
  | t :: ts, b => writeLoop ts (b ++ storedLine t)

/-- The text `storage.write` builds for a task list. -/
def serialize (ts : List task) : Str := writeLoop ts []

/-- The method `storage.write`: truncate to zero, seek to the start, write the text. -/
def storage.write (store : storage) (ts : List task) : storage :=
  { fd := ((store.fd.Truncate 0).Seek 0).WriteString (serialize ts) }

/-! ## Renderer (`main.go` lines 223-254) -/

/-- The verb `%d` of `fmt` for a non-negative integer. -/
def decimal (n : Nat) : Str := Nat.toDigits 10 n

/-- The block `drawTasks` appends for the task at index `i` (lines 240-252). -/
def taskBlock (modifying : Bool) (i : Nat) (t : task) : Str :=
  (if modifying then
    "  [".toList ++ decimal (i + 1) ++ "] ".toList ++ t.title ++ NL ++
      (if t.desc ≠ [] then "        ".toList ++ t.desc ++ NL else [])
  else
    "  ".toList ++ t.title ++ NL ++
      (if t.desc ≠ [] then "    ".toList ++ t.desc ++ NL else []))
  ++ NL

/-- The `for` loop of `drawTasks` (lines 239-253) from index `i` on; `b` is the builder. -/
def drawLoop (modifying : Bool) : List task → Nat → Str → Str
  | [], _, b => b
  | t :: ts, i, b => drawLoop modifying ts (i + 1) (b ++ taskBlock modifying i t)

/-- The function `drawTasks`: the builder after the header and the task blocks are appended. -/
def drawTasks (s : state) (b : Str) : Str :=
  drawLoop s.modifying s.tasks 0 (b ++ "┏━━ Task List ━━━\n\n".toList)

/-- The function `draw`: the text it hands to `fmt.Print`. -/
def draw (s : state) : Str :=
  drawTasks s "\x1bc".toList ++ (s.message ++ NL) ++ ">> ".toList

/-! ## Effects -/

/-- What the program does to the outside, in the order it does it. -/
inductive Event where
  | print (text : Str)
  | write (ts : List task)
deriving DecidableEq, Repr

/-- The outside of the program: the lines of standard input not yet read (the
bytes between the newlines), the storage, and the effects so far (oldest
first). -/
structure World where
  input : List Str
  store : storage
  trace : List Event
deriving DecidableEq, Repr

/-- The call `fmt.Print(text)`. -/
def World.print (w : World) (text : Str) : World :=
  { w with trace := w.trace ++ [Event.print text] }

/-- The call `store.write(ts)`. -/
def World.write (w : World) (ts : List task) : World :=
  { w with store := w.store.write ts, trace := w.trace ++ [Event.write ts] }

/-- How the command loop ends early: `fatal` is the call `fatal(err)` with a
non-nil error (`log.Fatal`: the text logged and the world the process leaves
behind, exit status 1), `panic` is an index out of range. -/
inductive Failure where
  | fatal (msg : Str) (w : World)
  | panic
deriving DecidableEq, Repr

/-- The constant `bufio.MaxScanTokenSize`: the size the buffer of the Scanner
of line 48 may grow to. -/
def MaxScanTokenSize : Nat := 64 * 1024

/-- The length in bytes of a Go string, `len(s)`: the size of its UTF-8 encoding. -/
def byteLen (s : Str) : Nat := (s.map Char.utf8Size).sum

/-- The function `dropCR` of `bufio.ScanLines`: one trailing carriage return removed. -/
def dropCR (data : Str) : Str :=
  if data.getLast? = some '\r' then data.dropLast else data

/-- The text of `bufio.ErrTooLong`. -/
def ErrTooLong : Str := "bufio.Scanner: token too long".toList

/-- The function `readInput` (lines 256-260). `Scan` with the split function
`ScanLines` delivers the next line without a trailing carriage return, unless
the line does not fit the buffer together with its newline (`MaxScanTokenSize`
bytes or more): then `s.Err()` is `ErrTooLong` and `fatal` ends the process.
At the end of the input `Scan` fails without error, `Text` is empty and the
result is the empty string. -/
def readInput (w : World) : Except Failure (Str × World) :=
  match w.input with
  | [] => .ok ([], w)
  | line :: rest =>
    if MaxScanTokenSize ≤ byteLen line then .error (Failure.fatal ErrTooLong w)
    else .ok (TrimSpace (dropCR line), { w with input := rest })

/-- The test of line 269 on the trimmed text: `some (val - 1)` when the text is
an integer `val` with `1 <= val <= n`. -/
def acceptId (text : Str) (n : Nat) : Option Int :=
  match Atoi text with
  | some val => if val ≥ 1 ∧ val ≤ (n : Int) then some (val - 1) else none
  | none => none

/-- The loop of `readTaskId` (lines 263-275); the list is the input of the
world, on which the recursion runs. At the end of the input the text read is
empty and the loop returns `-1`. -/
def readTaskIdLoop (s : state) : List Str → World → Except Failure (Int × World)
  | [], w =>
    match readInput { w with input := [] } with
    | .error e => .error e
    | .ok (_, w1) => .ok (-1, w1)
  | line :: rest, w =>
    match readInput { w with input := line :: rest } with
    | .error e => .error e
    | .ok (text, w1) =>
      if text = [] then .ok (-1, w1)
      else
        match acceptId text s.tasks.length with
        | some id => .ok (id, w1)
        | none => readTaskIdLoop s rest (w1.print (draw s))

/-- The function `readTaskId`. -/
def readTaskId (w : World) (s : state) : Except Failure (Int × World) :=
  readTaskIdLoop s w.input w

/-! ## Command loop (`main.go` lines 29-155) -/

/-- The `for` loop of the delete case (lines 91-95) from index `i` on; `tmp` is the slice built. -/
def deleteLoop (id : Int) : List task → Nat → List task → List task
  | [], _, tmp => tmp
  | t :: ts, i, tmp => deleteLoop id ts (i + 1) (if (i : Int) ≠ id then tmp ++ [t] else tmp)

/-- The assignment `state.tasks[id].title = title`; `none` is the index-out-of-range panic. -/
def setTitle (ts : List task) (id : Int) (title : Str) : Option (List task) :=
  if 0 ≤ id then
    match ts.get? id.toNat with
    | some t => some (ts.set id.toNat { t with title := title })
    | none => none
  else none

/-- The assignment `state.tasks[id].desc = desc`; `none` is the index-out-of-range panic. -/
def setDesc (ts : List task) (id : Int) (desc : Str) : Option (List task) :=
  if 0 ≤ id then
    match ts.get? id.toNat with
    | some t => some (ts.set id.toNat { t with desc := desc })
    | none => none
  else none

/-- The case `"add", "a"` (lines 62-74). -/
def caseAdd (st : state) (w : World) : Except Failure (state × World) :=
  let st : state := { st with message := "Enter title (empty to cancel):".toList }
  let w := w.print (draw st)
  match readInput w with
  | .error e => .error e
  | .ok (title, w) =>
    if title ≠ [] then
      let st : state := { st with message := "Enter description (optional):".toList }
      let w := w.print (draw st)
      match readInput w with
      | .error e => .error e
      | .ok (desc, w) =>
        let st : state := { st with tasks := st.tasks ++ [task.mk title desc] }
        let w := w.write st.tasks
        .ok ({ st with message := [] }, w)
    else
      .ok ({ st with message := [] }, w)

/-- The case `"delete", "d"` (lines 77-102). -/
def caseDelete (st : state) (w : World) : Except Failure (state × World) :=
  if st.tasks.length = 0 then
    .ok ({ st with message := "You have no tasks. Use `add` command to create one".toList }, w)
  else
    let st : state :=
      { st with message := "Choose task to delete (empty to cancel):".toList, modifying := true }
    let w := w.print (draw st)
    match readTaskId w st with
    | .error e => .error e
    | .ok (id, w) =>
      if id ≠ -1 then
        let st : state := { st with tasks := deleteLoop id st.tasks 0 [] }
        let w := w.write st.tasks
        .ok ({ st with modifying := false, message := [] }, w)
      else
        .ok ({ st with modifying := false, message := [] }, w)

/-- The statements of lines 125-139 of the edit case, once the index and both
inputs are read; `none` is a panic. -/
def applyEdit (st : state) (w : World) (id : Int) (title desc : Str) : Option (state × World) :=
  let changed := false
  match (if title ≠ [] then (setTitle st.tasks id title).map (fun ts => (ts, true))
         else some (st.tasks, changed)) with
  | none => none
  | some (ts, changed) =>
    match (if desc ≠ [] then (setDesc ts id desc).map (fun ts => (ts, true))
           else some (ts, changed)) with
    | none => none
    | some (ts, changed) =>
      let st : state := { st with tasks := ts }
      if changed then some (st, w.write st.tasks) else some (st, w)

/-- The case `"edit", "e"` (lines 105-143). -/
def caseEdit (st : state) (w : World) : Except Failure (state × World) :=
  if st.tasks.length = 0 then
    .ok ({ st with message := "You have no tasks. Use `add` command to create one".toList }, w)
  else
    let st : state :=
      { st with message := "Choose task to edit (empty to cancel):".toList, modifying := true }
    let w := w.print (draw st)
    match readTaskId w st with
    | .error e => .error e
    | .ok (id, w) =>
      if id ≠ -1 then
        let st : state := { st with message := "Enter new title (empty to skip):".toList }
        let w := w.print (draw st)
        match readInput w with
        | .error e => .error e
        | .ok (title, w) =>
          let st : state := { st with message := "Enter new description (empty to skip):".toList }
          let w := w.print (draw st)
          match readInput w with
          | .error e => .error e
          | .ok (desc, w) =>
            match applyEdit st w id title desc with
            | none => .error Failure.panic
            | some (st, w) => .ok ({ st with modifying := false, message := [] }, w)
      else
        .ok ({ st with modifying := false, message := [] }, w)

/-- The `switch` of lines 60-153 on a non-empty command: the state, the world
and the flag `running` afterwards. -/
def dispatch (cmd : Str) (st : state) (w : World) : Except Failure (state × World × Bool) :=
  if cmd = "add".toList ∨ cmd = "a".toList then
    match caseAdd st w with
    | .error e => .error e
    | .ok r => .ok (r.1, r.2, true)
  else if cmd = "delete".toList ∨ cmd = "d".toList then
    match caseDelete st w with
    | .error e => .error e
    | .ok r => .ok (r.1, r.2, true)
  else if cmd = "edit".toList ∨ cmd = "e".toList then
    match caseEdit st w with
    | .error e => .error e
    | .ok r => .ok (r.1, r.2, true)
  else if cmd = "exit".toList then
    .ok (st, w, false)
  else if cmd = "help".toList then
    .ok ({ st with message := "(a)dd\n(d)elete\n(e)dit\nhelp\nexit".toList }, w, true)
  else
    .ok ({ st with message :=
      "Unknown command `".toList ++ cmd ++ "`. Type `help` to see commands".toList }, w, true)

/-- One pass of the body of the `for running` loop (lines 52-153). -/
def loopBody (st : state) (w : World) : Except Failure (state × World × Bool) :=
  let w := w.print (draw st)
  match readInput w with
  | .error e => .error e
  | .ok (cmd, w) =>
    if cmd = [] then .ok ({ st with message := [] }, w, true)
    else dispatch cmd st w

/-- The loop `for running` (lines 51-154), for at most `fuel` passes: the state
and world reached and whether the loop is still running. -/
def mainLoop : Nat → state → World → Except Failure (state × World × Bool)
  | 0, st, w => .ok (st, w, true)
  | fuel + 1, st, w =>
    match loopBody st w with
    | .error e => .error e
    | .ok (st, w, true) => mainLoop fuel st w
    | .ok (st, w, false) => .ok (st, w, false)

/-- How a run of `main` ends: `fatal` is `log.Fatal` (the text logged, exit
status 1), `panicked` an index out of range, `exited` the end of the process
with its exit status and the world it leaves, `running` a loop that has not
ended within the passes allowed. -/
inductive Outcome where
  | fatal (msg : Str)
  | panicked
  | exited (code : Nat) (w : World)
  | running (st : state) (w : World)
deriving DecidableEq, Repr

/-- The function `main` on the arguments `os.Args`, the lines of standard input
and the bytes of the task file, with at most `fuel` passes of the loop. -/
def main (args : List Str) (input : List Str) (disk : Str) (fuel : Nat) : Outcome :=
  let store := newStorage disk
  match store.read with
  | .error e => Outcome.fatal e
  | .ok (tasks, store) =>
    let w : World := { input := input, store := store, trace := [] }
    let st : state := { tasks := tasks, message := [], modifying := false }
    if args.length = 2 ∧ args.get? 1 = some "print".toList then
      if st.tasks.length > 0 then Outcome.exited 0 (w.print (drawTasks st []))
      else Outcome.exited 0 w
    else
      match mainLoop fuel st w with
      | .error (Failure.fatal msg _) => Outcome.fatal msg
      | .error Failure.panic => Outcome.panicked
      | .ok (st, w, true) => Outcome.running st w
      | .ok (_, w, false) => Outcome.exited 0 w

/-! ## Vocabulary for the effect of a command -/

/-- The text is one of the input lines, trimmed. -/
def fromInput (input : List Str) (s : Str) : Prop :=
  ∃ l ∈ input, s = TrimSpace l

/-- The new task list is the old one after an add (one task appended, its
title non-empty and typed, its description empty or typed), a delete (one
position removed) or an edit (one position replaced, each field either kept or
replaced by a typed non-empty text, at least one of them replaced). -/
def Mutated (input : List Str) (tasks tasks1 : List task) : Prop :=
  (∃ title desc : Str, title ≠ [] ∧ fromInput input title ∧
    (desc = [] ∨ fromInput input desc) ∧ tasks1 = tasks ++ [task.mk title desc]) ∨
  (∃ k : Nat, k < tasks.length ∧ tasks1 = tasks.eraseIdx k) ∨
  (∃ (k : Nat) (old : task) (title desc : Str), tasks[k]? = some old ∧
    (title ≠ [] ∨ desc ≠ []) ∧ (title = [] ∨ fromInput input title) ∧
    (desc = [] ∨ fromInput input desc) ∧
    tasks1 = tasks.set k
      (task.mk (if title = [] then old.title else title) (if desc = [] then old.desc else desc)))

/-- What a stretch of the program between two worlds did: it consumed input
lines from the front, printed frames, and either left the task list and the
storage alone and did not call `storage.write`, or mutated the task list once
and then called `storage.write` once, with the new list, as its last effect. -/
def Effect (tasks : List task) (w : World) (tasks1 : List task) (w1 : World) : Prop :=
  ∃ frames : List Str, w1.input <:+ w.input ∧
    ((tasks1 = tasks ∧ w1.store = w.store ∧ w1.trace = w.trace ++ frames.map Event.print) ∨
     (Mutated w.input tasks tasks1 ∧ w1.store = w.store.write tasks1 ∧
      w1.trace = w.trace ++ frames.map Event.print ++ [Event.write tasks1]))

/-- What a stretch of the program that ended in the fatal error of the Scanner
did: it consumed input lines from the front, up to a line of `MaxScanTokenSize`
bytes or more that is still in the input, printed frames, left the storage
alone and did not call `storage.write`. -/
def Aborted (w : World) (e : Failure) : Prop :=
  ∃ (frames : List Str) (line : Str) (rest : List Str),
    e = Failure.fatal ErrTooLong
      { input := line :: rest, store := w.store,
        trace := w.trace ++ frames.map Event.print } ∧
    line :: rest <:+ w.input ∧ MaxScanTokenSize ≤ byteLen line

/-- No title and no description of the list contains a newline. -/
def NoNewline (ts : List task) : Prop :=
  ∀ t ∈ ts, '\n' ∉ t.title ∧ '\n' ∉ t.desc


/-! ## Lemmas on the library functions -/

theorem Split_ne_nil (s : Str) : Split s ≠ [] := by
  induction s with
  | nil => simp [Split]
  | cons c s ih =>
    unfold Split
    split
    · simp
    · split <;> simp

theorem Split_of_no_newline (l : Str) (h : '\n' ∉ l) : Split l = [l] := by
  induction l with
  | nil => rfl
  | cons c l ih =>
    have hc : c ≠ '\n' := fun e => h (by simp [e])
    have hl : '\n' ∉ l := fun e => h (by simp [e])
    simp [Split, hc, ih hl]

theorem Split_append_newline (l rest : Str) (h : '\n' ∉ l) :
    Split (l ++ '\n' :: rest) = l :: Split rest := by
  induction l with
  | nil => simp [Split]
  | cons c l ih =>
    have hc : c ≠ '\n' := fun e => h (by simp [e])
    have hl : '\n' ∉ l := fun e => h (by simp [e])
    simp [Split, hc, ih hl]

theorem Index_isSome_iff (sep s : Str) : (Index sep s).isSome ↔ sep <:+: s := by
  induction s with
  | nil =>
    by_cases h : sep = [] <;> simp [Index, h]
  | cons c s ih =>
    unfold Index
    by_cases hp : sep <+: c :: s
    · simp [hp, hp.isInfix]
    · simp only [hp, if_false, Option.isSome_map', ih]
      rw [List.infix_cons_iff]
      simp [hp]

theorem Index_eq_none_iff (sep s : Str) : Index sep s = none ↔ ¬ sep <:+: s := by
  rw [← Index_isSome_iff, Option.not_isSome_iff_eq_none]

theorem Contains_iff (s sep : Str) : Contains s sep = true ↔ sep <:+: s := by
  simp [Contains, Index_isSome_iff]

theorem Contains_false_iff (s sep : Str) : Contains s sep = false ↔ Index sep s = none := by
  simp [Contains]

theorem SEP_prefix_straddle (t d : Str) (h : SEP <+: t ++ (SEP ++ d)) : t = [] ∨ SEP <+: t := by
  match t with
  | [] => simp
  | [a] => simp [SEP, List.cons_prefix_cons] at h
  | [a, b] => simp [SEP, List.cons_prefix_cons] at h
  | [a, b, c] => simp [SEP, List.cons_prefix_cons] at h
  | [a, b, c, e] => simp [SEP, List.cons_prefix_cons] at h
  | a :: b :: c :: e :: f :: t =>
    right
    simp only [SEP, List.cons_append, List.cons_prefix_cons, List.nil_prefix, and_true] at h ⊢
    exact h

theorem Index_SEP_append (t d : Str) (h : Index SEP t = none) :
    Index SEP (t ++ (SEP ++ d)) = some t.length := by
  induction t with
  | nil => simp [Index, SEP]
  | cons c t ih =>
    unfold Index at h
    split at h
    · simp at h
    · rename_i hp
      simp only [Option.map_eq_none'] at h
      have hn : ¬ SEP <+: c :: t ++ (SEP ++ d) := by
        intro hs
        rcases SEP_prefix_straddle (c :: t) d hs with h1 | h1
        · simp at h1
        · exact hp h1
      simp only [List.cons_append] at hn ⊢
      unfold Index
      simp [hn, ih h]

theorem Cut_SEP_append (t d : Str) (h : Index SEP t = none) :
    Cut (t ++ (SEP ++ d)) SEP = (t, d, true) := by
  have hl : SEP.length = 5 := rfl
  simp only [Cut, Index_SEP_append t d h]
  rw [List.take_left', List.drop_append, List.drop_left']
  · rfl
  · rfl

theorem Split_append_cons_newline (pre rest : Str) :
    Split (pre ++ '\n' :: rest) = Split pre ++ Split rest := by
  induction pre with
  | nil => simp [Split]
  | cons c pre ih =>
    by_cases hc : c = '\n'
    · simp [Split, hc, ih]
    · have hne := Split_ne_nil pre
      cases hs : Split pre with
      | nil => exact absurd hs hne
      | cons seg segs =>
        simp [Split, hc, ih, hs]

theorem Split_lines (ls : List Str) (h : ∀ l ∈ ls, '\n' ∉ l) (rest : Str) :
    Split ((ls.map (· ++ NL)).flatten ++ rest) = ls ++ Split rest := by
  induction ls with
  | nil => simp
  | cons l ls ih =>
    have hl : '\n' ∉ l := h l (by simp)
    have hls : ∀ l ∈ ls, '\n' ∉ l := fun x hx => h x (by simp [hx])
    simp only [List.map_cons, List.flatten_cons, NL, List.append_assoc, List.singleton_append,
      List.cons_append]
    rw [Split_append_newline l _ hl]
    simp only [NL] at ih
    rw [List.nil_append, ih hls]

theorem parse_eq_readLoop (data : Str) : parse data = readLoop (Split data).dropLast [] := by
  unfold parse
  by_cases h : data.length > 0
  · simp only [h, if_true, List.dropLast_eq_take]
  · have : data = [] := by
      cases data with
      | nil => rfl
      | cons c s => simp at h
    subst this
    simp [Split, readLoop]

theorem writeLoop_eq (ts : List task) (b : Str) :
    writeLoop ts b = b ++ (ts.map storedLine).flatten := by
  induction ts generalizing b with
  | nil => simp [writeLoop]
  | cons t ts ih => simp [writeLoop, ih]

theorem serialize_eq (ts : List task) : serialize ts = (ts.map storedLine).flatten := by
  simp [serialize, writeLoop_eq]

theorem serialize_append (ts us : List task) :
    serialize (ts ++ us) = serialize ts ++ serialize us := by
  simp [serialize_eq]

theorem readLoop_ok (lines : List Str) (items : List task) (f : Str → task)
    (h : ∀ l ∈ lines, readLine l = some (f l)) :
    readLoop lines items = .ok (items ++ lines.map f) := by
  induction lines generalizing items with
  | nil => simp [readLoop]
  | cons l lines ih =>
    have hl : readLine l = some (f l) := h l (by simp)
    have hls : ∀ x ∈ lines, readLine x = some (f x) := fun x hx => h x (by simp [hx])
    simp [readLoop, hl, ih _ hls]

theorem readLoop_error (pre post : List Str) (bad : Str) (items : List task)
    (hpre : ∀ l ∈ pre, (readLine l).isSome) (hbad : readLine bad = none) :
    readLoop (pre ++ bad :: post) items = .error ("Error parsing task: ".toList ++ bad) := by
  induction pre generalizing items with
  | nil => simp [readLoop, hbad]
  | cons l pre ih =>
    have hl : (readLine l).isSome := hpre l (by simp)
    have hls : ∀ x ∈ pre, (readLine x).isSome := fun x hx => hpre x (by simp [hx])
    obtain ⟨t, ht⟩ := Option.isSome_iff_exists.mp hl
    simp [readLoop, ht, ih _ hls]

theorem readLine_isSome_iff (line : Str) : (readLine line).isSome ↔ Contains line SEP = true := by
  unfold readLine Cut Contains
  cases Index SEP line <;> simp

theorem readLine_eq_none_iff (line : Str) : readLine line = none ↔ Contains line SEP = false := by
  unfold readLine Cut Contains
  cases Index SEP line <;> simp

theorem readLine_storedLine (t : task) (ht : Contains t.title SEP = false)
    (hd : t.desc ≠ SENTINEL) :
    readLine (t.title ++ SEP ++ (if t.desc = [] then SENTINEL else t.desc)) = some t := by
  have hi := (Contains_false_iff _ _).mp ht
  unfold readLine
  rw [List.append_assoc, Cut_SEP_append _ _ hi]
  by_cases he : t.desc = []
  · simp [he]
    cases t; simp_all
  · simp [he, hd]

theorem write_contents (store : storage) (ts : List task) :
    store.write ts = { fd := { contents := serialize ts, offset := (serialize ts).length } } := by
  simp [storage.write, File.Truncate, File.Seek, File.WriteString]

theorem read_newStorage (data : Str) :
    (newStorage data).read =
      (parse data).map (fun ts => (ts, { fd := { contents := data, offset := data.length } })) := by
  unfold storage.read newStorage File.ReadAll
  simp only [List.drop_zero]
  cases parse data <;> simp [Except.map]

theorem exists_first (p : Str → Prop) [DecidablePred p] (l : List Str) (h : ∃ x ∈ l, p x) :
    ∃ pre bad post, l = pre ++ bad :: post ∧ (∀ y ∈ pre, ¬ p y) ∧ p bad := by
  induction l with
  | nil => simp at h
  | cons a l ih =>
    by_cases ha : p a
    · exact ⟨[], a, l, by simp, by simp, ha⟩
    · have h2 : ∃ x ∈ l, p x := by
        obtain ⟨x, hx, hp⟩ := h
        rcases List.mem_cons.mp hx with rfl | hx
        · exact absurd hp ha
        · exact ⟨x, hx, hp⟩
      obtain ⟨pre, bad, post, e, hpre, hbad⟩ := ih h2
      refine ⟨a :: pre, bad, post, by simp [e], ?_, hbad⟩
      intro y hy
      rcases List.mem_cons.mp hy with rfl | hy
      · exact ha
      · exact hpre y hy

theorem serialize_lines (ts : List task) :
    serialize ts =
      ((ts.map (fun t => t.title ++ SEP ++ (if t.desc = [] then SENTINEL else t.desc))).map
        (· ++ NL)).flatten := by
  rw [serialize_eq, List.map_map]
  rfl

theorem not_mem_SEP : '\n' ∉ SEP := by decide

theorem not_mem_SENTINEL : '\n' ∉ SENTINEL := by decide

theorem readLoop_map (ts : List task) (g : task → Str) (items : List task)
    (h : ∀ t ∈ ts, readLine (g t) = some t) :
    readLoop (ts.map g) items = .ok (items ++ ts) := by
  induction ts generalizing items with
  | nil => simp [readLoop]
  | cons t ts ih =>
    have ht : readLine (g t) = some t := h t (by simp)
    have hts : ∀ x ∈ ts, readLine (g x) = some x := fun x hx => h x (by simp [hx])
    simp [readLoop, ht, ih _ hts]

theorem parse_serialize (ts : List task)
    (hsep : ∀ t ∈ ts, Contains t.title SEP = false)
    (hnl : ∀ t ∈ ts, '\n' ∉ t.title ∧ '\n' ∉ t.desc)
    (hsent : ∀ t ∈ ts, t.desc ≠ SENTINEL) :
    parse (serialize ts) = .ok ts := by
  rw [parse_eq_readLoop, serialize_lines]
  have hs := Split_lines
    (ts.map (fun t => t.title ++ SEP ++ (if t.desc = [] then SENTINEL else t.desc)))
    (by
      intro l hl
      obtain ⟨t, ht, rfl⟩ := List.mem_map.mp hl
      have h1 := hnl t ht
      have h2 := not_mem_SEP
      have h3 := not_mem_SENTINEL
      by_cases hd : t.desc = []
      · simp [hd, h1.1, h2, h3]
      · simp [hd, h1.1, h1.2, h2]) []
  rw [List.append_nil] at hs
  rw [hs]
  simp only [Split, List.dropLast_concat]
  rw [readLoop_map ts _ [] (fun t ht => readLine_storedLine t (hsep t ht) (hsent t ht))]
  rfl

/-! ## Storage round trips -/

/-- C1 (as stated, refuted): the task list holding the one task with title `a`
and description `-$-` has no separator and no newline in either field, yet the
bytes `storage.write` leaves for it are read back, from the start of the file,
as a task with an empty description. -/
theorem roundtrip_loses_sentinel_desc :
    Contains "a".toList SEP = false ∧ Contains "-$-".toList SEP = false ∧
    '\n' ∉ "a".toList ∧ '\n' ∉ "-$-".toList ∧
    (newStorage ((newStorage []).write [task.mk "a".toList "-$-".toList]).fd.contents).read =
      .ok ([task.mk "a".toList []],
           { fd := { contents := "a<-$->-$-\n".toList, offset := 10 } }) ∧
    [task.mk "a".toList []] ≠ [task.mk "a".toList "-$-".toList] := by
  refine ⟨by decide, by decide, by decide, by decide, by rfl, by decide⟩

/-- C1 (amended): for every task list whose titles and descriptions contain
neither the separator `<-$->` nor a newline, and whose descriptions are not the
text `-$-`, the bytes left in the file by `storage.write` (whatever the storage
held before), read by `storage.read` through a handle at the start of the file,
give back the same list: same length, same order, same titles and descriptions,
empty descriptions included. -/
theorem roundtrip_write_read (store : storage) (ts : List task)
    (hsep : ∀ t ∈ ts, Contains t.title SEP = false ∧ Contains t.desc SEP = false)
    (hnl : ∀ t ∈ ts, '\n' ∉ t.title ∧ '\n' ∉ t.desc)
    (hsent : ∀ t ∈ ts, t.desc ≠ SENTINEL) :
    (newStorage (store.write ts).fd.contents).read =
      .ok (ts, { fd := { contents := serialize ts, offset := (serialize ts).length } }) := by
  rw [write_contents, read_newStorage, parse_serialize ts (fun t ht => (hsep t ht).1) hnl hsent]
  rfl

/-- Witness for `roundtrip_write_read`: two tasks, the second with an empty description. -/
theorem roundtrip_write_read_witness :
    (newStorage ((newStorage "old<-$->text\n".toList).write
        [task.mk "buy milk".toList "2 litres".toList, task.mk "call".toList []]).fd.contents).read =
      .ok ([task.mk "buy milk".toList "2 litres".toList, task.mk "call".toList []],
           { fd := { contents := serialize [task.mk "buy milk".toList "2 litres".toList,
                                            task.mk "call".toList []],
                     offset := (serialize [task.mk "buy milk".toList "2 litres".toList,
                                           task.mk "call".toList []]).length } }) :=
  roundtrip_write_read (newStorage "old<-$->text\n".toList)
    [task.mk "buy milk".toList "2 litres".toList, task.mk "call".toList []]
    (by decide) (by decide) (by decide)

/-- C2 (as stated, refuted): the task with the newline-free title `a<-$->b` and
an empty description is written as the line `a<-$->b<-$->-$-`, and that line is
read back as the task with title `a` and description `b<-$->-$-`, which is not
empty. -/
theorem sentinel_lost_behind_separator_title :
    '\n' ∉ "a<-$->b".toList ∧
    serialize [task.mk "a<-$->b".toList []] = "a<-$->b".toList ++ SEP ++ SENTINEL ++ NL ∧
    (newStorage ("a<-$->b".toList ++ SEP ++ SENTINEL ++ NL)).read =
      .ok ([task.mk "a".toList "b<-$->-$-".toList],
           { fd := { contents := "a<-$->b<-$->-$-\n".toList, offset := 16 } }) ∧
    "b<-$->-$-".toList ≠ [] := by
  refine ⟨by decide, by decide, by rfl, by decide⟩

/-- C2 (amended): for every task with an empty description, `storage.write`
emits for it the line `title ++ "<-$->" ++ "-$-" ++ "\n"`, wherever the task
stands in the list; and when the title holds neither a newline nor the
separator, `storage.read` of that line yields the task with that title and the
empty string as description, not the text `-$-`. -/
theorem sentinel_roundtrip (t : task) (hd : t.desc = []) :
    storedLine t = t.title ++ SEP ++ SENTINEL ++ NL ∧
    (∀ before after : List task, serialize (before ++ t :: after) =
      serialize before ++ (t.title ++ SEP ++ SENTINEL ++ NL) ++ serialize after) ∧
    ('\n' ∉ t.title → Contains t.title SEP = false →
      (newStorage (t.title ++ SEP ++ SENTINEL ++ NL)).read =
        .ok ([task.mk t.title []],
             { fd := { contents := t.title ++ SEP ++ SENTINEL ++ NL,
                       offset := (t.title ++ SEP ++ SENTINEL ++ NL).length } })) := by
  have hline : storedLine t = t.title ++ SEP ++ SENTINEL ++ NL := by simp [storedLine, hd]
  refine ⟨hline, ?_, ?_⟩
  · intro before after
    simp [serialize_eq, hline]
  · intro hnl hsep
    have hp := parse_serialize [t] (by simpa using hsep) (by simp [hnl, hd])
      (by simp [hd, SENTINEL])
    have hs : serialize [t] = t.title ++ SEP ++ SENTINEL ++ NL := by
      simp [serialize_eq, hline]
    rw [hs] at hp
    rw [read_newStorage, hp]
    cases t
    simp_all [Except.map]

/-- Witness for `sentinel_roundtrip`: the task `call` with no description. -/
theorem sentinel_roundtrip_witness :
    storedLine (task.mk "call".toList []) = "call<-$->-$-\n".toList ∧
    (newStorage "call<-$->-$-\n".toList).read =
      .ok ([task.mk "call".toList []],
           { fd := { contents := "call<-$->-$-\n".toList, offset := 13 } }) :=
  ⟨(sentinel_roundtrip (task.mk "call".toList []) rfl).1,
   (sentinel_roundtrip (task.mk "call".toList []) rfl).2.2 (by decide) (by decide)⟩

/-! ## Reading twice -/

/-- C3 (as stated, refuted): on the file `a<-$->b` plus newline, with the handle
at the start, the first `storage.read` returns the one task and the second,
with no write in between, returns the empty sequence. -/
theorem second_read_differs :
    (newStorage "a<-$->b\n".toList).read =
      .ok ([task.mk "a".toList "b".toList],
           { fd := { contents := "a<-$->b\n".toList, offset := 8 } }) ∧
    (storage.mk { contents := "a<-$->b\n".toList, offset := 8 }).read =
      .ok ([], { fd := { contents := "a<-$->b\n".toList, offset := 8 } }) ∧
    [task.mk "a".toList "b".toList] ≠ ([] : List task) := by
  refine ⟨by rfl, by rfl, by decide⟩

/-- C3 (amended): with the storage modelled as the file contents and the
handle offset, a `storage.read` that succeeds leaves the contents as they are
and the handle at the end of the file; a second `storage.read` with no
`storage.write` in between therefore succeeds, returns the empty sequence and
changes nothing. The two calls return the same sequence exactly when the first
returned the empty sequence, and every later call returns what the second did. -/
theorem read_twice (store store1 : storage) (ts : List task)
    (h : store.read = .ok (ts, store1)) :
    store1.fd.contents = store.fd.contents ∧
    store.fd.contents.length ≤ store1.fd.offset ∧
    store1.read = .ok ([], store1) ∧
    ((∃ ts2 store2, store1.read = .ok (ts2, store2) ∧ ts2 = ts) ↔ ts = []) := by
  have h1 : store1 = { fd := { contents := store.fd.contents,
                               offset := max store.fd.offset store.fd.contents.length } } := by
    unfold storage.read File.ReadAll at h
    cases hp : parse (List.drop store.fd.offset store.fd.contents) with
    | error e => simp [hp] at h
    | ok items =>
      simp [hp] at h
      exact h.2.symm
  have h2 : store1.read = .ok ([], store1) := by
    subst h1
    unfold storage.read File.ReadAll
    have : List.drop (max store.fd.offset store.fd.contents.length) store.fd.contents = [] := by
      apply List.drop_eq_nil_of_le
      exact le_max_right _ _
    simp [this, parse]
  refine ⟨by rw [h1], by rw [h1]; exact le_max_right _ _, h2, ?_⟩
  rw [h2]
  constructor
  · rintro ⟨ts2, store2, he, rfl⟩
    simp at he
    exact he.1
  · rintro rfl
    exact ⟨[], store1, rfl, rfl⟩

/-- Witness for `read_twice`: a file of one line, read from its start. -/
theorem read_twice_witness :
    (storage.mk { contents := "a<-$->b\n".toList, offset := 8 }).read =
      .ok ([], { fd := { contents := "a<-$->b\n".toList, offset := 8 } }) :=
  (read_twice (newStorage "a<-$->b\n".toList)
    { fd := { contents := "a<-$->b\n".toList, offset := 8 } }
    [task.mk "a".toList "b".toList] (by rfl)).2.2.1

/-! ## Parsing -/

/-- C9: for every file contents read from the start, with `lines` the
newline-terminated lines (every split segment but the last): `storage.read`
ends in the fatal error `Error parsing task: <line>` for one of the lines if and
only if at least one of the lines does not contain the separator; the line
named is the first such line, and no task sequence is returned (the result is
the error alone, whatever the other lines hold); and when every line contains
the separator, `storage.read` returns exactly one task per line, in file
order, each the task its line parses to. -/
theorem read_fatal_iff (data : Str) :
    ((∃ line ∈ (Split data).dropLast,
        (newStorage data).read = .error ("Error parsing task: ".toList ++ line)) ↔
      ∃ line ∈ (Split data).dropLast, Contains line SEP = false) ∧
    (∀ (good : List Str) (bad : Str) (rest : List Str),
      (Split data).dropLast = good ++ bad :: rest →
      (∀ l ∈ good, Contains l SEP = true) → Contains bad SEP = false →
      (newStorage data).read = .error ("Error parsing task: ".toList ++ bad)) ∧
    ((∀ line ∈ (Split data).dropLast, Contains line SEP = true) →
      ∃ ts : List task,
        (newStorage data).read =
          .ok (ts, { fd := { contents := data, offset := data.length } }) ∧
        ts.length = (Split data).dropLast.length ∧
        (Split data).dropLast.map readLine = ts.map some) := by
  have hbad : ∀ (good : List Str) (bad : Str) (rest : List Str),
      (Split data).dropLast = good ++ bad :: rest →
      (∀ l ∈ good, Contains l SEP = true) → Contains bad SEP = false →
      (newStorage data).read = .error ("Error parsing task: ".toList ++ bad) := by
    intro good bad rest hsplit hgood hb
    rw [read_newStorage, parse_eq_readLoop, hsplit,
      readLoop_error good rest bad [] (fun l hl => (readLine_isSome_iff l).mpr (hgood l hl))
        ((readLine_eq_none_iff bad).mpr hb)]
    rfl
  have hok : (∀ line ∈ (Split data).dropLast, Contains line SEP = true) →
      ∃ ts : List task,
        (newStorage data).read =
          .ok (ts, { fd := { contents := data, offset := data.length } }) ∧
        ts.length = (Split data).dropLast.length ∧
        (Split data).dropLast.map readLine = ts.map some := by
    intro hall
    refine ⟨(Split data).dropLast.map (fun l => (readLine l).getD (task.mk [] [])), ?_, ?_, ?_⟩
    · rw [read_newStorage, parse_eq_readLoop,
        readLoop_ok _ [] (fun l => (readLine l).getD (task.mk [] [])) ?_]
      · rfl
      · intro l hl
        obtain ⟨t, ht⟩ := Option.isSome_iff_exists.mp ((readLine_isSome_iff l).mpr (hall l hl))
        simp [ht]
    · simp
    · rw [List.map_map]
      apply List.map_congr_left
      intro l hl
      obtain ⟨t, ht⟩ := Option.isSome_iff_exists.mp ((readLine_isSome_iff l).mpr (hall l hl))
      simp [ht]
  refine ⟨⟨?_, ?_⟩, hbad, hok⟩
  · rintro ⟨line, _, herr⟩
    by_contra hno
    have hall : ∀ line ∈ (Split data).dropLast, Contains line SEP = true := by
      intro l hl
      by_contra hc
      exact hno ⟨l, hl, by simpa using hc⟩
    obtain ⟨ts, hts, _⟩ := hok hall
    rw [hts] at herr
    cases herr
  · intro hex
    obtain ⟨good, bad, rest, hsplit, hgood, hb⟩ :=
      exists_first (fun l => Contains l SEP = false) _ hex
    refine ⟨bad, by rw [hsplit]; simp, hbad good bad rest hsplit ?_ hb⟩
    intro l hl
    simpa using hgood l hl

/-- C10: `storage.read` of an empty file yields the empty sequence; for any
contents only the split segments before the last one are handed to the parsing
loop; contents of the form `body`, newline, `tail` with `tail` free of newlines
split into the segments of `body` followed by `tail`, and the result of the
read is that of parsing the segments of `body` alone, whatever `tail` holds
(empty, or text after the last newline, dropped without error); contents
without any newline yield the empty sequence; `a<-$->b` alone yields no task
and `a<-$->b`, newline, `garbage` yields the single task with title `a` and
description `b`. -/
theorem read_drops_last_segment :
    (newStorage []).read = .ok ([], { fd := { contents := [], offset := 0 } }) ∧
    (∀ data : Str, (newStorage data).read =
      (readLoop (Split data).dropLast []).map
        (fun ts => (ts, { fd := { contents := data, offset := data.length } }))) ∧
    (∀ body tail : Str, '\n' ∉ tail →
      Split (body ++ NL ++ tail) = Split body ++ [tail] ∧
      (newStorage (body ++ NL ++ tail)).read =
        (readLoop (Split body) []).map
          (fun ts => (ts, { fd := { contents := body ++ NL ++ tail,
                                    offset := (body ++ NL ++ tail).length } }))) ∧
    (∀ tail : Str, '\n' ∉ tail →
      (newStorage tail).read = .ok ([], { fd := { contents := tail, offset := tail.length } })) ∧
    (newStorage "a<-$->b".toList).read =
      .ok ([], { fd := { contents := "a<-$->b".toList, offset := 7 } }) ∧
    (newStorage "a<-$->b\ngarbage".toList).read =
      .ok ([task.mk "a".toList "b".toList],
           { fd := { contents := "a<-$->b\ngarbage".toList, offset := 15 } }) := by
  have hall : ∀ data : Str, (newStorage data).read =
      (readLoop (Split data).dropLast []).map
        (fun ts => (ts, { fd := { contents := data, offset := data.length } })) := by
    intro data
    rw [read_newStorage, parse_eq_readLoop]
  refine ⟨by rfl, hall, ?_, ?_, by rfl, by rfl⟩
  · intro body tail htail
    have hs : Split (body ++ NL ++ tail) = Split body ++ [tail] := by
      simp only [NL, List.append_assoc, List.singleton_append]
      rw [Split_append_cons_newline, Split_of_no_newline tail htail]
    refine ⟨hs, ?_⟩
    rw [hall, hs, List.dropLast_concat]
  · intro tail htail
    rw [hall, Split_of_no_newline tail htail]
    rfl


/-! ## Lemmas on reading a line -/

theorem TrimSpace_concat_space (l : Str) (c : Char) (hc : isSpace c = true) :
    TrimSpace (l ++ [c]) = TrimSpace l := by
  unfold TrimSpace
  by_cases hall : ∀ a ∈ l, isSpace a = true
  · have h1 : List.dropWhile isSpace (l ++ [c]) = [] := by
      rw [List.dropWhile_eq_nil_iff]
      intro a ha
      rcases List.mem_append.mp ha with h | h
      · exact hall a h
      · rw [List.mem_singleton] at h
        rw [h]
        exact hc
    have h2 : List.dropWhile isSpace l = [] := List.dropWhile_eq_nil_iff.mpr hall
    rw [h1, h2]
  · have h1 : List.dropWhile isSpace (l ++ [c]) = List.dropWhile isSpace l ++ [c] := by
      rw [List.dropWhile_append]
      have hne : List.dropWhile isSpace l ≠ [] := by
        intro h
        exact hall (List.dropWhile_eq_nil_iff.mp h)
      simp [hne]
    rw [h1, List.reverse_append]
    simp [List.dropWhile_cons, hc]

theorem TrimSpace_dropCR (l : Str) : TrimSpace (dropCR l) = TrimSpace l := by
  unfold dropCR
  by_cases h : l.getLast? = some '\r'
  · rw [if_pos h]
    have hl : l = l.dropLast ++ ['\r'] := by
      have hne : l ≠ [] := by
        intro h0
        rw [h0] at h
        simp at h
      have := List.dropLast_append_getLast hne
      rw [List.getLast?_eq_getLast _ hne] at h
      simp only [Option.some.injEq] at h
      rw [h] at this
      exact this.symm
    conv_rhs => rw [hl]
    exact (TrimSpace_concat_space l.dropLast '\r' (by decide)).symm
  · rw [if_neg h]

theorem byteLen_nil : byteLen [] = 0 := rfl

theorem byteLen_replicate_ascii (n : Nat) (c : Char) (hc : c.utf8Size = 1) :
    byteLen (List.replicate n c) = n := by
  unfold byteLen
  induction n with
  | zero => rfl
  | succ n ih => simp [List.replicate_succ, ih, hc, Nat.add_comm]

theorem readInput_of_short (w : World)
    (h : byteLen (w.input.headD []) < MaxScanTokenSize) :
    readInput w = .ok (TrimSpace (w.input.headD []), { w with input := w.input.tail }) := by
  rcases w with ⟨input, store, trace⟩
  cases input with
  | nil => rfl
  | cons line rest =>
    simp only [List.headD_cons] at h
    simp [readInput, Nat.not_le.mpr h, TrimSpace_dropCR]

theorem readInput_of_long (w : World) (line : Str) (rest : List Str)
    (hin : w.input = line :: rest) (h : MaxScanTokenSize ≤ byteLen line) :
    readInput w = .error (Failure.fatal ErrTooLong w) := by
  unfold readInput
  rw [hin]
  simp [h]

theorem readInput_cases (w : World) :
    readInput w = .ok (TrimSpace (w.input.headD []), { w with input := w.input.tail }) ∨
    (∃ (line : Str) (rest : List Str), w.input = line :: rest ∧
      MaxScanTokenSize ≤ byteLen line ∧ readInput w = .error (Failure.fatal ErrTooLong w)) := by
  by_cases h : byteLen (w.input.headD []) < MaxScanTokenSize
  · exact Or.inl (readInput_of_short w h)
  · right
    cases hw : w.input with
    | nil =>
      rw [hw] at h
      exact absurd (by decide) h
    | cons line rest =>
      rw [hw] at h
      simp only [List.headD_cons, Nat.not_lt] at h
      exact ⟨line, rest, rfl, h, readInput_of_long w line rest hw h⟩

/-! ## Lemmas on the selection loop -/

theorem acceptId_eq_some_iff (text : Str) (n : Nat) (id : Int) :
    acceptId text n = some id ↔
      ∃ v : Int, Atoi text = some v ∧ 1 ≤ v ∧ v ≤ (n : Int) ∧ id = v - 1 := by
  unfold acceptId
  cases h : Atoi text with
  | none => simp
  | some val =>
    by_cases hr : val ≥ 1 ∧ val ≤ (n : Int)
    · simp only [hr, and_self, if_true, Option.some.injEq]
      constructor
      · rintro rfl
        exact ⟨val, rfl, hr.1, hr.2, rfl⟩
      · rintro ⟨v, rfl, _, _, rfl⟩
        rfl
    · simp only [hr, if_false]
      constructor
      · intro h0
        cases h0
      · rintro ⟨v, hv, h1, h2, _⟩
        cases hv
        exact absurd ⟨h1, h2⟩ hr

theorem acceptId_eq_none_iff (text : Str) (n : Nat) :
    acceptId text n = none ↔
      ∀ v : Int, Atoi text = some v → ¬ (1 ≤ v ∧ v ≤ (n : Int)) := by
  constructor
  · intro h v hv hr
    have := (acceptId_eq_some_iff text n (v - 1)).mpr ⟨v, hv, hr.1, hr.2, rfl⟩
    rw [h] at this
    cases this
  · intro h
    cases ha : acceptId text n with
    | none => rfl
    | some id =>
      obtain ⟨v, hv, h1, h2, _⟩ := (acceptId_eq_some_iff text n id).mp ha
      exact absurd ⟨h1, h2⟩ (h v hv)

theorem readTaskIdLoop_nil (s : state) (w : World) :
    readTaskIdLoop s [] w = .ok (-1, { w with input := [] }) := rfl

theorem readTaskIdLoop_cons_long (s : state) (line : Str) (rest : List Str) (w : World)
    (h : MaxScanTokenSize ≤ byteLen line) :
    readTaskIdLoop s (line :: rest) w =
      .error (Failure.fatal ErrTooLong { w with input := line :: rest }) := by
  unfold readTaskIdLoop
  rw [readInput_of_long { w with input := line :: rest } line rest rfl h]

theorem readTaskIdLoop_cons_short (s : state) (line : Str) (rest : List Str) (w : World)
    (h : byteLen line < MaxScanTokenSize) :
    readTaskIdLoop s (line :: rest) w =
      if TrimSpace line = [] then .ok (-1, { w with input := rest })
      else
        match acceptId (TrimSpace line) s.tasks.length with
        | some id => .ok (id, { w with input := rest })
        | none =>
          readTaskIdLoop s rest
            { input := rest, store := w.store, trace := w.trace ++ [Event.print (draw s)] } := by
  conv_lhs => unfold readTaskIdLoop
  rw [readInput_of_short { w with input := line :: rest } (by simpa using h)]
  rfl

theorem readTaskIdLoop_input_irrel (s : state) (lines input : List Str) (w : World) :
    readTaskIdLoop s lines { w with input := input } = readTaskIdLoop s lines w := by
  cases lines <;> rfl

theorem readTaskIdLoop_skip (s : state) (skipped : List Str) (lines : List Str) (w : World)
    (hshort : ∀ x ∈ skipped, byteLen x < MaxScanTokenSize)
    (h : ∀ x ∈ skipped, TrimSpace x ≠ [] ∧ acceptId (TrimSpace x) s.tasks.length = none) :
    readTaskIdLoop s (skipped ++ lines) w =
      readTaskIdLoop s lines
        { w with trace := w.trace ++ List.replicate skipped.length (Event.print (draw s)) } := by
  induction skipped generalizing w with
  | nil => simp
  | cons x skipped ih =>
    have hx := h x (by simp)
    have hxs := hshort x (by simp)
    have hrest : ∀ y ∈ skipped, TrimSpace y ≠ [] ∧ acceptId (TrimSpace y) s.tasks.length = none :=
      fun y hy => h y (by simp [hy])
    have hrs : ∀ y ∈ skipped, byteLen y < MaxScanTokenSize := fun y hy => hshort y (by simp [hy])
    rw [List.cons_append, readTaskIdLoop_cons_short s x _ w hxs, if_neg hx.1, hx.2]
    simp only []
    rw [ih _ hrs hrest]
    have hw : ({ input := w.input, store := w.store,
                 trace := w.trace ++ List.replicate (x :: skipped).length
                   (Event.print (draw s)) } : World) =
        { ({ input := skipped ++ lines, store := w.store,
             trace := w.trace ++ [Event.print (draw s)] ++
               List.replicate skipped.length (Event.print (draw s)) } : World)
          with input := w.input } := by
      simp [List.replicate_succ]
    rw [hw, readTaskIdLoop_input_irrel]

theorem readTaskIdLoop_outcome (s : state) (lines : List Str) (w : World) :
    (∃ (id : Int) (k : Nat) (rest : List Str),
      readTaskIdLoop s lines w =
        .ok (id, { input := rest, store := w.store,
                   trace := w.trace ++ List.replicate k (Event.print (draw s)) }) ∧
      rest <:+ lines ∧ (id = -1 ∨ (0 ≤ id ∧ id < (s.tasks.length : Int)))) ∨
    (∃ (k : Nat) (line : Str) (rest : List Str),
      readTaskIdLoop s lines w =
        .error (Failure.fatal ErrTooLong
          { input := line :: rest, store := w.store,
            trace := w.trace ++ List.replicate k (Event.print (draw s)) }) ∧
      line :: rest <:+ lines ∧ MaxScanTokenSize ≤ byteLen line) := by
  induction lines generalizing w with
  | nil =>
    exact Or.inl ⟨-1, 0, [], by simp [readTaskIdLoop_nil], List.suffix_refl _, Or.inl rfl⟩
  | cons x lines ih =>
    by_cases hx : byteLen x < MaxScanTokenSize
    · rw [readTaskIdLoop_cons_short s x lines w hx]
      by_cases he : TrimSpace x = []
      · rw [if_pos he]
        exact Or.inl ⟨-1, 0, lines, by simp, List.suffix_cons x lines, Or.inl rfl⟩
      · rw [if_neg he]
        cases ha : acceptId (TrimSpace x) s.tasks.length with
        | some id =>
          obtain ⟨v, _, h1, h2, rfl⟩ := (acceptId_eq_some_iff _ _ _).mp ha
          exact Or.inl ⟨v - 1, 0, lines, by simp, List.suffix_cons x lines,
            Or.inr ⟨by omega, by omega⟩⟩
        | none =>
          simp only []
          rcases ih { input := lines, store := w.store,
                      trace := w.trace ++ [Event.print (draw s)] } with
            ⟨id, k, rest, hr, hsuf, hrange⟩ | ⟨k, line, rest, hr, hsuf, hlong⟩
          · refine Or.inl ⟨id, k + 1, rest, ?_, hsuf.trans (List.suffix_cons x lines), hrange⟩
            rw [hr]
            simp [List.replicate_succ]
          · refine Or.inr ⟨k + 1, line, rest, ?_, hsuf.trans (List.suffix_cons x lines), hlong⟩
            rw [hr]
            simp [List.replicate_succ]
    · have hlong : MaxScanTokenSize ≤ byteLen x := Nat.not_lt.mp hx
      rw [readTaskIdLoop_cons_long s x lines w hlong]
      exact Or.inr ⟨0, x, lines, by simp, List.suffix_refl _, hlong⟩

theorem readTaskId_outcome (w : World) (s : state) :
    (∃ (id : Int) (k : Nat) (rest : List Str),
      readTaskId w s =
        .ok (id, { input := rest, store := w.store,
                   trace := w.trace ++ List.replicate k (Event.print (draw s)) }) ∧
      rest <:+ w.input ∧ (id = -1 ∨ (0 ≤ id ∧ id < (s.tasks.length : Int)))) ∨
    (∃ (k : Nat) (line : Str) (rest : List Str),
      readTaskId w s =
        .error (Failure.fatal ErrTooLong
          { input := line :: rest, store := w.store,
            trace := w.trace ++ List.replicate k (Event.print (draw s)) }) ∧
      line :: rest <:+ w.input ∧ MaxScanTokenSize ≤ byteLen line) :=
  readTaskIdLoop_outcome s w.input w

theorem setTitle_some (ts : List task) (id : Int) (title : Str)
    (h0 : 0 ≤ id) (hn : id < (ts.length : Int)) :
    ∃ t, ts[id.toNat]? = some t ∧
      setTitle ts id title = some (ts.set id.toNat { t with title := title }) := by
  have hlt : id.toNat < ts.length := by omega
  refine ⟨ts[id.toNat], by simp [hlt], ?_⟩
  simp [setTitle, h0, hlt]

theorem setDesc_some (ts : List task) (id : Int) (desc : Str)
    (h0 : 0 ≤ id) (hn : id < (ts.length : Int)) :
    ∃ t, ts[id.toNat]? = some t ∧
      setDesc ts id desc = some (ts.set id.toNat { t with desc := desc }) := by
  have hlt : id.toNat < ts.length := by omega
  refine ⟨ts[id.toNat], by simp [hlt], ?_⟩
  simp [setDesc, h0, hlt]

theorem applyEdit_isSome (st : state) (w : World) (id : Int) (title desc : Str)
    (h0 : 0 ≤ id) (hn : id < (st.tasks.length : Int)) :
    (applyEdit st w id title desc).isSome := by
  unfold applyEdit
  by_cases ht : title = []
  · by_cases hd : desc = []
    · simp [ht, hd]
    · obtain ⟨t, _, hs⟩ := setDesc_some st.tasks id desc h0 hn
      simp [ht, hd, hs]
  · obtain ⟨t, _, hs⟩ := setTitle_some st.tasks id title h0 hn
    by_cases hd : desc = []
    · simp [ht, hd, hs]
    · obtain ⟨t2, _, hs2⟩ := setDesc_some (st.tasks.set id.toNat { t with title := title }) id desc
        h0 (by simpa using hn)
      simp [ht, hd, hs, hs2]


theorem TrimSpace_replicate_not_space (n : Nat) (c : Char) (hc : isSpace c = false) :
    TrimSpace (List.replicate n c) = List.replicate n c := by
  have hd : List.dropWhile isSpace (List.replicate n c) = List.replicate n c := by
    cases n with
    | zero => rfl
    | succ n => simp [List.replicate_succ, List.dropWhile_cons, hc]
  unfold TrimSpace
  rw [hd, List.reverse_replicate, hd, List.reverse_replicate]

theorem TrimSpace_replicate_space (n : Nat) (c : Char) (hc : isSpace c = true) :
    TrimSpace (List.replicate n c) = [] := by
  have hd : List.dropWhile isSpace (List.replicate n c) = [] := by
    rw [List.dropWhile_eq_nil_iff]
    intro a ha
    rw [List.eq_of_mem_replicate ha]
    exact hc
  unfold TrimSpace
  rw [hd]
  rfl

theorem TrimSpace_append_replicate_space (l : Str) (n : Nat) (c : Char) (hc : isSpace c = true) :
    TrimSpace (l ++ List.replicate n c) = TrimSpace l := by
  induction n with
  | zero => simp
  | succ n ih =>
    rw [List.replicate_succ', ← List.append_assoc, TrimSpace_concat_space _ c hc, ih]

theorem Atoi_replicate_x (n : Nat) : Atoi (List.replicate (n + 1) 'x') = none := by
  rw [List.replicate_succ]
  simp [Atoi, parseDigits]

theorem readInput_ne_panic (w : World) : readInput w ≠ .error Failure.panic := by
  rcases readInput_cases w with h | ⟨_, _, _, _, h⟩ <;> rw [h] <;> simp

theorem caseEdit_ne_panic (st : state) (w : World) : caseEdit st w ≠ .error Failure.panic := by
  unfold caseEdit
  by_cases he : st.tasks.length = 0
  · simp [he]
  · rw [if_neg he]
    simp only []
    rcases readTaskId_outcome
      (w.print (draw { st with message := "Choose task to edit (empty to cancel):".toList,
                               modifying := true }))
      { st with message := "Choose task to edit (empty to cancel):".toList, modifying := true }
      with ⟨id, k, rest, hr, _, hrange⟩ | ⟨k, line, rest, hr, _, _⟩
    · rw [hr]
      simp only []
      by_cases hid : id = -1
      · simp [hid]
      · rw [if_pos hid]
        rcases hrange with h | h
        · exact absurd h hid
        · split
          · rename_i e heq
            intro hh
            cases hh
            exact readInput_ne_panic _ heq
          · split
            · rename_i e heq
              intro hh
              cases hh
              exact readInput_ne_panic _ heq
            · split
              · rename_i hnone
                exfalso
                have h2 : ∀ (stx : state) (wx : World) (tx dx : Str), stx.tasks = st.tasks →
                    applyEdit stx wx id tx dx ≠ none := by
                  intro stx wx tx dx hst
                  apply Option.isSome_iff_ne_none.mp
                  exact applyEdit_isSome stx wx id tx dx h.1 (by rw [hst]; exact h.2)
                exact absurd hnone (h2 _ _ _ _ rfl)
              · simp
    · rw [hr]
      simp

theorem readTaskId_decided (s : state) (w : World) (skipped : List Str) (line : Str)
    (rest : List Str) (hin : w.input = skipped ++ line :: rest)
    (hskip : ∀ x ∈ skipped, byteLen x < MaxScanTokenSize ∧ TrimSpace x ≠ [] ∧
      ∀ v : Int, Atoi (TrimSpace x) = some v → ¬ (1 ≤ v ∧ v ≤ (s.tasks.length : Int))) :
    (byteLen line < MaxScanTokenSize → TrimSpace line = [] →
      readTaskId w s =
        .ok (-1, { w with input := rest,
                          trace := w.trace ++
                            List.replicate skipped.length (Event.print (draw s)) })) ∧
    (byteLen line < MaxScanTokenSize →
      ∀ v : Int, Atoi (TrimSpace line) = some v → 1 ≤ v → v ≤ (s.tasks.length : Int) →
      readTaskId w s =
        .ok (v - 1, { w with input := rest,
                             trace := w.trace ++
                               List.replicate skipped.length (Event.print (draw s)) })) ∧
    (MaxScanTokenSize ≤ byteLen line →
      readTaskId w s =
        .error (Failure.fatal ErrTooLong
          { w with input := line :: rest,
                   trace := w.trace ++
                     List.replicate skipped.length (Event.print (draw s)) })) := by
  have hsk : readTaskId w s = readTaskIdLoop s (line :: rest)
      { w with trace := w.trace ++ List.replicate skipped.length (Event.print (draw s)) } := by
    rw [readTaskId]
    conv_lhs => rw [hin]
    exact readTaskIdLoop_skip s skipped (line :: rest) w
      (fun x hx => (hskip x hx).1)
      (fun x hx => ⟨(hskip x hx).2.1, (acceptId_eq_none_iff _ _).mpr (hskip x hx).2.2⟩)
  refine ⟨?_, ?_, ?_⟩
  · intro hshort he
    rw [hsk, readTaskIdLoop_cons_short _ _ _ _ hshort, if_pos he]
  · intro hshort v hv h1 h2
    have hne : TrimSpace line ≠ [] := by
      intro he
      rw [he] at hv
      simp [Atoi] at hv
    have hacc := (acceptId_eq_some_iff (TrimSpace line) s.tasks.length (v - 1)).mpr
      ⟨v, hv, h1, h2, rfl⟩
    rw [hsk, readTaskIdLoop_cons_short _ _ _ _ hshort, if_neg hne, hacc]
  · intro hlong
    rw [hsk, readTaskIdLoop_cons_long _ _ _ _ hlong]

/-! ## Index selection -/

/-- C6 (as stated, refuted): against three tasks, the input lines are a line of
65536 letters `x` and then an empty line. The first line is not empty after
trimming and is no integer, so by the claim it only causes a redraw and the
empty line decides, with result `-1`; but `readTaskId` ends there in the fatal
error of the Scanner, before any redraw. -/
theorem long_line_ends_selection :
    TrimSpace (List.replicate 65536 'x') ≠ [] ∧
    Atoi (TrimSpace (List.replicate 65536 'x')) = none ∧
    TrimSpace "".toList = [] ∧
    readTaskId
      { input := [List.replicate 65536 'x', "".toList], store := newStorage [], trace := [] }
      { tasks := [task.mk "a".toList [], task.mk "b".toList [], task.mk "c".toList []],
        message := [], modifying := true } =
    .error (Failure.fatal ErrTooLong
      { input := [List.replicate 65536 'x', "".toList], store := newStorage [],
        trace := [] }) := by
  have ht := TrimSpace_replicate_not_space 65536 'x' (by decide)
  refine ⟨?_, ?_, by decide, ?_⟩
  · rw [ht]
    intro h
    have := congrArg List.length h
    rw [List.length_replicate, List.length_nil] at this
    exact absurd this (by decide)
  · rw [ht]
    exact Atoi_replicate_x 65535
  · exact readTaskIdLoop_cons_long _ _ _ _
      (by rw [byteLen_replicate_ascii 65536 'x' (by decide)]; decide)

/-- C6 (amended): `readTaskId` consumes the input lines in order. When the lines
before `line` are all shorter than 65536 bytes and rejected (non-empty after
trimming and not an integer `v` with `1 <= v <= n`, for `n` the number of
tasks), each of them only causes one redraw of the state, and `line` decides:
shorter than 65536 bytes and trimmed to empty it gives `-1`, shorter than 65536
bytes and trimmed to an integer `v` with `1 <= v <= n` it gives `v - 1`, the
lines after it being left in the input; of 65536 bytes or more it ends the
process with the fatal error `bufio.Scanner: token too long`. When every line
is short and rejected, the end of the input gives `-1`. Whenever `readTaskId`
returns, the result is `-1` or an index `id` with `0 <= id < n`, and it returns
whenever every input line is shorter than 65536 bytes; the `state.tasks[id]`
accesses of the edit case never panic. For the input lines `abc`, `0` and the
empty line against three tasks the result is `-1`, after two redraws. -/
theorem readTaskId_protocol :
    (∀ (s : state) (w : World) (skipped : List Str) (line : Str) (rest : List Str),
      w.input = skipped ++ line :: rest →
      (∀ x ∈ skipped, byteLen x < MaxScanTokenSize ∧ TrimSpace x ≠ [] ∧
        ∀ v : Int, Atoi (TrimSpace x) = some v → ¬ (1 ≤ v ∧ v ≤ (s.tasks.length : Int))) →
      (byteLen line < MaxScanTokenSize → TrimSpace line = [] →
        readTaskId w s =
          .ok (-1, { w with input := rest,
                            trace := w.trace ++
                              List.replicate skipped.length (Event.print (draw s)) })) ∧
      (byteLen line < MaxScanTokenSize →
        ∀ v : Int, Atoi (TrimSpace line) = some v → 1 ≤ v → v ≤ (s.tasks.length : Int) →
        readTaskId w s =
          .ok (v - 1, { w with input := rest,
                               trace := w.trace ++
                                 List.replicate skipped.length (Event.print (draw s)) })) ∧
      (MaxScanTokenSize ≤ byteLen line →
        readTaskId w s =
          .error (Failure.fatal ErrTooLong
            { w with input := line :: rest,
                     trace := w.trace ++
                       List.replicate skipped.length (Event.print (draw s)) }))) ∧
    (∀ (s : state) (w : World),
      (∀ x ∈ w.input, byteLen x < MaxScanTokenSize ∧ TrimSpace x ≠ [] ∧
        ∀ v : Int, Atoi (TrimSpace x) = some v → ¬ (1 ≤ v ∧ v ≤ (s.tasks.length : Int))) →
      readTaskId w s =
        .ok (-1, { w with input := [],
                          trace := w.trace ++
                            List.replicate w.input.length (Event.print (draw s)) })) ∧
    (∀ (s : state) (w w1 : World) (id : Int), readTaskId w s = .ok (id, w1) →
      id = -1 ∨ (0 ≤ id ∧ id < (s.tasks.length : Int))) ∧
    (∀ (s : state) (w : World), (∀ x ∈ w.input, byteLen x < MaxScanTokenSize) →
      ∃ (id : Int) (w1 : World), readTaskId w s = .ok (id, w1)) ∧
    (∀ (st : state) (w : World), caseEdit st w ≠ .error Failure.panic) ∧
    (∀ (s : state) (w : World),
      s.tasks.length = 3 → w.input = ["abc".toList, "0".toList, "".toList] →
      readTaskId w s =
        .ok (-1, { w with input := [],
                          trace := w.trace ++
                            [Event.print (draw s), Event.print (draw s)] })) := by
  have hmain := readTaskId_decided
  refine ⟨hmain, ?_, ?_, ?_, caseEdit_ne_panic, ?_⟩
  · intro s w hall
    have h := readTaskIdLoop_skip s w.input [] w (fun x hx => (hall x hx).1)
      (fun x hx => ⟨(hall x hx).2.1, (acceptId_eq_none_iff _ _).mpr (hall x hx).2.2⟩)
    rw [List.append_nil] at h
    rw [readTaskId, h, readTaskIdLoop_nil]
  · intro s w w1 id h
    rcases readTaskId_outcome w s with ⟨id2, k, rest, hr, _, hrange⟩ | ⟨k, line, rest, hr, _, _⟩
    · rw [hr] at h
      simp only [Except.ok.injEq, Prod.mk.injEq] at h
      rw [← h.1]
      exact hrange
    · rw [hr] at h
      cases h
  · intro s w hall
    rcases readTaskId_outcome w s with ⟨id, k, rest, hr, _, _⟩ | ⟨k, line, rest, _, hsuf, hlong⟩
    · exact ⟨id, _, hr⟩
    · exact absurd (hall line (hsuf.subset (by simp))) (Nat.not_lt.mpr hlong)
  · intro s w hn hin
    have h := (hmain s w ["abc".toList, "0".toList] "".toList [] (by simpa using hin) (by
      intro x hx
      simp only [List.mem_cons, List.mem_singleton, List.not_mem_nil, or_false] at hx
      rcases hx with rfl | rfl
      · refine ⟨by decide, by decide, ?_⟩
        intro v hv
        have : Atoi (TrimSpace "abc".toList) = none := by decide
        rw [this] at hv
        cases hv
      · refine ⟨by decide, by decide, ?_⟩
        intro v hv
        have : Atoi (TrimSpace "0".toList) = some 0 := by decide
        rw [this] at hv
        cases hv
        omega)).1 (by decide) (by decide)
    rw [h]
    rfl

/-- Witness for `readTaskId_protocol`: against three tasks, the lines `abc` and
`7` are rejected with one redraw each and the line ` 2` selects index 1; the
line after it stays in the input. -/
theorem readTaskId_protocol_witness :
    readTaskId
      { input := ["abc".toList, "7".toList, " 2".toList, "x".toList],
        store := newStorage [], trace := [] }
      { tasks := [task.mk "a".toList [], task.mk "b".toList [], task.mk "c".toList []],
        message := [], modifying := true } =
    .ok (1, { input := ["x".toList], store := newStorage [],
              trace := [] ++ List.replicate 2 (Event.print (draw
                { tasks := [task.mk "a".toList [], task.mk "b".toList [], task.mk "c".toList []],
                  message := [], modifying := true })) }) :=
  (readTaskId_protocol.1
    { tasks := [task.mk "a".toList [], task.mk "b".toList [], task.mk "c".toList []],
      message := [], modifying := true }
    { input := ["abc".toList, "7".toList, " 2".toList, "x".toList],
      store := newStorage [], trace := [] }
    ["abc".toList, "7".toList] " 2".toList ["x".toList] rfl
    (by
      intro x hx
      simp only [List.mem_cons, List.mem_singleton, List.not_mem_nil, or_false] at hx
      rcases hx with rfl | rfl
      · refine ⟨by decide, by decide, ?_⟩
        intro v hv
        have : Atoi (TrimSpace "abc".toList) = none := by decide
        rw [this] at hv
        cases hv
      · refine ⟨by decide, by decide, ?_⟩
        intro v hv
        have : Atoi (TrimSpace "7".toList) = some 7 := by decide
        rw [this] at hv
        cases hv
        decide)).2.1 (by decide) 2 (by decide) (by decide) (by decide)

/-! ## Lemmas on the command loop -/

theorem loopBody_cons (st : state) (w : World) (line : Str) (rest : List Str)
    (hin : w.input = line :: rest) (hshort : byteLen line < MaxScanTokenSize)
    (hne : TrimSpace line ≠ []) :
    loopBody st w =
      dispatch (TrimSpace line) st
        { input := rest, store := w.store, trace := w.trace ++ [Event.print (draw st)] } := by
  unfold loopBody
  simp only []
  rw [readInput_of_short (w.print (draw st)) (by simpa [World.print, hin] using hshort)]
  simp [World.print, hin, hne]

theorem loopBody_blank (st : state) (w : World)
    (hshort : byteLen (w.input.headD []) < MaxScanTokenSize)
    (h : TrimSpace (w.input.headD []) = []) :
    loopBody st w =
      .ok ({ st with message := [] },
           { input := w.input.tail, store := w.store,
             trace := w.trace ++ [Event.print (draw st)] }, true) := by
  unfold loopBody
  simp only []
  rw [readInput_of_short (w.print (draw st)) (by simpa [World.print] using hshort)]
  have h2 : TrimSpace ((w.print (draw st)).input.headD []) = [] := h
  simp only [h2, if_true]
  rfl

theorem loopBody_long (st : state) (w : World) (line : Str) (rest : List Str)
    (hin : w.input = line :: rest) (hlong : MaxScanTokenSize ≤ byteLen line) :
    loopBody st w =
      .error (Failure.fatal ErrTooLong
        { input := w.input, store := w.store,
          trace := w.trace ++ [Event.print (draw st)] }) := by
  unfold loopBody
  simp only []
  rw [readInput_of_long (w.print (draw st)) line rest (by simpa [World.print] using hin) hlong]
  rfl

theorem loopBody_short (st : state) (w : World)
    (hshort : byteLen (w.input.headD []) < MaxScanTokenSize) :
    loopBody st w =
      if TrimSpace (w.input.headD []) = [] then
        .ok ({ st with message := [] },
             { input := w.input.tail, store := w.store,
               trace := w.trace ++ [Event.print (draw st)] }, true)
      else
        dispatch (TrimSpace (w.input.headD [])) st
          { input := w.input.tail, store := w.store,
            trace := w.trace ++ [Event.print (draw st)] } := by
  by_cases h : TrimSpace (w.input.headD []) = []
  · rw [if_pos h]
    exact loopBody_blank st w hshort h
  · rw [if_neg h]
    cases hw : w.input with
    | nil =>
      rw [hw] at h
      exact absurd rfl h
    | cons line rest =>
      rw [hw] at h hshort
      exact loopBody_cons st w line rest hw (by simpa using hshort) (by simpa using h)

theorem deleteLoop_eq (id : Int) (ts : List task) (i : Nat) (tmp : List task) :
    deleteLoop id ts i tmp =
      tmp ++ (if (i : Int) ≤ id then ts.eraseIdx (id - i).toNat else ts) := by
  induction ts generalizing i tmp with
  | nil => simp [deleteLoop]
  | cons t ts ih =>
    unfold deleteLoop
    rw [ih]
    by_cases h1 : (i : Int) = id
    · subst h1
      simp
    · by_cases h2 : (i : Int) ≤ id
      · have h3 : ((i + 1 : Nat) : Int) ≤ id := by omega
        have h4 : (id - (i : Int)).toNat = (id - ((i + 1 : Nat) : Int)).toNat + 1 := by omega
        simp only [h1, h2, h3, if_true, ne_eq, not_false_eq_true, h4, List.eraseIdx_cons_succ]
        simp
      · simp only [h1, h2, if_false, ne_eq, not_false_eq_true, if_true, List.append_assoc,
          List.singleton_append, List.append_cancel_left_eq]
        have h3 : ¬ ((i + 1 : Nat) : Int) ≤ id := by omega
        rw [if_neg h3]

theorem deleteLoop_eraseIdx (id : Int) (ts : List task) (h : 0 ≤ id) :
    deleteLoop id ts 0 [] = ts.eraseIdx id.toNat := by
  rw [deleteLoop_eq]
  simp [h]

theorem caseDelete_of_selection (st : state) (w w2 : World) (id : Int)
    (hne : st.tasks ≠ [])
    (hsel : readTaskId
      (w.print (draw { st with message := "Choose task to delete (empty to cancel):".toList,
                               modifying := true }))
      { st with message := "Choose task to delete (empty to cancel):".toList,
                modifying := true } = .ok (id, w2)) :
    caseDelete st w =
      if id ≠ -1 then
        .ok ({ tasks := deleteLoop id st.tasks 0 [], message := [], modifying := false },
             w2.write (deleteLoop id st.tasks 0 []))
      else
        .ok ({ tasks := st.tasks, message := [], modifying := false }, w2) := by
  have hlen : st.tasks.length ≠ 0 := fun h => hne (List.length_eq_zero.mp h)
  unfold caseDelete
  rw [if_neg hlen]
  simp only [hsel]

theorem caseDelete_of_failure (st : state) (w : World) (e : Failure)
    (hne : st.tasks ≠ [])
    (hsel : readTaskId
      (w.print (draw { st with message := "Choose task to delete (empty to cancel):".toList,
                               modifying := true }))
      { st with message := "Choose task to delete (empty to cancel):".toList,
                modifying := true } = .error e) :
    caseDelete st w = .error e := by
  have hlen : st.tasks.length ≠ 0 := fun h => hne (List.length_eq_zero.mp h)
  unfold caseDelete
  rw [if_neg hlen]
  simp only [hsel]

theorem caseDelete_no_tasks (st : state) (w : World) (h : st.tasks = []) :
    caseDelete st w =
      .ok ({ st with message := "You have no tasks. Use `add` command to create one".toList },
           w) := by
  simp [caseDelete, h]

theorem dispatch_add (c : Str) (st : state) (w : World)
    (h : c = "add".toList ∨ c = "a".toList) :
    dispatch c st w =
      match caseAdd st w with
      | .error e => .error e
      | .ok r => .ok (r.1, r.2, true) := by
  rcases h with rfl | rfl <;> rfl

theorem dispatch_delete (c : Str) (st : state) (w : World)
    (h : c = "delete".toList ∨ c = "d".toList) :
    dispatch c st w =
      match caseDelete st w with
      | .error e => .error e
      | .ok r => .ok (r.1, r.2, true) := by
  rcases h with rfl | rfl <;> rfl

theorem dispatch_edit (c : Str) (st : state) (w : World)
    (h : c = "edit".toList ∨ c = "e".toList) :
    dispatch c st w =
      match caseEdit st w with
      | .error e => .error e
      | .ok r => .ok (r.1, r.2, true) := by
  rcases h with rfl | rfl <;> rfl

theorem dispatch_unknown (c : Str) (st : state) (w : World)
    (h : c ≠ "add".toList ∧ c ≠ "a".toList ∧ c ≠ "delete".toList ∧ c ≠ "d".toList ∧
      c ≠ "edit".toList ∧ c ≠ "e".toList ∧ c ≠ "exit".toList ∧ c ≠ "help".toList) :
    dispatch c st w =
      .ok ({ st with message :=
        "Unknown command `".toList ++ c ++ "`. Type `help` to see commands".toList }, w, true) := by
  obtain ⟨h1, h2, h3, h4, h5, h6, h7, h8⟩ := h
  unfold dispatch
  rw [if_neg (not_or.mpr ⟨h1, h2⟩), if_neg (not_or.mpr ⟨h3, h4⟩), if_neg (not_or.mpr ⟨h5, h6⟩),
    if_neg h7, if_neg h8]

theorem loopBody_of_command (st : state) (w w0 : World) (cmd : Str)
    (hcmd : readInput (w.print (draw st)) = .ok (cmd, w0)) :
    loopBody st w =
      if cmd = [] then .ok ({ st with message := [] }, w0, true) else dispatch cmd st w0 := by
  unfold loopBody
  simp only [hcmd]

/-! ## Deletion -/

/-- C4: for a task list of length `N` and a valid selection `i` with
`1 <= i <= N`, that is, in a pass of the command loop that reads the command
`delete` or `d` and in which `readTaskId` returns `id = i - 1`, the pass ends
with the list replaced by the old list without its element at position
`i - 1`: its length is `N - 1`, the elements before position `i - 1` keep their
positions and the elements from position `i - 1` on are the old elements one
position later. The new list is what `storage.write` is called with, right
after the selection, and the loop keeps running. -/
theorem delete_by_index (st : state) (w w0 w2 : World) (cmd : Str) (i : Nat)
    (hcmd : readInput (w.print (draw st)) = .ok (cmd, w0))
    (hdel : cmd = "delete".toList ∨ cmd = "d".toList)
    (hsel : readTaskId
      (w0.print (draw { st with message := "Choose task to delete (empty to cancel):".toList,
                                modifying := true }))
      { st with message := "Choose task to delete (empty to cancel):".toList,
                modifying := true } = .ok ((i : Int) - 1, w2))
    (h1 : 1 ≤ i) (hN : i ≤ st.tasks.length) :
    loopBody st w =
      .ok ({ tasks := st.tasks.eraseIdx (i - 1), message := [], modifying := false },
           { input := w2.input, store := w2.store.write (st.tasks.eraseIdx (i - 1)),
             trace := w2.trace ++ [Event.write (st.tasks.eraseIdx (i - 1))] }, true) ∧
    (st.tasks.eraseIdx (i - 1)).length = st.tasks.length - 1 ∧
    (∀ j, j < i - 1 → (st.tasks.eraseIdx (i - 1))[j]? = st.tasks[j]?) ∧
    (∀ j, i - 1 ≤ j → (st.tasks.eraseIdx (i - 1))[j]? = st.tasks[j + 1]?) ∧
    (w2.store.write (st.tasks.eraseIdx (i - 1))).fd.contents =
      serialize (st.tasks.eraseIdx (i - 1)) := by
  have hne : cmd ≠ [] := by
    rcases hdel with h | h <;> rw [h] <;> decide
  have hts : st.tasks ≠ [] := by
    intro h
    rw [h] at hN
    simp at hN
    omega
  have hidx : ((i : Int) - 1).toNat = i - 1 := by omega
  have hid : (i : Int) - 1 ≠ -1 := by omega
  refine ⟨?_, ?_, ?_, ?_, ?_⟩
  · rw [loopBody_of_command st w w0 cmd hcmd, if_neg hne, dispatch_delete _ _ _ hdel,
      caseDelete_of_selection st w0 w2 _ hts hsel, if_pos hid,
      deleteLoop_eraseIdx _ _ (by omega), hidx]
    rfl
  · simp only [List.length_eraseIdx]
    have : i - 1 < st.tasks.length := by omega
    simp [this]
  · intro j hj
    simp [List.getElem?_eraseIdx, hj]
  · intro j hj
    have : ¬ j < i - 1 := by omega
    simp [List.getElem?_eraseIdx, this]
  · rw [write_contents]

/-- Witness for `delete_by_index`: `d`, the rejected line `9`, then ` 2 `, on three tasks. -/
theorem delete_by_index_witness :
    ∃ w1 : World,
      loopBody
        { tasks := [task.mk "a".toList [], task.mk "b".toList "x".toList, task.mk "c".toList []],
          message := [], modifying := false }
        { input := ["d".toList, "9".toList, " 2 ".toList, "help".toList],
          store := newStorage [], trace := [] } =
      .ok ({ tasks := [task.mk "a".toList [], task.mk "c".toList []],
             message := [], modifying := false }, w1, true) ∧
      w1.input = ["help".toList] ∧ w1.store.fd.contents = "a<-$->-$-\nc<-$->-$-\n".toList :=
  ⟨_, (delete_by_index
    { tasks := [task.mk "a".toList [], task.mk "b".toList "x".toList, task.mk "c".toList []],
      message := [], modifying := false }
    { input := ["d".toList, "9".toList, " 2 ".toList, "help".toList],
      store := newStorage [], trace := [] }
    _ _ "d".toList 2 (by rfl) (by decide) (by rfl) (by decide) (by decide)).1, by rfl, by rfl⟩

theorem caseEdit_of_selection (st : state) (w w2 : World) (id : Int)
    (hne : st.tasks ≠ [])
    (hsel : readTaskId
      (w.print (draw { st with message := "Choose task to edit (empty to cancel):".toList,
                               modifying := true }))
      { st with message := "Choose task to edit (empty to cancel):".toList,
                modifying := true } = .ok (id, w2))
    (hid : id ≠ -1)
    (htitle : byteLen (w2.input.headD []) < MaxScanTokenSize)
    (hdesc : byteLen (w2.input.tail.headD []) < MaxScanTokenSize) :
    caseEdit st w =
      match applyEdit
          { st with message := "Enter new description (empty to skip):".toList,
                    modifying := true }
          { input := w2.input.tail.tail, store := w2.store,
            trace := w2.trace ++
              [Event.print (draw { st with message := "Enter new title (empty to skip):".toList,
                                           modifying := true }),
               Event.print (draw { st with
                 message := "Enter new description (empty to skip):".toList,
                 modifying := true })] }
          id (TrimSpace (w2.input.headD [])) (TrimSpace (w2.input.tail.headD [])) with
      | none => .error Failure.panic
      | some r => .ok ({ tasks := r.1.tasks, message := [], modifying := false }, r.2) := by
  have hlen : st.tasks.length ≠ 0 := fun h => hne (List.length_eq_zero.mp h)
  unfold caseEdit
  rw [if_neg hlen]
  simp only [hsel, if_pos hid]
  rw [readInput_of_short _ (by simpa [World.print] using htitle)]
  simp only []
  rw [readInput_of_short _ (by simpa [World.print] using hdesc)]
  simp only [World.print, List.append_assoc, List.singleton_append]
  cases applyEdit _ _ _ _ _ <;> rfl

theorem caseEdit_cancelled (st : state) (w w2 : World)
    (hne : st.tasks ≠ [])
    (hsel : readTaskId
      (w.print (draw { st with message := "Choose task to edit (empty to cancel):".toList,
                               modifying := true }))
      { st with message := "Choose task to edit (empty to cancel):".toList,
                modifying := true } = .ok (-1, w2)) :
    caseEdit st w = .ok ({ tasks := st.tasks, message := [], modifying := false }, w2) := by
  have hlen : st.tasks.length ≠ 0 := fun h => hne (List.length_eq_zero.mp h)
  unfold caseEdit
  rw [if_neg hlen]
  simp only [hsel]
  rfl

theorem caseEdit_of_failure (st : state) (w : World) (e : Failure)
    (hne : st.tasks ≠ [])
    (hsel : readTaskId
      (w.print (draw { st with message := "Choose task to edit (empty to cancel):".toList,
                               modifying := true }))
      { st with message := "Choose task to edit (empty to cancel):".toList,
                modifying := true } = .error e) :
    caseEdit st w = .error e := by
  have hlen : st.tasks.length ≠ 0 := fun h => hne (List.length_eq_zero.mp h)
  unfold caseEdit
  rw [if_neg hlen]
  simp only [hsel]

theorem caseEdit_long_title (st : state) (w w2 : World) (id : Int) (line : Str)
    (rest : List Str) (hne : st.tasks ≠ [])
    (hsel : readTaskId
      (w.print (draw { st with message := "Choose task to edit (empty to cancel):".toList,
                               modifying := true }))
      { st with message := "Choose task to edit (empty to cancel):".toList,
                modifying := true } = .ok (id, w2))
    (hid : id ≠ -1) (hin : w2.input = line :: rest) (hlong : MaxScanTokenSize ≤ byteLen line) :
    caseEdit st w =
      .error (Failure.fatal ErrTooLong
        { input := w2.input, store := w2.store,
          trace := w2.trace ++
            [Event.print (draw { st with message := "Enter new title (empty to skip):".toList,
                                         modifying := true })] }) := by
  have hlen : st.tasks.length ≠ 0 := fun h => hne (List.length_eq_zero.mp h)
  unfold caseEdit
  rw [if_neg hlen]
  simp only [hsel, if_pos hid]
  rw [readInput_of_long _ line rest (by simpa [World.print] using hin) hlong]
  rfl

theorem caseEdit_long_desc (st : state) (w w2 : World) (id : Int) (line : Str)
    (rest : List Str) (hne : st.tasks ≠ [])
    (hsel : readTaskId
      (w.print (draw { st with message := "Choose task to edit (empty to cancel):".toList,
                               modifying := true }))
      { st with message := "Choose task to edit (empty to cancel):".toList,
                modifying := true } = .ok (id, w2))
    (hid : id ≠ -1) (htitle : byteLen (w2.input.headD []) < MaxScanTokenSize)
    (hin : w2.input.tail = line :: rest) (hlong : MaxScanTokenSize ≤ byteLen line) :
    caseEdit st w =
      .error (Failure.fatal ErrTooLong
        { input := w2.input.tail, store := w2.store,
          trace := w2.trace ++
            [Event.print (draw { st with message := "Enter new title (empty to skip):".toList,
                                         modifying := true }),
             Event.print (draw { st with
               message := "Enter new description (empty to skip):".toList,
               modifying := true })] }) := by
  have hlen : st.tasks.length ≠ 0 := fun h => hne (List.length_eq_zero.mp h)
  unfold caseEdit
  rw [if_neg hlen]
  simp only [hsel, if_pos hid]
  rw [readInput_of_short _ (by simpa [World.print] using htitle)]
  simp only []
  rw [readInput_of_long _ line rest (by simpa [World.print] using hin) hlong]
  simp [World.print]

theorem caseEdit_no_tasks (st : state) (w : World) (h : st.tasks = []) :
    caseEdit st w =
      .ok ({ st with message := "You have no tasks. Use `add` command to create one".toList },
           w) := by
  simp [caseEdit, h]

theorem applyEdit_skip (st : state) (w : World) (id : Int) :
    applyEdit st w id [] [] = some (st, w) := by
  simp [applyEdit]

theorem applyEdit_title (st : state) (w : World) (id : Int) (title : Str) (old : task)
    (ht : title ≠ []) (h0 : 0 ≤ id) (hold : st.tasks[id.toNat]? = some old) :
    applyEdit st w id title [] =
      some ({ st with tasks := st.tasks.set id.toNat { old with title := title } },
            w.write (st.tasks.set id.toNat { old with title := title })) := by
  simp [applyEdit, ht, setTitle, h0, hold]

theorem applyEdit_desc (st : state) (w : World) (id : Int) (desc : Str) (old : task)
    (hd : desc ≠ []) (h0 : 0 ≤ id) (hold : st.tasks[id.toNat]? = some old) :
    applyEdit st w id [] desc =
      some ({ st with tasks := st.tasks.set id.toNat { old with desc := desc } },
            w.write (st.tasks.set id.toNat { old with desc := desc })) := by
  simp [applyEdit, hd, setDesc, h0, hold]

theorem applyEdit_both (st : state) (w : World) (id : Int) (title desc : Str) (old : task)
    (ht : title ≠ []) (hd : desc ≠ []) (h0 : 0 ≤ id) (hold : st.tasks[id.toNat]? = some old) :
    applyEdit st w id title desc =
      some ({ st with tasks := st.tasks.set id.toNat { title := title, desc := desc } },
            w.write (st.tasks.set id.toNat { title := title, desc := desc })) := by
  have hlt : id.toNat < st.tasks.length := by
    rcases Nat.lt_or_ge id.toNat st.tasks.length with h | h
    · exact h
    · rw [List.getElem?_eq_none h] at hold
      cases hold
  simp [applyEdit, ht, hd, setTitle, setDesc, h0, hold, hlt]


theorem loopBody_edit_failure (st : state) (w : World) (cmd : Str) (rest : List Str)
    (e : Failure) (hin : w.input = cmd :: rest) (hshort : byteLen cmd < MaxScanTokenSize)
    (hcmd : TrimSpace cmd = "edit".toList ∨ TrimSpace cmd = "e".toList)
    (h : caseEdit st { input := rest, store := w.store,
                       trace := w.trace ++ [Event.print (draw st)] } = .error e) :
    loopBody st w = .error e := by
  have hne : TrimSpace cmd ≠ [] := by
    rcases hcmd with h | h <;> rw [h] <;> decide
  rw [loopBody_cons st w cmd rest hin hshort hne, dispatch_edit _ _ _ hcmd, h]

/-! ## Editing -/

/-- C5 (as stated, refuted): on the one task `a` with description `b`, the
input lines are `e`, `1`, a line of 65536 letters `x` and an empty line. The
selection is valid, the new-title input is non-empty and the new-description
input is empty, so by the claim the title is replaced and the list persisted;
but the pass ends in the fatal error of the Scanner when it reads the title:
the storage is as it was and `storage.write` has not been called. -/
theorem long_title_ends_edit :
    TrimSpace (List.replicate 65536 'x') ≠ [] ∧ TrimSpace "".toList = [] ∧
    loopBody { tasks := [task.mk "a".toList "b".toList], message := [], modifying := false }
      { input := ["e".toList, "1".toList, List.replicate 65536 'x', "".toList],
        store := newStorage "a<-$->b\n".toList, trace := [] } =
    .error (Failure.fatal ErrTooLong
      { input := [List.replicate 65536 'x', "".toList],
        store := newStorage "a<-$->b\n".toList,
        trace := [Event.print (draw { tasks := [task.mk "a".toList "b".toList],
                                      message := [], modifying := false }),
                  Event.print (draw { tasks := [task.mk "a".toList "b".toList],
                                      message := "Choose task to edit (empty to cancel):".toList,
                                      modifying := true }),
                  Event.print (draw { tasks := [task.mk "a".toList "b".toList],
                                      message := "Enter new title (empty to skip):".toList,
                                      modifying := true })] }) := by
  refine ⟨?_, by decide, ?_⟩
  · rw [TrimSpace_replicate_not_space 65536 'x' (by decide)]
    intro h
    have := congrArg List.length h
    rw [List.length_replicate, List.length_nil] at this
    exact absurd this (by decide)
  · have hsel : readTaskId
        (({ input := ["1".toList, List.replicate 65536 'x', "".toList],
            store := newStorage "a<-$->b\n".toList,
            trace := [Event.print (draw { tasks := [task.mk "a".toList "b".toList],
                                          message := [], modifying := false })] } : World).print
          (draw { tasks := [task.mk "a".toList "b".toList],
                  message := "Choose task to edit (empty to cancel):".toList,
                  modifying := true }))
        { tasks := [task.mk "a".toList "b".toList],
          message := "Choose task to edit (empty to cancel):".toList, modifying := true } =
        .ok (0,
          { input := [List.replicate 65536 'x', "".toList],
            store := newStorage "a<-$->b\n".toList,
            trace := [Event.print (draw { tasks := [task.mk "a".toList "b".toList],
                                          message := [], modifying := false }),
                      Event.print (draw { tasks := [task.mk "a".toList "b".toList],
                                          message := "Choose task to edit (empty to cancel):".toList,
                                          modifying := true })] }) :=
      (readTaskId_decided _ _ [] "1".toList [List.replicate 65536 'x', "".toList] rfl
        (by simp)).2.1 (by decide) 1 (by decide) (by decide) (by decide)
    have hedit := caseEdit_long_title
      { tasks := [task.mk "a".toList "b".toList], message := [], modifying := false }
      { input := ["1".toList, List.replicate 65536 'x', "".toList],
        store := newStorage "a<-$->b\n".toList,
        trace := [Event.print (draw { tasks := [task.mk "a".toList "b".toList],
                                      message := [], modifying := false })] }
      _ 0 (List.replicate 65536 'x') ["".toList] (by decide) hsel (by decide) rfl
      (by rw [byteLen_replicate_ascii 65536 'x' (by decide)]; decide)
    exact loopBody_edit_failure _ _ "e".toList _ _ rfl (by decide) (Or.inr (by decide)) hedit

/-- C5 (amended): for the command `edit` or `e` on a task list with a valid
selection `i` (`1 <= i <= N`, chosen after any number of rejected lines), every
line read by the pass being shorter than 65536 bytes, with `title` and `desc`
the next two input lines trimmed (empty at the end of the input):
(1) if both are empty the task list is unchanged, `storage.write` is not called
(only frames are printed) and the storage is untouched; (2) if only the title
is non-empty the selected task gets the new title and keeps its description,
the list keeps its length and every other task, and the new list is written to
storage; (3) if only the description is non-empty, symmetrically, only the
description of the selected task changes and the list is written; (4) if both
are non-empty both fields of the selected task change and the list is written. -/
theorem edit_semantics (st : state) (w : World) (cmd : Str) (skipped : List Str)
    (line : Str) (tail : List Str) (i : Nat) (title desc : Str)
    (hin : w.input = cmd :: (skipped ++ line :: tail))
    (hcmd : TrimSpace cmd = "edit".toList ∨ TrimSpace cmd = "e".toList)
    (hcmdlen : byteLen cmd < MaxScanTokenSize)
    (hskip : ∀ x ∈ skipped, byteLen x < MaxScanTokenSize ∧ TrimSpace x ≠ [] ∧
      ∀ u : Int, Atoi (TrimSpace x) = some u → ¬ (1 ≤ u ∧ u ≤ (st.tasks.length : Int)))
    (hlinelen : byteLen line < MaxScanTokenSize)
    (hline : Atoi (TrimSpace line) = some (i : Int))
    (h1 : 1 ≤ i) (hN : i ≤ st.tasks.length)
    (htitlelen : byteLen (tail.headD []) < MaxScanTokenSize)
    (hdesclen : byteLen (tail.tail.headD []) < MaxScanTokenSize)
    (htitle : title = TrimSpace (tail.headD []))
    (hdesc : desc = TrimSpace (tail.tail.headD [])) :
    ∃ old : task, st.tasks[i - 1]? = some old ∧
      (title = [] → desc = [] →
        ∃ frames : List Str,
          loopBody st w =
            .ok ({ tasks := st.tasks, message := [], modifying := false },
                 { input := tail.tail.tail, store := w.store,
                   trace := w.trace ++ frames.map Event.print }, true)) ∧
      (title ≠ [] → desc = [] →
        ∃ w1 : World,
          loopBody st w =
            .ok ({ tasks := st.tasks.set (i - 1) { old with title := title },
                   message := [], modifying := false }, w1, true) ∧
          w1.trace.getLast? =
            some (Event.write (st.tasks.set (i - 1) { old with title := title })) ∧
          w1.store.fd.contents = serialize (st.tasks.set (i - 1) { old with title := title }) ∧
          (st.tasks.set (i - 1) { old with title := title }).length = st.tasks.length ∧
          (st.tasks.set (i - 1) { old with title := title })[i - 1]? =
            some { title := title, desc := old.desc } ∧
          (∀ j, j ≠ i - 1 →
            (st.tasks.set (i - 1) { old with title := title })[j]? = st.tasks[j]?)) ∧
      (title = [] → desc ≠ [] →
        ∃ w1 : World,
          loopBody st w =
            .ok ({ tasks := st.tasks.set (i - 1) { old with desc := desc },
                   message := [], modifying := false }, w1, true) ∧
          w1.trace.getLast? =
            some (Event.write (st.tasks.set (i - 1) { old with desc := desc })) ∧
          w1.store.fd.contents = serialize (st.tasks.set (i - 1) { old with desc := desc }) ∧
          (st.tasks.set (i - 1) { old with desc := desc }).length = st.tasks.length ∧
          (st.tasks.set (i - 1) { old with desc := desc })[i - 1]? =
            some { title := old.title, desc := desc } ∧
          (∀ j, j ≠ i - 1 →
            (st.tasks.set (i - 1) { old with desc := desc })[j]? = st.tasks[j]?)) ∧
      (title ≠ [] → desc ≠ [] →
        ∃ w1 : World,
          loopBody st w =
            .ok ({ tasks := st.tasks.set (i - 1) { title := title, desc := desc },
                   message := [], modifying := false }, w1, true) ∧
          w1.trace.getLast? =
            some (Event.write (st.tasks.set (i - 1) { title := title, desc := desc })) ∧
          w1.store.fd.contents =
            serialize (st.tasks.set (i - 1) { title := title, desc := desc })) := by
  have hne : TrimSpace cmd ≠ [] := by
    rcases hcmd with h | h <;> rw [h] <;> decide
  have hts : st.tasks ≠ [] := by
    intro h
    rw [h] at hN
    simp at hN
    omega
  have hidx : ((i : Int) - 1).toNat = i - 1 := by omega
  have hid : (i : Int) - 1 ≠ -1 := by omega
  have hlt : i - 1 < st.tasks.length := by omega
  have hsel := (readTaskId_decided
    { st with message := "Choose task to edit (empty to cancel):".toList, modifying := true }
    (({ input := skipped ++ line :: tail, store := w.store,
        trace := w.trace ++ [Event.print (draw st)] } : World).print
      (draw { st with message := "Choose task to edit (empty to cancel):".toList,
                      modifying := true }))
    skipped line tail rfl hskip).2.1 hlinelen (i : Int) hline (by exact_mod_cast h1)
      (by exact_mod_cast hN)
  have hedit := caseEdit_of_selection st
    { input := skipped ++ line :: tail, store := w.store,
      trace := w.trace ++ [Event.print (draw st)] } _ _ hts hsel hid htitlelen hdesclen
  simp only [] at hedit
  rw [← htitle, ← hdesc] at hedit
  have hloop := loopBody_cons st w cmd _ hin hcmdlen hne
  rw [dispatch_edit _ _ _ hcmd, hedit] at hloop
  have hold : st.tasks[i - 1]? = some st.tasks[i - 1] := by simp [hlt]
  have hold2 : st.tasks[((i : Int) - 1).toNat]? = some st.tasks[i - 1] := by rw [hidx]; exact hold
  refine ⟨st.tasks[i - 1], hold, ?_, ?_, ?_, ?_⟩
  · intro ht hd
    subst ht hd
    refine ⟨draw st :: (draw { st with message := "Choose task to edit (empty to cancel):".toList,
                                       modifying := true } ::
      (List.replicate skipped.length
        (draw { st with message := "Choose task to edit (empty to cancel):".toList,
                        modifying := true }) ++
      [draw { st with message := "Enter new title (empty to skip):".toList, modifying := true },
       draw { st with message := "Enter new description (empty to skip):".toList,
                      modifying := true }])), ?_⟩
    rw [hloop, applyEdit_skip]
    simp [World.print]
  · intro ht hd
    subst hd
    rw [applyEdit_title
      ({ st with message := "Enter new description (empty to skip):".toList,
                               modifying := true })
      _ _ _ _ ht (by omega) hold2, hidx] at hloop
    refine ⟨_, hloop, ?_, ?_, ?_, ?_, ?_⟩
    · exact List.getLast?_concat _
    · simp [World.write, write_contents]
    · simp
    · simp [hlt]
    · intro j hj
      simp [List.getElem?_set, Ne.symm hj]
  · intro ht hd
    subst ht
    rw [applyEdit_desc
      ({ st with message := "Enter new description (empty to skip):".toList,
                               modifying := true })
      _ _ _ _ hd (by omega) hold2, hidx] at hloop
    refine ⟨_, hloop, ?_, ?_, ?_, ?_, ?_⟩
    · exact List.getLast?_concat _
    · simp [World.write, write_contents]
    · simp
    · simp [hlt]
    · intro j hj
      simp [List.getElem?_set, Ne.symm hj]
  · intro ht hd
    rw [applyEdit_both
      ({ st with message := "Enter new description (empty to skip):".toList,
                               modifying := true })
      _ _ _ _ _ ht hd (by omega) hold2, hidx] at hloop
    refine ⟨_, hloop, ?_, ?_⟩
    · exact List.getLast?_concat _
    · simp [World.write, write_contents]

/-- Witness for `edit_semantics`: on two tasks, `e`, `2`, `new` and an empty
line rename the second task and leave its description; `e`, `2` and two empty
lines change nothing. -/
theorem edit_semantics_witness :
    (∃ w1 : World,
      loopBody
        { tasks := [task.mk "a".toList "x".toList, task.mk "b".toList "y".toList],
          message := [], modifying := false }
        { input := ["e".toList, "2".toList, "new".toList, "".toList],
          store := newStorage [], trace := [] } =
      .ok ({ tasks := [task.mk "a".toList "x".toList, task.mk "new".toList "y".toList],
             message := [], modifying := false }, w1, true)) ∧
    (∃ frames : List Str,
      loopBody
        { tasks := [task.mk "a".toList "x".toList, task.mk "b".toList "y".toList],
          message := [], modifying := false }
        { input := ["e".toList, "2".toList, "".toList, "".toList],
          store := newStorage [], trace := [] } =
      .ok ({ tasks := [task.mk "a".toList "x".toList, task.mk "b".toList "y".toList],
             message := [], modifying := false },
           { input := [], store := newStorage [], trace := [] ++ frames.map Event.print },
           true)) := by
  constructor
  · obtain ⟨old, hold, _, h2, _, _⟩ := edit_semantics
      { tasks := [task.mk "a".toList "x".toList, task.mk "b".toList "y".toList],
        message := [], modifying := false }
      { input := ["e".toList, "2".toList, "new".toList, "".toList],
        store := newStorage [], trace := [] }
      "e".toList [] "2".toList ["new".toList, "".toList] 2 "new".toList [] rfl
      (by decide) (by decide) (by simp) (by decide) (by decide) (by decide) (by decide)
      (by decide) (by decide) (by decide) (by decide)
    obtain ⟨w1, h, _⟩ := h2 (by decide) rfl
    have ho : old = task.mk "b".toList "y".toList := by
      simp at hold
      exact hold.symm
    subst ho
    exact ⟨w1, h⟩
  · obtain ⟨old, _, h1, _, _, _⟩ := edit_semantics
      { tasks := [task.mk "a".toList "x".toList, task.mk "b".toList "y".toList],
        message := [], modifying := false }
      { input := ["e".toList, "2".toList, "".toList, "".toList],
        store := newStorage [], trace := [] }
      "e".toList [] "2".toList ["".toList, "".toList] 2 [] [] rfl
      (by decide) (by decide) (by simp) (by decide) (by decide) (by decide) (by decide)
      (by decide) (by decide) (by decide) (by decide)
    exact h1 rfl rfl

/-! ## What one case of the command loop does -/

theorem headD_trim (l : List Str) :
    TrimSpace (l.headD []) = [] ∨ ∃ x ∈ l, TrimSpace (l.headD []) = TrimSpace x := by
  cases l with
  | nil => exact Or.inl rfl
  | cons x l => exact Or.inr ⟨x, by simp, rfl⟩

theorem headD_trim_of_suffix (l input : List Str) (h : l <:+ input) :
    TrimSpace (l.headD []) = [] ∨ ∃ x ∈ input, TrimSpace (l.headD []) = TrimSpace x := by
  rcases headD_trim l with h0 | ⟨x, hx, he⟩
  · exact Or.inl h0
  · exact Or.inr ⟨x, h.subset hx, he⟩

theorem replicate_print (k : Nat) (text : Str) :
    List.replicate k (Event.print text) = (List.replicate k text).map Event.print := by
  simp

theorem headD_long (l : List Str) (h : ¬ byteLen (l.headD []) < MaxScanTokenSize) :
    ∃ (line : Str) (rest : List Str), l = line :: rest ∧ MaxScanTokenSize ≤ byteLen line := by
  cases l with
  | nil => exact absurd (by decide) h
  | cons line rest => exact ⟨line, rest, rfl, Nat.not_lt.mp h⟩

theorem headD_short (l : List Str) (h : ∀ x ∈ l, byteLen x < MaxScanTokenSize) :
    byteLen (l.headD []) < MaxScanTokenSize := by
  cases l with
  | nil => decide
  | cons line rest => exact h line (by simp)

theorem caseAdd_cases (st : state) (w : World) :
    (∃ (line : Str) (rest : List Str), w.input = line :: rest ∧
      MaxScanTokenSize ≤ byteLen line ∧
      caseAdd st w =
        .error (Failure.fatal ErrTooLong
          { input := line :: rest, store := w.store,
            trace := w.trace ++
              [Event.print (draw { st with
                message := "Enter title (empty to cancel):".toList })] })) ∨
    (byteLen (w.input.headD []) < MaxScanTokenSize ∧ TrimSpace (w.input.headD []) = [] ∧
      caseAdd st w =
        .ok ({ tasks := st.tasks, message := [], modifying := st.modifying },
             { input := w.input.tail, store := w.store,
               trace := w.trace ++
                 [Event.print (draw { st with
                   message := "Enter title (empty to cancel):".toList })] })) ∨
    (byteLen (w.input.headD []) < MaxScanTokenSize ∧ TrimSpace (w.input.headD []) ≠ [] ∧
      ∃ (line : Str) (rest : List Str), w.input.tail = line :: rest ∧
        MaxScanTokenSize ≤ byteLen line ∧
        caseAdd st w =
          .error (Failure.fatal ErrTooLong
            { input := line :: rest, store := w.store,
              trace := w.trace ++
                [Event.print (draw { st with
                   message := "Enter title (empty to cancel):".toList }),
                 Event.print (draw { st with
                   message := "Enter description (optional):".toList })] })) ∨
    (byteLen (w.input.headD []) < MaxScanTokenSize ∧ TrimSpace (w.input.headD []) ≠ [] ∧
      byteLen (w.input.tail.headD []) < MaxScanTokenSize ∧
      caseAdd st w =
        .ok ({ tasks := st.tasks ++
                 [task.mk (TrimSpace (w.input.headD [])) (TrimSpace (w.input.tail.headD []))],
               message := [],
               modifying := st.modifying },
             { input := w.input.tail.tail,
               store := w.store.write (st.tasks ++
                 [task.mk (TrimSpace (w.input.headD [])) (TrimSpace (w.input.tail.headD []))]),
               trace := w.trace ++
                 [Event.print (draw { st with
                    message := "Enter title (empty to cancel):".toList }),
                  Event.print (draw { st with message := "Enter description (optional):".toList }),
                  Event.write (st.tasks ++
                    [task.mk (TrimSpace (w.input.headD []))
                      (TrimSpace (w.input.tail.headD []))])] })) := by
  by_cases h1 : byteLen (w.input.headD []) < MaxScanTokenSize
  · have hr1 : readInput
        (w.print (draw { st with message := "Enter title (empty to cancel):".toList })) =
        .ok (TrimSpace (w.input.headD []),
             { input := w.input.tail, store := w.store,
               trace := w.trace ++
                 [Event.print (draw { st with
                   message := "Enter title (empty to cancel):".toList })] }) :=
      readInput_of_short _ h1
    by_cases h2 : TrimSpace (w.input.headD []) = []
    · refine Or.inr (Or.inl ⟨h1, h2, ?_⟩)
      unfold caseAdd
      simp only []
      rw [hr1]
      simp only []
      rw [if_neg (not_not.mpr h2)]
    · by_cases h3 : byteLen (w.input.tail.headD []) < MaxScanTokenSize
      · refine Or.inr (Or.inr (Or.inr ⟨h1, h2, h3, ?_⟩))
        unfold caseAdd
        simp only []
        rw [hr1]
        simp only []
        rw [if_pos h2, readInput_of_short _ h3]
        simp only [World.print, World.write, List.append_assoc, List.singleton_append,
          List.tail_cons]
        rfl
      · obtain ⟨line, rest, hin, hlong⟩ := headD_long _ h3
        refine Or.inr (Or.inr (Or.inl ⟨h1, h2, line, rest, hin, hlong, ?_⟩))
        unfold caseAdd
        simp only []
        rw [hr1]
        simp only []
        rw [if_pos h2, readInput_of_long _ line rest hin hlong]
        simp only [World.print, List.append_assoc, List.singleton_append, hin]
  · obtain ⟨line, rest, hin, hlong⟩ := headD_long _ h1
    refine Or.inl ⟨line, rest, hin, hlong, ?_⟩
    unfold caseAdd
    simp only []
    rw [readInput_of_long (w.print _) line rest hin hlong]
    simp only [World.print, hin]

theorem Aborted_intro (w : World) (frames : List Str) (tr : List Event) (line : Str)
    (rest : List Str) (hsuf : line :: rest <:+ w.input)
    (hlong : MaxScanTokenSize ≤ byteLen line)
    (htr : tr = w.trace ++ frames.map Event.print) :
    Aborted w (Failure.fatal ErrTooLong { input := line :: rest, store := w.store, trace := tr }) :=
  ⟨frames, line, rest, by rw [htr], hsuf, hlong⟩

theorem Aborted_long_mem (w : World) (e : Failure) (h : Aborted w e) :
    (∃ w1 : World, e = Failure.fatal ErrTooLong w1 ∧ w1.store = w.store) ∧
    ∃ line ∈ w.input, MaxScanTokenSize ≤ byteLen line := by
  obtain ⟨frames, line, rest, he, hsuf, hlong⟩ := h
  exact ⟨⟨_, he, rfl⟩, line, hsuf.subset (by simp), hlong⟩

theorem Aborted_ne_panic (w : World) (e : Failure) (h : Aborted w e) : e ≠ Failure.panic := by
  obtain ⟨frames, line, rest, he, _, _⟩ := h
  rw [he]
  intro h0
  cases h0

theorem caseAdd_outcome (st : state) (w : World) :
    (∃ r : state × World, caseAdd st w = .ok r ∧ Effect st.tasks w r.1.tasks r.2 ∧
      r.1.message = []) ∨
    (∃ e : Failure, caseAdd st w = .error e ∧ Aborted w e) := by
  rcases caseAdd_cases st w with ⟨line, rest, hin, hlong, h⟩ | ⟨_, h2, h⟩ |
    ⟨_, _, line, rest, hin, hlong, h⟩ | ⟨_, h2, _, h⟩
  · exact Or.inr ⟨_, h, Aborted_intro w
      [draw { st with message := "Enter title (empty to cancel):".toList }] _ line rest
      (by rw [hin]) hlong (by simp)⟩
  · refine Or.inl ⟨_, h, ⟨[draw { st with message := "Enter title (empty to cancel):".toList }],
      List.tail_suffix _, Or.inl ⟨rfl, rfl, by simp⟩⟩, rfl⟩
  · exact Or.inr ⟨_, h, Aborted_intro w
      [draw { st with message := "Enter title (empty to cancel):".toList },
       draw { st with message := "Enter description (optional):".toList }] _ line rest
      (by rw [← hin]; exact List.tail_suffix _) hlong (by simp)⟩
  · refine Or.inl ⟨_, h, ⟨[draw { st with message := "Enter title (empty to cancel):".toList },
        draw { st with message := "Enter description (optional):".toList }],
      (List.tail_suffix _).trans (List.tail_suffix _), Or.inr ⟨Or.inl ?_, rfl, by simp⟩⟩, rfl⟩
    refine ⟨_, _, h2, ?_, ?_, rfl⟩
    · rcases headD_trim w.input with h0 | h1
      · exact absurd h0 h2
      · exact h1
    · rcases headD_trim_of_suffix w.input.tail w.input (List.tail_suffix _) with h0 | h1
      · exact Or.inl h0
      · exact Or.inr h1

theorem caseDelete_cases (st : state) (w : World) :
    (st.tasks = [] ∧
      caseDelete st w =
        .ok ({ st with message := "You have no tasks. Use `add` command to create one".toList },
             w)) ∨
    (st.tasks ≠ [] ∧
      ((∃ e : Failure,
          readTaskId
            (w.print (draw { st with
              message := "Choose task to delete (empty to cancel):".toList, modifying := true }))
            { st with message := "Choose task to delete (empty to cancel):".toList,
                      modifying := true } = .error e ∧
          caseDelete st w = .error e ∧ Aborted w e) ∨
       (∃ (id : Int) (k : Nat) (rest : List Str),
          readTaskId
            (w.print (draw { st with
              message := "Choose task to delete (empty to cancel):".toList, modifying := true }))
            { st with message := "Choose task to delete (empty to cancel):".toList,
                      modifying := true } =
            .ok (id, { input := rest, store := w.store,
                       trace := w.trace ++
                         (Event.print (draw { st with
                            message := "Choose task to delete (empty to cancel):".toList,
                            modifying := true }) ::
                          List.replicate k (Event.print (draw { st with
                            message := "Choose task to delete (empty to cancel):".toList,
                            modifying := true }))) }) ∧
          rest <:+ w.input ∧
          ((id = -1 ∧
            caseDelete st w =
              .ok ({ tasks := st.tasks, message := [], modifying := false },
                   { input := rest, store := w.store,
                     trace := w.trace ++
                       (Event.print (draw { st with
                          message := "Choose task to delete (empty to cancel):".toList,
                          modifying := true }) ::
                        List.replicate k (Event.print (draw { st with
                          message := "Choose task to delete (empty to cancel):".toList,
                          modifying := true }))) })) ∨
           (0 ≤ id ∧ id < (st.tasks.length : Int) ∧
            caseDelete st w =
              .ok ({ tasks := st.tasks.eraseIdx id.toNat, message := [], modifying := false },
                   { input := rest, store := w.store.write (st.tasks.eraseIdx id.toNat),
                     trace := w.trace ++
                       (Event.print (draw { st with
                          message := "Choose task to delete (empty to cancel):".toList,
                          modifying := true }) ::
                        List.replicate k (Event.print (draw { st with
                          message := "Choose task to delete (empty to cancel):".toList,
                          modifying := true }))) ++
                       [Event.write (st.tasks.eraseIdx id.toNat)] })))))) := by
  by_cases hts : st.tasks = []
  · exact Or.inl ⟨hts, caseDelete_no_tasks st w hts⟩
  · refine Or.inr ⟨hts, ?_⟩
    rcases readTaskId_outcome
      (w.print (draw { st with message := "Choose task to delete (empty to cancel):".toList,
                               modifying := true }))
      { st with message := "Choose task to delete (empty to cancel):".toList, modifying := true }
      with ⟨id, k, rest, hsel, hsuf, hid⟩ | ⟨k, line, rest, hsel, hsuf, hlong⟩
    · have hw : ({ input := rest,
                   store := (w.print (draw { st with
                     message := "Choose task to delete (empty to cancel):".toList,
                     modifying := true })).store,
                   trace := (w.print (draw { st with
                     message := "Choose task to delete (empty to cancel):".toList,
                     modifying := true })).trace ++
                     List.replicate k (Event.print (draw { st with
                       message := "Choose task to delete (empty to cancel):".toList,
                       modifying := true })) } : World) =
          { input := rest, store := w.store,
            trace := w.trace ++
              (Event.print (draw { st with
                 message := "Choose task to delete (empty to cancel):".toList,
                 modifying := true }) ::
               List.replicate k (Event.print (draw { st with
                 message := "Choose task to delete (empty to cancel):".toList,
                 modifying := true }))) } := by
        simp [World.print]
      rw [hw] at hsel
      refine Or.inr ⟨id, k, rest, hsel, hsuf, ?_⟩
      have hdel := caseDelete_of_selection st w _ id hts hsel
      rcases hid with hid | ⟨h0, hn⟩
      · refine Or.inl ⟨hid, ?_⟩
        rw [hdel, if_neg (not_not.mpr hid)]
      · refine Or.inr ⟨h0, hn, ?_⟩
        rw [hdel, if_pos (by omega), deleteLoop_eraseIdx _ _ h0]
        rfl
    · refine Or.inl ⟨_, hsel, caseDelete_of_failure st w _ hts hsel, ?_⟩
      exact Aborted_intro w
        (draw { st with message := "Choose task to delete (empty to cancel):".toList,
                        modifying := true } ::
          List.replicate k (draw { st with
            message := "Choose task to delete (empty to cancel):".toList, modifying := true }))
        _ line rest hsuf hlong (by simp [World.print])

theorem caseDelete_outcome (st : state) (w : World) :
    (∃ r : state × World, caseDelete st w = .ok r ∧ Effect st.tasks w r.1.tasks r.2 ∧
      (st.tasks ≠ [] → r.1.message = []) ∧
      (st.tasks = [] →
        r.1.message = "You have no tasks. Use `add` command to create one".toList)) ∨
    (∃ e : Failure, caseDelete st w = .error e ∧ Aborted w e) := by
  rcases caseDelete_cases st w with ⟨hts, h⟩ | ⟨hts, ⟨e, _, h, hab⟩ |
    ⟨id, k, rest, _, hsuf, ⟨_, h⟩ | ⟨h0, hn, h⟩⟩⟩
  · exact Or.inl ⟨_, h, ⟨[], List.suffix_refl _, Or.inl ⟨rfl, rfl, by simp⟩⟩,
      fun hne => absurd hts hne, fun _ => rfl⟩
  · exact Or.inr ⟨e, h, hab⟩
  · refine Or.inl ⟨_, h, ⟨draw { st with
          message := "Choose task to delete (empty to cancel):".toList, modifying := true } ::
        List.replicate k (draw { st with
          message := "Choose task to delete (empty to cancel):".toList, modifying := true }),
      hsuf, Or.inl ⟨rfl, rfl, by simp⟩⟩, fun _ => rfl, fun h => absurd h hts⟩
  · refine Or.inl ⟨_, h, ⟨draw { st with
          message := "Choose task to delete (empty to cancel):".toList, modifying := true } ::
        List.replicate k (draw { st with
          message := "Choose task to delete (empty to cancel):".toList, modifying := true }),
      hsuf, Or.inr ⟨Or.inr (Or.inl ⟨id.toNat, by omega, rfl⟩), rfl, by simp⟩⟩,
      fun _ => rfl, fun h => absurd h hts⟩

theorem applyEdit_cases (st : state) (w : World) (id : Int) (title desc : Str)
    (h0 : 0 ≤ id) (hn : id < (st.tasks.length : Int)) :
    (title = [] ∧ desc = [] ∧ applyEdit st w id title desc = some (st, w)) ∨
    (∃ old : task, st.tasks[id.toNat]? = some old ∧ (title ≠ [] ∨ desc ≠ []) ∧
      applyEdit st w id title desc =
        some ({ tasks := st.tasks.set id.toNat
                          (task.mk (if title = [] then old.title else title)
                            (if desc = [] then old.desc else desc)),
                message := st.message,
                modifying := st.modifying },
              w.write (st.tasks.set id.toNat
                  (task.mk (if title = [] then old.title else title)
                    (if desc = [] then old.desc else desc))))) := by
  have hlt : id.toNat < st.tasks.length := by omega
  have hold : st.tasks[id.toNat]? = some st.tasks[id.toNat] := by simp [hlt]
  by_cases ht : title = []
  · by_cases hd : desc = []
    · subst ht hd
      exact Or.inl ⟨rfl, rfl, applyEdit_skip st w id⟩
    · subst ht
      refine Or.inr ⟨_, hold, Or.inr hd, ?_⟩
      rw [applyEdit_desc st w id desc _ hd h0 hold]
      simp [hd]
  · by_cases hd : desc = []
    · subst hd
      refine Or.inr ⟨_, hold, Or.inl ht, ?_⟩
      rw [applyEdit_title st w id title _ ht h0 hold]
      simp [ht]
    · refine Or.inr ⟨_, hold, Or.inl ht, ?_⟩
      rw [applyEdit_both st w id title desc _ ht hd h0 hold]
      simp [ht, hd]

theorem caseEdit_cases (st : state) (w : World) :
    (st.tasks = [] ∧
      caseEdit st w =
        .ok ({ st with message := "You have no tasks. Use `add` command to create one".toList },
             w)) ∨
    (st.tasks ≠ [] ∧
      ((∃ e : Failure,
          readTaskId
            (w.print (draw { st with
              message := "Choose task to edit (empty to cancel):".toList, modifying := true }))
            { st with message := "Choose task to edit (empty to cancel):".toList,
                      modifying := true } = .error e ∧
          caseEdit st w = .error e ∧ Aborted w e) ∨
       (∃ (id : Int) (k : Nat) (rest : List Str),
          readTaskId
            (w.print (draw { st with
              message := "Choose task to edit (empty to cancel):".toList, modifying := true }))
            { st with message := "Choose task to edit (empty to cancel):".toList,
                      modifying := true } =
            .ok (id, { input := rest, store := w.store,
                       trace := w.trace ++
                         (Event.print (draw { st with
                            message := "Choose task to edit (empty to cancel):".toList,
                            modifying := true }) ::
                          List.replicate k (Event.print (draw { st with
                            message := "Choose task to edit (empty to cancel):".toList,
                            modifying := true }))) }) ∧
          rest <:+ w.input ∧
          ((id = -1 ∧
            caseEdit st w =
              .ok ({ tasks := st.tasks, message := [], modifying := false },
                   { input := rest, store := w.store,
                     trace := w.trace ++
                       (Event.print (draw { st with
                          message := "Choose task to edit (empty to cancel):".toList,
                          modifying := true }) ::
                        List.replicate k (Event.print (draw { st with
                          message := "Choose task to edit (empty to cancel):".toList,
                          modifying := true }))) })) ∨
           (0 ≤ id ∧ id < (st.tasks.length : Int) ∧
            ((∃ e : Failure, caseEdit st w = .error e ∧ Aborted w e) ∨
             (∃ frames : List Str,
                byteLen (rest.headD []) < MaxScanTokenSize ∧
                byteLen (rest.tail.headD []) < MaxScanTokenSize ∧
                ((TrimSpace (rest.headD []) = [] ∧ TrimSpace (rest.tail.headD []) = [] ∧
                  caseEdit st w =
                    .ok ({ tasks := st.tasks, message := [], modifying := false },
                         { input := rest.tail.tail, store := w.store,
                           trace := w.trace ++ frames.map Event.print })) ∨
                 (∃ old : task, st.tasks[id.toNat]? = some old ∧
                   (TrimSpace (rest.headD []) ≠ [] ∨ TrimSpace (rest.tail.headD []) ≠ []) ∧
                   caseEdit st w =
                     .ok ({ tasks := st.tasks.set id.toNat
                              (task.mk
                                (if TrimSpace (rest.headD []) = [] then old.title
                                 else TrimSpace (rest.headD []))
                                (if TrimSpace (rest.tail.headD []) = [] then old.desc
                                 else TrimSpace (rest.tail.headD []))),
                            message := [], modifying := false },
                          { input := rest.tail.tail,
                            store := w.store.write (st.tasks.set id.toNat
                              (task.mk
                                (if TrimSpace (rest.headD []) = [] then old.title
                                 else TrimSpace (rest.headD []))
                                (if TrimSpace (rest.tail.headD []) = [] then old.desc
                                 else TrimSpace (rest.tail.headD [])))),
                            trace := w.trace ++ frames.map Event.print ++
                              [Event.write (st.tasks.set id.toNat
                                (task.mk
                                  (if TrimSpace (rest.headD []) = [] then old.title
                                   else TrimSpace (rest.headD []))
                                  (if TrimSpace (rest.tail.headD []) = [] then old.desc
                                   else TrimSpace (rest.tail.headD []))))] })))))))))) := by
  by_cases hts : st.tasks = []
  · exact Or.inl ⟨hts, caseEdit_no_tasks st w hts⟩
  · refine Or.inr ⟨hts, ?_⟩
    rcases readTaskId_outcome
      (w.print (draw { st with message := "Choose task to edit (empty to cancel):".toList,
                               modifying := true }))
      { st with message := "Choose task to edit (empty to cancel):".toList, modifying := true }
      with ⟨id, k, rest, hsel, hsuf, hid⟩ | ⟨k, line, rest, hsel, hsuf, hlong⟩
    · have hw : ({ input := rest,
                   store := (w.print (draw { st with
                     message := "Choose task to edit (empty to cancel):".toList,
                     modifying := true })).store,
                   trace := (w.print (draw { st with
                     message := "Choose task to edit (empty to cancel):".toList,
                     modifying := true })).trace ++
                     List.replicate k (Event.print (draw { st with
                       message := "Choose task to edit (empty to cancel):".toList,
                       modifying := true })) } : World) =
          { input := rest, store := w.store,
            trace := w.trace ++
              (Event.print (draw { st with
                 message := "Choose task to edit (empty to cancel):".toList,
                 modifying := true }) ::
               List.replicate k (Event.print (draw { st with
                 message := "Choose task to edit (empty to cancel):".toList,
                 modifying := true }))) } := by
        simp [World.print]
      rw [hw] at hsel
      have hsuf1 : rest <:+ w.input := hsuf
      refine Or.inr ⟨id, k, rest, hsel, hsuf1, ?_⟩
      rcases hid with hid | ⟨h0, hn⟩
      · subst hid
        exact Or.inl ⟨rfl, caseEdit_cancelled st w _ hts hsel⟩
      · refine Or.inr ⟨h0, hn, ?_⟩
        have hid : id ≠ -1 := by omega
        by_cases h1 : byteLen (rest.headD []) < MaxScanTokenSize
        · by_cases h2 : byteLen (rest.tail.headD []) < MaxScanTokenSize
          · refine Or.inr ⟨draw { st with
                  message := "Choose task to edit (empty to cancel):".toList,
                  modifying := true } ::
                (List.replicate k (draw { st with
                  message := "Choose task to edit (empty to cancel):".toList,
                  modifying := true }) ++
                 [draw { st with message := "Enter new title (empty to skip):".toList,
                                 modifying := true },
                  draw { st with message := "Enter new description (empty to skip):".toList,
                                 modifying := true }]), h1, h2, ?_⟩
            have hedit := caseEdit_of_selection st w _ id hts hsel hid h1 h2
            simp only [] at hedit
            rcases applyEdit_cases
              { st with message := "Enter new description (empty to skip):".toList,
                        modifying := true }
              { input := rest.tail.tail, store := w.store,
                trace := (w.trace ++
                  (Event.print (draw { st with
                     message := "Choose task to edit (empty to cancel):".toList,
                     modifying := true }) ::
                   List.replicate k (Event.print (draw { st with
                     message := "Choose task to edit (empty to cancel):".toList,
                     modifying := true })))) ++
                  [Event.print (draw { st with
                     message := "Enter new title (empty to skip):".toList, modifying := true }),
                   Event.print (draw { st with
                     message := "Enter new description (empty to skip):".toList,
                     modifying := true })] }
              id (TrimSpace (rest.headD [])) (TrimSpace (rest.tail.headD [])) h0 hn
              with ⟨ht, hd, happ⟩ | ⟨old, hold, hnb, happ⟩
            · refine Or.inl ⟨ht, hd, ?_⟩
              rw [hedit, happ]
              simp
            · refine Or.inr ⟨old, hold, hnb, ?_⟩
              rw [hedit, happ]
              simp [World.write]
          · obtain ⟨line, rest2, hin, hlong⟩ := headD_long _ h2
            refine Or.inl ⟨_, caseEdit_long_desc st w _ id line rest2 hts hsel hid h1 hin hlong,
              ?_⟩
            simp only [hin]
            exact Aborted_intro w
              (draw { st with message := "Choose task to edit (empty to cancel):".toList,
                              modifying := true } ::
                (List.replicate k (draw { st with
                  message := "Choose task to edit (empty to cancel):".toList,
                  modifying := true }) ++
                 [draw { st with message := "Enter new title (empty to skip):".toList,
                                 modifying := true },
                  draw { st with message := "Enter new description (empty to skip):".toList,
                                 modifying := true }]))
              _ line rest2
              (by rw [← hin]; exact (List.tail_suffix _).trans hsuf1) hlong (by simp)
        · obtain ⟨line, rest2, hin, hlong⟩ := headD_long _ h1
          refine Or.inl ⟨_, caseEdit_long_title st w _ id line rest2 hts hsel hid hin hlong, ?_⟩
          simp only [hin]
          exact Aborted_intro w
            (draw { st with message := "Choose task to edit (empty to cancel):".toList,
                            modifying := true } ::
              (List.replicate k (draw { st with
                message := "Choose task to edit (empty to cancel):".toList,
                modifying := true }) ++
               [draw { st with message := "Enter new title (empty to skip):".toList,
                               modifying := true }]))
            _ line rest2 (by rw [← hin]; exact hsuf1) hlong (by simp)
    · refine Or.inl ⟨_, hsel, caseEdit_of_failure st w _ hts hsel, ?_⟩
      exact Aborted_intro w
        (draw { st with message := "Choose task to edit (empty to cancel):".toList,
                        modifying := true } ::
          List.replicate k (draw { st with
            message := "Choose task to edit (empty to cancel):".toList, modifying := true }))
        _ line rest hsuf hlong (by simp [World.print])

theorem caseEdit_outcome (st : state) (w : World) :
    (∃ r : state × World, caseEdit st w = .ok r ∧ Effect st.tasks w r.1.tasks r.2 ∧
      (st.tasks ≠ [] → r.1.message = []) ∧
      (st.tasks = [] →
        r.1.message = "You have no tasks. Use `add` command to create one".toList)) ∨
    (∃ e : Failure, caseEdit st w = .error e ∧ Aborted w e) := by
  rcases caseEdit_cases st w with ⟨hts, h⟩ | ⟨hts, ⟨e, _, h, hab⟩ |
    ⟨id, k, rest, _, hsuf, ⟨_, h⟩ | ⟨h0, hn, ⟨e, h, hab⟩ |
      ⟨frames, _, _, ⟨_, _, h⟩ | ⟨old, hold, hnb, h⟩⟩⟩⟩⟩
  · exact Or.inl ⟨_, h, ⟨[], List.suffix_refl _, Or.inl ⟨rfl, rfl, by simp⟩⟩,
      fun hne => absurd hts hne, fun _ => rfl⟩
  · exact Or.inr ⟨e, h, hab⟩
  · refine Or.inl ⟨_, h, ⟨draw { st with
          message := "Choose task to edit (empty to cancel):".toList, modifying := true } ::
        List.replicate k (draw { st with
          message := "Choose task to edit (empty to cancel):".toList, modifying := true }),
      hsuf, Or.inl ⟨rfl, rfl, by simp⟩⟩, fun _ => rfl, fun h => absurd h hts⟩
  · exact Or.inr ⟨e, h, hab⟩
  · exact Or.inl ⟨_, h, ⟨frames, ((List.tail_suffix _).trans (List.tail_suffix _)).trans hsuf,
      Or.inl ⟨rfl, rfl, rfl⟩⟩, fun _ => rfl, fun h => absurd h hts⟩
  · refine Or.inl ⟨_, h, ⟨frames, ((List.tail_suffix _).trans (List.tail_suffix _)).trans hsuf,
      Or.inr ⟨Or.inr (Or.inr ⟨_, old, _, _, hold, hnb, ?_, ?_, rfl⟩), rfl, rfl⟩⟩,
      fun _ => rfl, fun h => absurd h hts⟩
    · rcases headD_trim_of_suffix rest w.input hsuf with h0 | h1
      · exact Or.inl h0
      · exact Or.inr h1
    · rcases headD_trim_of_suffix rest.tail w.input ((List.tail_suffix _).trans hsuf)
        with h0 | h1
      · exact Or.inl h0
      · exact Or.inr h1

/-! ## What one pass of the command loop does -/

theorem fromInput_mono (input input1 : List Str) (s : Str) (h : input ⊆ input1)
    (hs : fromInput input s) : fromInput input1 s := by
  obtain ⟨l, hl, he⟩ := hs
  exact ⟨l, h hl, he⟩

theorem Mutated_mono (input input1 : List Str) (tasks tasks1 : List task) (h : input ⊆ input1)
    (hm : Mutated input tasks tasks1) : Mutated input1 tasks tasks1 := by
  rcases hm with ⟨title, desc, h1, h2, h3, h4⟩ | ⟨k, h1, h2⟩ |
    ⟨k, old, title, desc, h1, h2, h3, h4, h5⟩
  · exact Or.inl ⟨title, desc, h1, fromInput_mono _ _ _ h h2,
      h3.imp id (fromInput_mono _ _ _ h), h4⟩
  · exact Or.inr (Or.inl ⟨k, h1, h2⟩)
  · exact Or.inr (Or.inr ⟨k, old, title, desc, h1, h2, h3.imp id (fromInput_mono _ _ _ h),
      h4.imp id (fromInput_mono _ _ _ h), h5⟩)

theorem Effect_lift (tasks tasks1 : List task) (w w0 w1 : World) (text : Str)
    (hin : w0.input <:+ w.input) (hst : w0.store = w.store)
    (htr : w0.trace = w.trace ++ [Event.print text]) (h : Effect tasks w0 tasks1 w1) :
    Effect tasks w tasks1 w1 ∧ w.trace ++ [Event.print text] <+: w1.trace := by
  obtain ⟨frames, hsuf, hcase⟩ := h
  rcases hcase with ⟨h1, h2, h3⟩ | ⟨h1, h2, h3⟩
  · refine ⟨⟨text :: frames, hsuf.trans hin, Or.inl ⟨h1, h2.trans hst, ?_⟩⟩, ?_⟩
    · rw [h3, htr]
      simp
    · rw [h3, htr]
      exact List.prefix_append _ _
  · refine ⟨⟨text :: frames, hsuf.trans hin,
      Or.inr ⟨Mutated_mono _ _ _ _ hin.subset h1, by rw [h2, hst], ?_⟩⟩, ?_⟩
    · rw [h3, htr]
      simp
    · rw [h3, htr, List.append_assoc]
      exact List.prefix_append _ _

theorem Aborted_lift (w w0 : World) (e : Failure) (text : Str)
    (hin : w0.input <:+ w.input) (hst : w0.store = w.store)
    (htr : w0.trace = w.trace ++ [Event.print text]) (h : Aborted w0 e) :
    Aborted w e ∧
      ∃ w1 : World, e = Failure.fatal ErrTooLong w1 ∧
        w.trace ++ [Event.print text] <+: w1.trace := by
  obtain ⟨frames, line, rest, he, hsuf, hlong⟩ := h
  refine ⟨⟨text :: frames, line, rest, ?_, hsuf.trans hin, hlong⟩, _, he, ?_⟩
  · rw [he, hst, htr]
    simp
  · rw [htr]
    exact List.prefix_append _ _

theorem Effect_refl_print (tasks : List task) (w : World) (input : List Str) (text : Str)
    (h : input <:+ w.input) :
    Effect tasks w tasks
        { input := input, store := w.store, trace := w.trace ++ [Event.print text] } ∧
      w.trace ++ [Event.print text] <+:
        ({ input := input, store := w.store,
           trace := w.trace ++ [Event.print text] } : World).trace :=
  ⟨⟨[text], h, Or.inl ⟨rfl, rfl, by simp⟩⟩, List.prefix_refl _⟩

theorem loopBody_effect (st : state) (w : World) :
    (∃ (st1 : state) (w1 : World) (r : Bool),
      loopBody st w = .ok (st1, w1, r) ∧ Effect st.tasks w st1.tasks w1 ∧
      w.trace ++ [Event.print (draw st)] <+: w1.trace) ∨
    (∃ e : Failure, loopBody st w = .error e ∧ Aborted w e ∧
      ∃ w1 : World, e = Failure.fatal ErrTooLong w1 ∧
        w.trace ++ [Event.print (draw st)] <+: w1.trace) := by
  by_cases hshort : byteLen (w.input.headD []) < MaxScanTokenSize
  · have hloop := loopBody_short st w hshort
    generalize TrimSpace (w.input.headD []) = c at hloop
    have hlift : ∀ (tasks1 : List task) (w1 : World),
        Effect st.tasks { input := w.input.tail, store := w.store,
                          trace := w.trace ++ [Event.print (draw st)] } tasks1 w1 →
        Effect st.tasks w tasks1 w1 ∧ w.trace ++ [Event.print (draw st)] <+: w1.trace :=
      fun tasks1 w1 h => Effect_lift st.tasks tasks1 w
        { input := w.input.tail, store := w.store, trace := w.trace ++ [Event.print (draw st)] }
        w1 (draw st) (List.tail_suffix _) rfl rfl h
    have habort : ∀ e : Failure,
        Aborted { input := w.input.tail, store := w.store,
                  trace := w.trace ++ [Event.print (draw st)] } e →
        Aborted w e ∧ ∃ w1 : World, e = Failure.fatal ErrTooLong w1 ∧
          w.trace ++ [Event.print (draw st)] <+: w1.trace :=
      fun e h => Aborted_lift w
        { input := w.input.tail, store := w.store, trace := w.trace ++ [Event.print (draw st)] }
        e (draw st) (List.tail_suffix _) rfl rfl h
    have hsame := Effect_refl_print st.tasks w w.input.tail (draw st) (List.tail_suffix _)
    by_cases h0 : c = []
    · rw [if_pos h0] at hloop
      exact Or.inl ⟨_, _, _, hloop, hsame⟩
    rw [if_neg h0] at hloop
    by_cases hadd : c = "add".toList ∨ c = "a".toList
    · rw [dispatch_add _ _ _ hadd] at hloop
      rcases caseAdd_outcome st
        { input := w.input.tail, store := w.store, trace := w.trace ++ [Event.print (draw st)] }
        with ⟨r, hr, heff, _⟩ | ⟨e, he, hab⟩
      · rw [hr] at hloop
        exact Or.inl ⟨_, _, _, hloop, hlift _ _ heff⟩
      · rw [he] at hloop
        exact Or.inr ⟨e, hloop, habort e hab⟩
    by_cases hdel : c = "delete".toList ∨ c = "d".toList
    · rw [dispatch_delete _ _ _ hdel] at hloop
      rcases caseDelete_outcome st
        { input := w.input.tail, store := w.store, trace := w.trace ++ [Event.print (draw st)] }
        with ⟨r, hr, heff, _⟩ | ⟨e, he, hab⟩
      · rw [hr] at hloop
        exact Or.inl ⟨_, _, _, hloop, hlift _ _ heff⟩
      · rw [he] at hloop
        exact Or.inr ⟨e, hloop, habort e hab⟩
    by_cases hed : c = "edit".toList ∨ c = "e".toList
    · rw [dispatch_edit _ _ _ hed] at hloop
      rcases caseEdit_outcome st
        { input := w.input.tail, store := w.store, trace := w.trace ++ [Event.print (draw st)] }
        with ⟨r, hr, heff, _⟩ | ⟨e, he, hab⟩
      · rw [hr] at hloop
        exact Or.inl ⟨_, _, _, hloop, hlift _ _ heff⟩
      · rw [he] at hloop
        exact Or.inr ⟨e, hloop, habort e hab⟩
    by_cases hex : c = "exit".toList
    · subst hex
      exact Or.inl ⟨_, _, _, hloop, hsame⟩
    by_cases hhelp : c = "help".toList
    · subst hhelp
      exact Or.inl ⟨_, _, _, hloop, hsame⟩
    have hunk := dispatch_unknown c st
      { input := w.input.tail, store := w.store, trace := w.trace ++ [Event.print (draw st)] }
      ⟨fun h => hadd (Or.inl h), fun h => hadd (Or.inr h), fun h => hdel (Or.inl h),
       fun h => hdel (Or.inr h), fun h => hed (Or.inl h), fun h => hed (Or.inr h), hex, hhelp⟩
    rw [hunk] at hloop
    exact Or.inl ⟨_, _, _, hloop, hsame⟩
  · obtain ⟨line, rest, hin, hlong⟩ := headD_long _ hshort
    refine Or.inr ⟨_, loopBody_long st w line rest hin hlong,
      ⟨[draw st], line, rest, ?_, by rw [hin], hlong⟩, _, rfl, List.prefix_refl _⟩
    simp [hin]

theorem loopBody_total (st : state) (w : World)
    (h : ∀ x ∈ w.input, byteLen x < MaxScanTokenSize) :
    ∃ (st1 : state) (w1 : World) (r : Bool),
      loopBody st w = .ok (st1, w1, r) ∧ Effect st.tasks w st1.tasks w1 ∧
      w.trace ++ [Event.print (draw st)] <+: w1.trace := by
  rcases loopBody_effect st w with hok | ⟨e, _, hab, _⟩
  · exact hok
  · obtain ⟨_, line, hmem, hlong⟩ := Aborted_long_mem w e hab
    exact absurd (h line hmem) (Nat.not_lt.mpr hlong)

theorem loopBody_failure (st : state) (w : World) (e : Failure)
    (h : loopBody st w = .error e) :
    Aborted w e ∧
      ∃ w1 : World, e = Failure.fatal ErrTooLong w1 ∧
        w.trace ++ [Event.print (draw st)] <+: w1.trace := by
  rcases loopBody_effect st w with ⟨_, _, _, hok, _⟩ | ⟨e1, he, hab⟩
  · rw [hok] at h
    cases h
  · rw [he] at h
    cases h
    exact hab

theorem loopBody_ok_short (st st1 : state) (w w1 : World) (r : Bool)
    (h : loopBody st w = .ok (st1, w1, r)) :
    byteLen (w.input.headD []) < MaxScanTokenSize := by
  by_contra hshort
  obtain ⟨line, rest, hin, hlong⟩ := headD_long _ hshort
  rw [loopBody_long st w line rest hin hlong] at h
  cases h

/-! ## Unknown commands and the status message -/

theorem replicate_ne_of_length (n : Nat) (c : Char) (s : Str) (h : s.length < n) :
    List.replicate n c ≠ s := by
  intro he
  have := congrArg List.length he
  rw [List.length_replicate] at this
  omega

/-- C7 (as stated, refuted): the input line is 65536 letters `x`. Its trimmed
text is non-empty and is none of the eight commands, so by the claim the pass
sets the `Unknown command` message and keeps running; but the pass ends in the
fatal error of the Scanner when it reads the line. -/
theorem long_command_is_fatal :
    TrimSpace (List.replicate 65536 'x') ≠ [] ∧
    (TrimSpace (List.replicate 65536 'x') ≠ "add".toList ∧
      TrimSpace (List.replicate 65536 'x') ≠ "a".toList ∧
      TrimSpace (List.replicate 65536 'x') ≠ "delete".toList ∧
      TrimSpace (List.replicate 65536 'x') ≠ "d".toList ∧
      TrimSpace (List.replicate 65536 'x') ≠ "edit".toList ∧
      TrimSpace (List.replicate 65536 'x') ≠ "e".toList ∧
      TrimSpace (List.replicate 65536 'x') ≠ "exit".toList ∧
      TrimSpace (List.replicate 65536 'x') ≠ "help".toList) ∧
    loopBody { tasks := [], message := [], modifying := false }
      { input := [List.replicate 65536 'x'], store := newStorage [], trace := [] } =
    .error (Failure.fatal ErrTooLong
      { input := [List.replicate 65536 'x'], store := newStorage [],
        trace := [Event.print (draw { tasks := [], message := [], modifying := false })] }) := by
  rw [TrimSpace_replicate_not_space 65536 'x' (by decide)]
  refine ⟨replicate_ne_of_length _ _ _ (by decide),
    ⟨replicate_ne_of_length _ _ _ (by decide), replicate_ne_of_length _ _ _ (by decide),
     replicate_ne_of_length _ _ _ (by decide), replicate_ne_of_length _ _ _ (by decide),
     replicate_ne_of_length _ _ _ (by decide), replicate_ne_of_length _ _ _ (by decide),
     replicate_ne_of_length _ _ _ (by decide), replicate_ne_of_length _ _ _ (by decide)⟩, ?_⟩
  exact loopBody_long { tasks := [], message := [], modifying := false }
    { input := [List.replicate 65536 'x'], store := newStorage [], trace := [] }
    (List.replicate 65536 'x') [] rfl
    (by rw [byteLen_replicate_ascii 65536 'x' (by decide)]; decide)

/-- C7 (amended): for every input line shorter than 65536 bytes whose trimmed
text `c` is non-empty and is none of `add`, `a`, `delete`, `d`, `edit`, `e`,
`exit`, `help` (compared exactly, so case matters), the pass of the command
loop sets the message to `Unknown command` followed by `c` between backquotes
and by `. Type` `help` `to see commands`, leaves the task list and the
selecting flag as they are, prints only the frame of the pass, does not call
`storage.write`, leaves the storage untouched and keeps the loop running. -/
theorem unknown_command (st : state) (w : World) (line : Str) (rest : List Str)
    (hin : w.input = line :: rest) (hshort : byteLen line < MaxScanTokenSize)
    (hne : TrimSpace line ≠ [])
    (hunk : TrimSpace line ≠ "add".toList ∧ TrimSpace line ≠ "a".toList ∧
      TrimSpace line ≠ "delete".toList ∧ TrimSpace line ≠ "d".toList ∧
      TrimSpace line ≠ "edit".toList ∧ TrimSpace line ≠ "e".toList ∧
      TrimSpace line ≠ "exit".toList ∧ TrimSpace line ≠ "help".toList) :
    loopBody st w =
      .ok ({ tasks := st.tasks,
             message := "Unknown command `".toList ++ TrimSpace line ++
               "`. Type `help` to see commands".toList,
             modifying := st.modifying },
           { input := rest, store := w.store, trace := w.trace ++ [Event.print (draw st)] },
           true) := by
  rw [loopBody_cons st w line rest hin hshort hne, dispatch_unknown _ _ _ hunk]

/-- Witness for `unknown_command`: the line `foo` gives exactly the message
with `foo` between the backquotes, and `EXIT` in capitals is unknown too and
does not stop the loop. -/
theorem unknown_command_witness :
    loopBody { tasks := [task.mk "a".toList []], message := [], modifying := false }
      { input := ["foo".toList], store := newStorage "a<-$->-$-\n".toList, trace := [] } =
    .ok ({ tasks := [task.mk "a".toList []],
           message := "Unknown command `foo`. Type `help` to see commands".toList,
           modifying := false },
         { input := [], store := newStorage "a<-$->-$-\n".toList,
           trace := [] ++ [Event.print
             (draw { tasks := [task.mk "a".toList []], message := [], modifying := false })] },
         true) ∧
    loopBody { tasks := [], message := [], modifying := false }
      { input := [" EXIT ".toList, "exit".toList], store := newStorage [], trace := [] } =
    .ok ({ tasks := [],
           message := "Unknown command `EXIT`. Type `help` to see commands".toList,
           modifying := false },
         { input := ["exit".toList], store := newStorage [],
           trace := [] ++ [Event.print
             (draw { tasks := [], message := [], modifying := false })] },
         true) :=
  ⟨unknown_command { tasks := [task.mk "a".toList []], message := [], modifying := false }
    { input := ["foo".toList], store := newStorage "a<-$->-$-\n".toList, trace := [] }
    "foo".toList [] rfl (by decide) (by decide) (by decide),
   unknown_command { tasks := [], message := [], modifying := false }
    { input := [" EXIT ".toList, "exit".toList], store := newStorage [], trace := [] }
    " EXIT ".toList ["exit".toList] rfl (by decide) (by decide) (by decide)⟩

/-- C8 (as stated, refuted): after the command `help` the pass of the command
loop ends with the message set to the command summary, not to the empty
string; this is the message the next frame shows. -/
theorem message_kept_after_help :
    loopBody { tasks := [], message := [], modifying := false }
      { input := ["help".toList], store := newStorage [], trace := [] } =
    .ok ({ tasks := [], message := "(a)dd\n(d)elete\n(e)dit\nhelp\nexit".toList,
           modifying := false },
         { input := [], store := newStorage [],
           trace := [Event.print (draw { tasks := [], message := [], modifying := false })] },
         true) ∧
    "(a)dd\n(d)elete\n(e)dit\nhelp\nexit".toList ≠ [] := by
  refine ⟨by rfl, by decide⟩

/-- C8 (amended): every pass of the command loop whose input lines are shorter
than 65536 bytes completes; a pass that does not complete has ended in the
fatal error of the Scanner on an input line of 65536 bytes or more, never in a
panic. When the pass completes, with `c` the trimmed command line (empty at the
end of the input) the message at the moment the loop returns to idle is: empty
after an empty line, after `add`/`a` (completed or cancelled), and after
`delete`/`d`/`edit`/`e` on a non-empty list (completed or cancelled); the
notice `You have no tasks...` after `delete`/`d`/`edit`/`e` on an empty list;
the command summary after `help`; the `Unknown command` notice after any other
text; and after `exit` it is what it was, with the loop stopped. The notices
are what the next frame shows; they are cleared by the next pass that ends with
an empty message. -/
theorem message_after_command (st : state) (w : World) :
    ((∀ x ∈ w.input, byteLen x < MaxScanTokenSize) →
      ∃ (st1 : state) (w1 : World) (running : Bool), loopBody st w = .ok (st1, w1, running)) ∧
    (∀ e : Failure, loopBody st w = .error e →
      (∃ w1 : World, e = Failure.fatal ErrTooLong w1) ∧
      ∃ line ∈ w.input, MaxScanTokenSize ≤ byteLen line) ∧
    (∀ (st1 : state) (w1 : World) (running : Bool),
      loopBody st w = .ok (st1, w1, running) →
      (TrimSpace (w.input.headD []) = [] → st1.message = []) ∧
      (TrimSpace (w.input.headD []) = "add".toList ∨
        TrimSpace (w.input.headD []) = "a".toList → st1.message = []) ∧
      (TrimSpace (w.input.headD []) = "delete".toList ∨
        TrimSpace (w.input.headD []) = "d".toList ∨
        TrimSpace (w.input.headD []) = "edit".toList ∨
        TrimSpace (w.input.headD []) = "e".toList →
        (st.tasks ≠ [] → st1.message = []) ∧
        (st.tasks = [] →
          st1.message = "You have no tasks. Use `add` command to create one".toList)) ∧
      (TrimSpace (w.input.headD []) = "help".toList →
        st1.message = "(a)dd\n(d)elete\n(e)dit\nhelp\nexit".toList) ∧
      (TrimSpace (w.input.headD []) = "exit".toList →
        st1.message = st.message ∧ running = false) ∧
      (TrimSpace (w.input.headD []) ≠ [] ∧
        TrimSpace (w.input.headD []) ≠ "add".toList ∧
        TrimSpace (w.input.headD []) ≠ "a".toList ∧
        TrimSpace (w.input.headD []) ≠ "delete".toList ∧
        TrimSpace (w.input.headD []) ≠ "d".toList ∧
        TrimSpace (w.input.headD []) ≠ "edit".toList ∧
        TrimSpace (w.input.headD []) ≠ "e".toList ∧
        TrimSpace (w.input.headD []) ≠ "exit".toList ∧
        TrimSpace (w.input.headD []) ≠ "help".toList →
        st1.message = "Unknown command `".toList ++ TrimSpace (w.input.headD []) ++
          "`. Type `help` to see commands".toList)) := by
  refine ⟨?_, ?_, ?_⟩
  · intro hall
    obtain ⟨st1, w1, r, h, _⟩ := loopBody_total st w hall
    exact ⟨st1, w1, r, h⟩
  · intro e he
    obtain ⟨⟨w1, hw1, _⟩, hmem⟩ := Aborted_long_mem w e (loopBody_failure st w e he).1
    exact ⟨⟨w1, hw1⟩, hmem⟩
  intro st1 w1 running hok
  have hloop := loopBody_short st w (loopBody_ok_short st st1 w w1 running hok)
  rw [hok] at hloop
  generalize TrimSpace (w.input.headD []) = c at hloop ⊢
  generalize ({ input := w.input.tail, store := w.store,
                trace := w.trace ++ [Event.print (draw st)] } : World) = w0 at hloop
  by_cases h0 : c = []
  · subst h0
    rw [if_pos rfl] at hloop
    cases hloop
    simp
  rw [if_neg h0] at hloop
  by_cases hadd : c = "add".toList ∨ c = "a".toList
  · rw [dispatch_add _ _ _ hadd] at hloop
    rcases caseAdd_outcome st w0 with ⟨r, hr, _, hm⟩ | ⟨e, he, _⟩
    · rw [hr] at hloop
      cases hloop
      rcases hadd with rfl | rfl <;> simp [hm]
    · rw [he] at hloop
      cases hloop
  by_cases hdel : c = "delete".toList ∨ c = "d".toList
  · rw [dispatch_delete _ _ _ hdel] at hloop
    rcases caseDelete_outcome st w0 with ⟨r, hr, _, hm1, hm2⟩ | ⟨e, he, _⟩
    · rw [hr] at hloop
      cases hloop
      rcases hdel with rfl | rfl
      · exact ⟨by simp, by simp, fun _ => ⟨hm1, hm2⟩, by simp, by simp, by simp⟩
      · exact ⟨by simp, by simp, fun _ => ⟨hm1, hm2⟩, by simp, by simp, by simp⟩
    · rw [he] at hloop
      cases hloop
  by_cases hed : c = "edit".toList ∨ c = "e".toList
  · rw [dispatch_edit _ _ _ hed] at hloop
    rcases caseEdit_outcome st w0 with ⟨r, hr, _, hm1, hm2⟩ | ⟨e, he, _⟩
    · rw [hr] at hloop
      cases hloop
      rcases hed with rfl | rfl
      · exact ⟨by simp, by simp, fun _ => ⟨hm1, hm2⟩, by simp, by simp, by simp⟩
      · exact ⟨by simp, by simp, fun _ => ⟨hm1, hm2⟩, by simp, by simp, by simp⟩
    · rw [he] at hloop
      cases hloop
  by_cases hex : c = "exit".toList
  · subst hex
    cases hloop
    simp
  by_cases hhelp : c = "help".toList
  · subst hhelp
    cases hloop
    simp
  have hunk := dispatch_unknown c st w0
    ⟨fun h => hadd (Or.inl h), fun h => hadd (Or.inr h), fun h => hdel (Or.inl h),
     fun h => hdel (Or.inr h), fun h => hed (Or.inl h), fun h => hed (Or.inr h), hex, hhelp⟩
  rw [hunk] at hloop
  cases hloop
  refine ⟨fun h => absurd h h0, fun h => absurd h hadd, ?_,
    fun h => absurd h hhelp, fun h => absurd h hex, fun _ => rfl⟩
  intro h
  rcases h with h | h | h | h
  · exact absurd (Or.inl h) hdel
  · exact absurd (Or.inr h) hdel
  · exact absurd (Or.inl h) hed
  · exact absurd (Or.inr h) hed

/-- Witness for `message_after_command`: the pass that reads `d` on an empty
list completes and ends with the notice. -/
theorem message_after_command_witness :
    ∃ (st1 : state) (w1 : World) (running : Bool),
      loopBody { tasks := [], message := [], modifying := false }
        { input := ["d".toList], store := newStorage [], trace := [] } =
        .ok (st1, w1, running) ∧
      st1.message = "You have no tasks. Use `add` command to create one".toList := by
  obtain ⟨h1, _, h3⟩ := message_after_command
    { tasks := [], message := [], modifying := false }
    { input := ["d".toList], store := newStorage [], trace := [] }
  obtain ⟨st1, w1, r, h⟩ := h1 (by decide)
  exact ⟨st1, w1, r, h, ((h3 st1 w1 r h).2.2.1 (Or.inr (Or.inl (by decide)))).2 rfl⟩

/-! ## Instances at concrete inputs -/

/-- Witness for `read_fatal_iff`: a file of three lines whose second line `bad`
has no separator is refused with the error naming that line. -/
theorem read_fatal_iff_witness :
    (newStorage "a<-$->b\nbad\nc<-$->d\n".toList).read =
      .error "Error parsing task: bad".toList :=
  (read_fatal_iff "a<-$->b\nbad\nc<-$->d\n".toList).2.1
    ["a<-$->b".toList] "bad".toList ["c<-$->d".toList] (by decide) (by decide) (by decide)

/-- Witness for `read_drops_last_segment`: the text `garbage` after the last
newline is a segment of its own and the read returns what the line before it
parses to. -/
theorem read_drops_last_segment_witness :
    Split ("a<-$->b".toList ++ NL ++ "garbage".toList) =
      Split "a<-$->b".toList ++ ["garbage".toList] ∧
    (newStorage ("a<-$->b".toList ++ NL ++ "garbage".toList)).read =
      (readLoop (Split "a<-$->b".toList) []).map
        (fun ts => (ts, { fd := { contents := "a<-$->b".toList ++ NL ++ "garbage".toList,
                                  offset := ("a<-$->b".toList ++ NL ++ "garbage".toList).length } })) :=
  read_drops_last_segment.2.2.1 "a<-$->b".toList "garbage".toList (by decide)


/-! ## Adding -/

theorem caseAdd_long_title (st : state) (w : World) (line : Str) (rest : List Str)
    (hin : w.input = line :: rest) (hlong : MaxScanTokenSize ≤ byteLen line) :
    caseAdd st w =
      .error (Failure.fatal ErrTooLong
        { input := line :: rest, store := w.store,
          trace := w.trace ++
            [Event.print (draw { st with
              message := "Enter title (empty to cancel):".toList })] }) := by
  unfold caseAdd
  simp only []
  rw [readInput_of_long (w.print _) line rest hin hlong]
  simp only [World.print, hin]

theorem caseAdd_cancelled (st : state) (w : World)
    (h1 : byteLen (w.input.headD []) < MaxScanTokenSize)
    (h2 : TrimSpace (w.input.headD []) = []) :
    caseAdd st w =
      .ok ({ tasks := st.tasks, message := [], modifying := st.modifying },
           { input := w.input.tail, store := w.store,
             trace := w.trace ++
               [Event.print (draw { st with
                 message := "Enter title (empty to cancel):".toList })] }) := by
  rcases caseAdd_cases st w with ⟨line, rest, hin, hlong, _⟩ | ⟨_, _, h⟩ | ⟨_, hne, _⟩ |
    ⟨_, hne, _⟩
  · rw [hin] at h1
    exact absurd h1 (Nat.not_lt.mpr hlong)
  · exact h
  · exact absurd h2 hne
  · exact absurd h2 hne

theorem caseAdd_appended (st : state) (w : World)
    (h1 : byteLen (w.input.headD []) < MaxScanTokenSize)
    (h2 : TrimSpace (w.input.headD []) ≠ [])
    (h3 : byteLen (w.input.tail.headD []) < MaxScanTokenSize) :
    caseAdd st w =
      .ok ({ tasks := st.tasks ++
               [task.mk (TrimSpace (w.input.headD [])) (TrimSpace (w.input.tail.headD []))],
             message := [],
             modifying := st.modifying },
           { input := w.input.tail.tail,
             store := w.store.write (st.tasks ++
               [task.mk (TrimSpace (w.input.headD [])) (TrimSpace (w.input.tail.headD []))]),
             trace := w.trace ++
               [Event.print (draw { st with
                  message := "Enter title (empty to cancel):".toList }),
                Event.print (draw { st with message := "Enter description (optional):".toList }),
                Event.write (st.tasks ++
                  [task.mk (TrimSpace (w.input.headD []))
                    (TrimSpace (w.input.tail.headD []))])] }) := by
  rcases caseAdd_cases st w with ⟨line, rest, hin, hlong, _⟩ | ⟨_, he, _⟩ |
    ⟨_, _, line, rest, hin, hlong, _⟩ | ⟨_, _, _, h⟩
  · rw [hin] at h1
    exact absurd h1 (Nat.not_lt.mpr hlong)
  · exact absurd he h2
  · rw [hin] at h3
    exact absurd h3 (Nat.not_lt.mpr hlong)
  · exact h

theorem loopBody_add_failure (st : state) (w : World) (cmd : Str) (rest : List Str)
    (e : Failure) (hin : w.input = cmd :: rest) (hshort : byteLen cmd < MaxScanTokenSize)
    (hcmd : TrimSpace cmd = "add".toList ∨ TrimSpace cmd = "a".toList)
    (h : caseAdd st { input := rest, store := w.store,
                      trace := w.trace ++ [Event.print (draw st)] } = .error e) :
    loopBody st w = .error e := by
  have hne : TrimSpace cmd ≠ [] := by
    rcases hcmd with h | h <;> rw [h] <;> decide
  rw [loopBody_cons st w cmd rest hin hshort hne, dispatch_add _ _ _ hcmd, h]

/-- C11 (as stated, refuted): the input lines are `a`, a line of 65536 letters
`x` and an empty line. The title input is non-empty and the next line trims to
the empty description, so by the claim a task is appended and the new list is
written to storage; but the pass ends in the fatal error of the Scanner when it
reads the title: the storage is as it was and `storage.write` has not been
called. -/
theorem long_title_ends_add :
    TrimSpace (List.replicate 65536 'x') ≠ [] ∧ TrimSpace "".toList = [] ∧
    loopBody { tasks := [], message := [], modifying := false }
      { input := ["a".toList, List.replicate 65536 'x', "".toList],
        store := newStorage [], trace := [] } =
    .error (Failure.fatal ErrTooLong
      { input := [List.replicate 65536 'x', "".toList],
        store := newStorage [],
        trace := [Event.print (draw { tasks := [], message := [], modifying := false }),
                  Event.print (draw { tasks := [],
                                      message := "Enter title (empty to cancel):".toList,
                                      modifying := false })] }) := by
  refine ⟨?_, by decide, ?_⟩
  · rw [TrimSpace_replicate_not_space 65536 'x' (by decide)]
    exact replicate_ne_of_length _ _ _ (by decide)
  · exact loopBody_add_failure _ _ "a".toList _ _ rfl (by decide) (Or.inr (by decide))
      (caseAdd_long_title { tasks := [], message := [], modifying := false }
        { input := [List.replicate 65536 'x', "".toList], store := newStorage [],
          trace := [Event.print (draw { tasks := [], message := [], modifying := false })] }
        (List.replicate 65536 'x') ["".toList] rfl
        (by rw [byteLen_replicate_ascii 65536 'x' (by decide)]; decide))

/-- C11 (amended): for the command `add` or `a`, the command line and the next
input line being shorter than 65536 bytes, with `title` the next input line
trimmed and `desc` the line after it trimmed (each empty at the end of the
input): if `title` is empty the task list is unchanged, `storage.write` is not
called and the storage is untouched, and the description is not prompted for
(only the frame of the pass and the title prompt are printed, only the title
line is consumed); if `title` is non-empty and the line after it is shorter
than 65536 bytes too, the new task list is the old list with the single task of
that title and description appended at its end, after the title prompt and the
description prompt, and this new list is what `storage.write` is called with,
so that the file holds its serialisation. In both cases the message ends empty
and the loop keeps running. -/
theorem add_command (st : state) (w : World) (cmd : Str) (tail : List Str) (title desc : Str)
    (hin : w.input = cmd :: tail)
    (hcmd : TrimSpace cmd = "add".toList ∨ TrimSpace cmd = "a".toList)
    (hcmdlen : byteLen cmd < MaxScanTokenSize)
    (htitlelen : byteLen (tail.headD []) < MaxScanTokenSize)
    (htitle : title = TrimSpace (tail.headD []))
    (hdesc : desc = TrimSpace (tail.tail.headD [])) :
    (title = [] →
      loopBody st w =
        .ok ({ tasks := st.tasks, message := [], modifying := st.modifying },
             { input := tail.tail, store := w.store,
               trace := w.trace ++
                 [Event.print (draw st),
                  Event.print (draw { st with
                    message := "Enter title (empty to cancel):".toList })] },
             true)) ∧
    (title ≠ [] → byteLen (tail.tail.headD []) < MaxScanTokenSize →
      loopBody st w =
        .ok ({ tasks := st.tasks ++ [task.mk title desc], message := [],
               modifying := st.modifying },
             { input := tail.tail.tail,
               store := { fd := { contents := serialize (st.tasks ++ [task.mk title desc]),
                                  offset := (serialize (st.tasks ++ [task.mk title desc])).length } },
               trace := w.trace ++
                 [Event.print (draw st),
                  Event.print (draw { st with
                    message := "Enter title (empty to cancel):".toList }),
                  Event.print (draw { st with
                    message := "Enter description (optional):".toList }),
                  Event.write (st.tasks ++ [task.mk title desc])] },
             true) ∧
      (∀ j, j < st.tasks.length → (st.tasks ++ [task.mk title desc])[j]? = st.tasks[j]?) ∧
      (st.tasks ++ [task.mk title desc])[st.tasks.length]? = some (task.mk title desc) ∧
      (st.tasks ++ [task.mk title desc]).length = st.tasks.length + 1) := by
  have hne : TrimSpace cmd ≠ [] := by
    rcases hcmd with h | h <;> rw [h] <;> decide
  have hloop := loopBody_cons st w cmd tail hin hcmdlen hne
  rw [dispatch_add _ _ _ hcmd] at hloop
  constructor
  · intro ht
    rw [hloop, caseAdd_cancelled st _ htitlelen (by rw [← htitle]; exact ht)]
    simp
  · intro ht hdesclen
    refine ⟨?_, ?_, ?_, ?_⟩
    · rw [hloop, caseAdd_appended st _ htitlelen (by rw [← htitle]; exact ht) hdesclen]
      simp only []
      rw [← htitle, ← hdesc]
      rw [write_contents]
      simp
    · intro j hj
      simp [List.getElem?_append_left hj]
    · simp
    · simp

/-- Witness for `add_command`: `a`, then ` buy milk `, then an empty line
appends the task `buy milk` with no description to a list of one task. -/
theorem add_command_witness :
    ∃ w1 : World,
      loopBody { tasks := [task.mk "x".toList "y".toList], message := [], modifying := false }
        { input := ["a".toList, " buy milk ".toList, "".toList],
          store := newStorage "x<-$->y\n".toList, trace := [] } =
      .ok ({ tasks := [task.mk "x".toList "y".toList, task.mk "buy milk".toList []],
             message := [], modifying := false }, w1, true) ∧
      w1.store.fd.contents = "x<-$->y\nbuy milk<-$->-$-\n".toList :=
  ⟨_, ((add_command
    { tasks := [task.mk "x".toList "y".toList], message := [], modifying := false }
    { input := ["a".toList, " buy milk ".toList, "".toList],
      store := newStorage "x<-$->y\n".toList, trace := [] }
    "a".toList [" buy milk ".toList, "".toList] "buy milk".toList []
    rfl (by decide) (by decide) (by decide) (by decide) (by decide)).2 (by decide)
      (by decide)).1, by rfl⟩

/-! ## Rendering -/

theorem drawLoop_eq (m : Bool) (ts : List task) (i : Nat) (b : Str) :
    drawLoop m ts i b = b ++ ((ts.enumFrom i).map (fun p => taskBlock m p.1 p.2)).flatten := by
  induction ts generalizing i b with
  | nil => simp [drawLoop]
  | cons t ts ih => simp [drawLoop, ih, List.enumFrom_cons]

theorem enumFrom_map_snd (f : task → Str) (ts : List task) (i : Nat) :
    (ts.enumFrom i).map (fun p => f p.2) = ts.map f := by
  induction ts generalizing i with
  | nil => rfl
  | cons t ts ih => simp [List.enumFrom_cons, ih]

theorem drawTasks_plain (s : state) (b : Str) (h : s.modifying = false) :
    drawTasks s b =
      b ++ "┏━━ Task List ━━━\n\n".toList ++
        (s.tasks.map (fun t =>
          "  ".toList ++ t.title ++ NL ++
            (if t.desc ≠ [] then "    ".toList ++ t.desc ++ NL else []) ++ NL)).flatten := by
  unfold drawTasks
  rw [drawLoop_eq, h, ← enumFrom_map_snd _ s.tasks 0]
  rfl

theorem drawTasks_indexed (s : state) (b : Str) (h : s.modifying = true) :
    drawTasks s b =
      b ++ "┏━━ Task List ━━━\n\n".toList ++
        (s.tasks.enum.map (fun p =>
          "  [".toList ++ (Nat.repr (p.1 + 1)).toList ++ "] ".toList ++ p.2.title ++ NL ++
            (if p.2.desc ≠ [] then "        ".toList ++ p.2.desc ++ NL else []) ++ NL)).flatten := by
  unfold drawTasks
  rw [drawLoop_eq, h]
  rfl

/-- C12: for every state and builder, `drawTasks` appends the header and then
one block per task in list order. When the flag `modifying` is false the block
of a task is two spaces, the title and a newline, then four spaces, the
description and a newline only if the description is non-empty, then one empty
line, with no index. When the flag is true the title line of the task at
position `k` (counted from 0) is instead two spaces, `[`, the decimal numeral of
`k + 1`, `]`, a space and the title, so that the tasks carry the indices
`1..n` in order, and a non-empty description follows on a line of its own,
indented by eight spaces. -/
theorem drawTasks_by_mode (s : state) (b : Str) :
    (s.modifying = false →
      drawTasks s b =
        b ++ "┏━━ Task List ━━━\n\n".toList ++
          (s.tasks.map (fun t =>
            "  ".toList ++ t.title ++ NL ++
              (if t.desc ≠ [] then "    ".toList ++ t.desc ++ NL else []) ++ NL)).flatten) ∧
    (s.modifying = true →
      drawTasks s b =
        b ++ "┏━━ Task List ━━━\n\n".toList ++
          (s.tasks.enum.map (fun p =>
            "  [".toList ++ (Nat.repr (p.1 + 1)).toList ++ "] ".toList ++ p.2.title ++ NL ++
              (if p.2.desc ≠ [] then "        ".toList ++ p.2.desc ++ NL else []) ++
              NL)).flatten) ∧
    s.tasks.enum.map (fun p => p.1 + 1) = List.range' 1 s.tasks.length ∧
    s.tasks.enum.map (fun p => p.2) = s.tasks :=
  ⟨drawTasks_plain s b, drawTasks_indexed s b, by
    have h : s.tasks.enum.map (fun p => p.1 + 1) = (s.tasks.enum.map Prod.fst).map (· + 1) := by
      rw [List.map_map]
      rfl
    rw [h, List.enum_map_fst, List.range'_eq_map_range]
    apply List.map_congr_left
    intro a _
    omega, List.enum_map_snd s.tasks⟩

/-- Witness for `drawTasks_by_mode`: three tasks, the second with a description,
drawn without and with indices. -/
theorem drawTasks_by_mode_witness :
    drawTasks
      { tasks := [task.mk "a".toList [], task.mk "b".toList "x".toList, task.mk "c".toList []],
        message := [], modifying := false } [] =
      "┏━━ Task List ━━━\n\n  a\n\n  b\n    x\n\n  c\n\n".toList ∧
    drawTasks
      { tasks := [task.mk "a".toList [], task.mk "b".toList "x".toList, task.mk "c".toList []],
        message := [], modifying := true } [] =
      "┏━━ Task List ━━━\n\n  [1] a\n\n  [2] b\n        x\n\n  [3] c\n\n".toList :=
  ⟨((drawTasks_by_mode
      { tasks := [task.mk "a".toList [], task.mk "b".toList "x".toList, task.mk "c".toList []],
        message := [], modifying := false } []).1 rfl).trans (by decide),
   ((drawTasks_by_mode
      { tasks := [task.mk "a".toList [], task.mk "b".toList "x".toList, task.mk "c".toList []],
        message := [], modifying := true } []).2.1 rfl).trans (by decide)⟩

/-- C13 (as stated, refuted): the frame of the state with no task and an empty
message is the screen-clear sequence, the header line, the empty message line
and then the three characters `>> `; no text of two characters stands there as
the prompt marker. -/
theorem frame_marker_not_two_chars :
    draw { tasks := [], message := [], modifying := false } =
      "\x1bc".toList ++ "┏━━ Task List ━━━\n\n".toList ++ ([] ++ NL) ++ ">> ".toList ∧
    ¬ ∃ marker : Str, marker.length = 2 ∧
      draw { tasks := [], message := [], modifying := false } =
        "\x1bc".toList ++ "┏━━ Task List ━━━\n\n".toList ++ ([] ++ NL) ++ marker := by
  refine ⟨by decide, ?_⟩
  rintro ⟨marker, hlen, h⟩
  have h1 : draw { tasks := [], message := [], modifying := false } =
      "\x1bc".toList ++ "┏━━ Task List ━━━\n\n".toList ++ ([] ++ NL) ++ ">> ".toList := by decide
  rw [h1] at h
  have h2 := List.append_cancel_left h
  rw [← h2] at hlen
  revert hlen
  decide

/-- C13 (amended): for every state the text produced by `draw` is, in this
order and with nothing else: the screen-clear sequence `ESC c`, the fixed
header line, one block per task in list order (title line, with its index when
the flag `modifying` is set; an indented description line only if the
description is non-empty; one empty line after each task), the current message
followed by a newline, and finally the fixed prompt marker of three characters,
`>>` and a space, as the last characters of the frame. -/
theorem draw_layout (s : state) :
    (s.modifying = false →
      draw s =
        "\x1bc".toList ++ "┏━━ Task List ━━━\n\n".toList ++
          (s.tasks.map (fun t =>
            "  ".toList ++ t.title ++ NL ++
              (if t.desc ≠ [] then "    ".toList ++ t.desc ++ NL else []) ++ NL)).flatten ++
          (s.message ++ NL) ++ ">> ".toList) ∧
    (s.modifying = true →
      draw s =
        "\x1bc".toList ++ "┏━━ Task List ━━━\n\n".toList ++
          (s.tasks.enum.map (fun p =>
            "  [".toList ++ (Nat.repr (p.1 + 1)).toList ++ "] ".toList ++ p.2.title ++ NL ++
              (if p.2.desc ≠ [] then "        ".toList ++ p.2.desc ++ NL else []) ++
              NL)).flatten ++
          (s.message ++ NL) ++ ">> ".toList) ∧
    ">> ".toList <:+ draw s ∧ (">> ".toList).length = 3 := by
  refine ⟨?_, ?_, ?_, by decide⟩
  · intro h
    unfold draw
    rw [drawTasks_plain s _ h]
  · intro h
    unfold draw
    rw [drawTasks_indexed s _ h]
  · unfold draw
    exact List.suffix_append _ _

/-- Witness for `draw_layout`: the frame of one task with a description and the message `hi`. -/
theorem draw_layout_witness :
    draw { tasks := [task.mk "a".toList "x".toList], message := "hi".toList, modifying := false } =
      "\x1bc┏━━ Task List ━━━\n\n  a\n    x\n\nhi\n>> ".toList :=
  ((draw_layout
    { tasks := [task.mk "a".toList "x".toList], message := "hi".toList,
      modifying := false }).1 rfl).trans (by decide)

/-! ## One-shot mode -/

/-- C14 (as stated, refuted): with the single argument `print` and the task file
holding the one task `A` without description, the program prints the header
line before the block of the task, so the output is not free of the header. -/
theorem print_mode_prints_header :
    main ["task-list".toList, "print".toList] [] "A<-$->-$-\n".toList 0 =
      Outcome.exited 0
        { input := [],
          store := { fd := { contents := "A<-$->-$-\n".toList, offset := 10 } },
          trace := [Event.print ("┏━━ Task List ━━━\n\n".toList ++ "  A\n\n".toList)] } ∧
    "┏━━ Task List ━━━\n\n".toList ≠ [] := by
  refine ⟨by rfl, by decide⟩

/-- C14 (amended): when the program is run with the single argument `print` and
the task file is read without error, it prints nothing at all if the loaded
task list is empty; if the list is non-empty it prints once, the fixed header
line followed by one block per task shown without indices (no screen clear, no
message line, no prompt marker); it reads no input, writes nothing to storage
and exits with status 0. For the single task `A` with an empty description the
output is the header, the line of `A` and an empty line, with no indented
description line. -/
theorem print_mode (prog : Str) (input : List Str) (disk : Str) (fuel : Nat)
    (tasks : List task) (store1 : storage)
    (hread : (newStorage disk).read = .ok (tasks, store1)) :
    (tasks = [] →
      main [prog, "print".toList] input disk fuel =
        Outcome.exited 0 { input := input, store := store1, trace := [] }) ∧
    (tasks ≠ [] →
      main [prog, "print".toList] input disk fuel =
        Outcome.exited 0
          { input := input, store := store1,
            trace := [Event.print ("┏━━ Task List ━━━\n\n".toList ++
              (tasks.map (fun t =>
                "  ".toList ++ t.title ++ NL ++
                  (if t.desc ≠ [] then "    ".toList ++ t.desc ++ NL else []) ++
                  NL)).flatten)] }) ∧
    (tasks = [task.mk "A".toList []] →
      main [prog, "print".toList] input disk fuel =
        Outcome.exited 0
          { input := input, store := store1,
            trace := [Event.print "┏━━ Task List ━━━\n\n  A\n\n".toList] }) := by
  have hne : ∀ ts : List task, ts ≠ [] →
      main [prog, "print".toList] input disk fuel =
        (if tasks = ts then
          Outcome.exited 0
            { input := input, store := store1,
              trace := [Event.print ("┏━━ Task List ━━━\n\n".toList ++
                (ts.map (fun t =>
                  "  ".toList ++ t.title ++ NL ++
                    (if t.desc ≠ [] then "    ".toList ++ t.desc ++ NL else []) ++
                    NL)).flatten)] }
         else main [prog, "print".toList] input disk fuel) := by
    intro ts hts
    by_cases he : tasks = ts
    · rw [if_pos he]
      subst he
      have hlen : tasks.length > 0 := List.length_pos.mpr hts
      unfold main
      simp only [hread]
      have hd := drawTasks_plain { tasks := tasks, message := [], modifying := false } [] rfl
      simp only [List.nil_append] at hd
      simp [hlen, World.print, hd]
    · rw [if_neg he]
  refine ⟨?_, ?_, ?_⟩
  · intro h
    subst h
    unfold main
    simp [hread]
  · intro h
    rw [hne tasks h, if_pos rfl]
  · intro h
    rw [hne [task.mk "A".toList []] (by simp), if_pos h]
    rfl

/-- Witness for `print_mode`: an empty task file gives no output. -/
theorem print_mode_witness :
    main ["task-list".toList, "print".toList] ["help".toList] [] 3 =
      Outcome.exited 0 { input := ["help".toList], store := newStorage [], trace := [] } :=
  (print_mode "task-list".toList ["help".toList] [] 3 [] (newStorage []) (by rfl)).1 rfl


/-! ## A separator inside a title -/

theorem Index_some_spec (sep s : Str) (i : Nat) (h : Index sep s = some i) :
    sep <+: s.drop i ∧ i + sep.length ≤ s.length := by
  induction s generalizing i with
  | nil =>
    unfold Index at h
    split at h
    · rename_i hs
      cases h
      subst hs
      simp
    · cases h
  | cons c s ih =>
    unfold Index at h
    split at h
    · rename_i hp
      cases h
      exact ⟨hp, by simpa using hp.length_le⟩
    · cases hi : Index sep s with
      | none => simp [hi] at h
      | some j =>
        simp [hi] at h
        subst h
        have := ih j hi
        exact ⟨by simpa using this.1, by simp; omega⟩

theorem Index_take_none (sep s : Str) (i : Nat) (hsep : sep ≠ []) (h : Index sep s = some i) :
    Index sep (s.take i) = none := by
  induction s generalizing i with
  | nil => simp [Index, hsep]
  | cons c s ih =>
    unfold Index at h
    split at h
    · cases h
      simp [Index, hsep]
    · rename_i hp
      cases hi : Index sep s with
      | none => simp [hi] at h
      | some j =>
        simp [hi] at h
        subst h
        have hnp : ¬ sep <+: c :: List.take j s := by
          intro hpre
          apply hp
          have : c :: List.take j s <+: c :: s :=
            (List.prefix_cons_inj c).mpr (List.take_prefix j s)
          exact hpre.trans this
        simp [List.take_succ_cons, Index, hnp, ih j hi]

theorem Index_append_of_some (sep l r : Str) (i : Nat) (h : Index sep l = some i) :
    Index sep (l ++ r) = some i := by
  induction l generalizing i with
  | nil =>
    unfold Index at h
    split at h
    · rename_i hs
      cases h
      subst hs
      cases r <;> simp [Index]
    · cases h
  | cons c l ih =>
    unfold Index at h
    split at h
    · rename_i hp
      cases h
      have : sep <+: c :: (l ++ r) := hp.trans (List.prefix_append (c :: l) r)
      simp [Index, this]
    · rename_i hp
      cases hi : Index sep l with
      | none => simp [hi] at h
      | some j =>
        simp [hi] at h
        subst h
        have hlen := (Index_some_spec sep l j hi).2
        have hnp : ¬ sep <+: c :: (l ++ r) := by
          intro hpre
          apply hp
          have h1 : sep <+: (c :: l) ++ r := by simpa using hpre
          exact List.prefix_of_prefix_length_le h1 (List.prefix_append (c :: l) r)
            (by simp; omega)
        simp [Index, hnp, ih j hi]

theorem Index_split (sep s : Str) (i : Nat) (h : Index sep s = some i) :
    s = s.take i ++ sep ++ s.drop (i + sep.length) := by
  obtain ⟨hp, _⟩ := Index_some_spec sep s i h
  have h1 := List.prefix_iff_eq_append.mp hp
  rw [List.drop_drop] at h1
  have h2 : s = s.take i ++ s.drop i := (List.take_append_drop i s).symm
  rw [← h1] at h2
  rw [List.append_assoc]
  exact h2

theorem readLine_title_with_SEP (title d : Str) (i : Nat) (h : Index SEP title = some i) :
    readLine (title ++ SEP ++ d) =
      some (task.mk (title.take i) (title.drop (i + 5) ++ SEP ++ d)) := by
  have hlen := (Index_some_spec SEP title i h).2
  have h5 : SEP.length = 5 := rfl
  rw [h5] at hlen
  have hidx : Index SEP (title ++ SEP ++ d) = some i := by
    rw [List.append_assoc]
    exact Index_append_of_some SEP title (SEP ++ d) i h
  unfold readLine Cut
  rw [hidx]
  simp only [h5]
  have ht : List.take i (title ++ SEP ++ d) = title.take i := by
    rw [List.append_assoc, List.take_append_of_le_length (by omega)]
  have hd : List.drop (i + 5) (title ++ SEP ++ d) = title.drop (i + 5) ++ SEP ++ d := by
    rw [List.append_assoc, List.drop_append_of_le_length (by omega), List.append_assoc]
  rw [ht, hd]
  have hne : title.drop (i + 5) ++ SEP ++ d ≠ SENTINEL := by
    intro he
    have := congrArg List.length he
    simp [SEP, SENTINEL] at this
    omega
  simp only [if_neg hne]

theorem parse_serialize_eq_readLoop (ts : List task)
    (hnl : ∀ t ∈ ts, '\n' ∉ t.title ∧ '\n' ∉ t.desc) :
    parse (serialize ts) =
      readLoop (ts.map (fun t => t.title ++ SEP ++ (if t.desc = [] then SENTINEL else t.desc)))
        [] := by
  rw [parse_eq_readLoop, serialize_lines]
  have hs := Split_lines
    (ts.map (fun t => t.title ++ SEP ++ (if t.desc = [] then SENTINEL else t.desc)))
    (by
      intro l hl
      obtain ⟨t, ht, rfl⟩ := List.mem_map.mp hl
      have h1 := hnl t ht
      have h2 := not_mem_SEP
      have h3 := not_mem_SENTINEL
      by_cases hd : t.desc = []
      · simp [hd, h1.1, h2, h3]
      · simp [hd, h1.1, h1.2, h2]) []
  rw [List.append_nil] at hs
  rw [hs]
  simp only [Split, List.dropLast_concat]

/-- C15: for every task whose title contains the separator `<-$->`, with title
and description free of newlines, the bytes `storage.write` leaves for it are
read back by `storage.read`, from the start of the file, as one task that
differs from the original: its title is only the part `before` of the original
title that precedes the first separator, and the part `after` that follows it,
the separator and the stored description (the sentinel `-$-` for an empty one)
make up its description. -/
theorem separator_in_title_corrupts (store : storage) (t : task)
    (hc : Contains t.title SEP = true) (hnl : '\n' ∉ t.title ∧ '\n' ∉ t.desc) :
    ∃ before after : Str,
      t.title = before ++ SEP ++ after ∧ Contains before SEP = false ∧
      (newStorage (store.write [t]).fd.contents).read =
        .ok ([task.mk before (after ++ SEP ++ (if t.desc = [] then SENTINEL else t.desc))],
             { fd := { contents := serialize [t], offset := (serialize [t]).length } }) ∧
      task.mk before (after ++ SEP ++ (if t.desc = [] then SENTINEL else t.desc)) ≠ t ∧
      before.length < t.title.length := by
  obtain ⟨i, hi⟩ := Option.isSome_iff_exists.mp (by simpa [Contains] using hc)
  have hspec := Index_some_spec SEP t.title i hi
  have h5 : SEP.length = 5 := rfl
  have hsplit := Index_split SEP t.title i hi
  rw [h5] at hsplit hspec
  have hlt : (t.title.take i).length < t.title.length := by
    rw [List.length_take]
    omega
  refine ⟨t.title.take i, t.title.drop (i + 5), hsplit, ?_, ?_, ?_, hlt⟩
  · rw [Contains_false_iff]
    exact Index_take_none SEP t.title i (by decide) hi
  · rw [write_contents, read_newStorage,
      parse_serialize_eq_readLoop [t] (by simpa using hnl)]
    simp only [List.map_cons, List.map_nil, readLoop, readLine_title_with_SEP _ _ i hi]
    rfl
  · intro he
    have := congrArg (fun x => x.title.length) he
    simp only at this
    omega

/-- Witness for `separator_in_title_corrupts`: the title `a<-$->b` with the
description `c` comes back as a shorter title and a description that holds the
rest of the title, the separator and `c`. -/
theorem separator_in_title_corrupts_witness :
    ∃ before after : Str,
      "a<-$->b".toList = before ++ SEP ++ after ∧ Contains before SEP = false ∧
      (newStorage ((newStorage []).write
          [task.mk "a<-$->b".toList "c".toList]).fd.contents).read =
        .ok ([task.mk before (after ++ SEP ++ "c".toList)],
             { fd := { contents := serialize [task.mk "a<-$->b".toList "c".toList],
                       offset := (serialize [task.mk "a<-$->b".toList "c".toList]).length } }) ∧
      task.mk before (after ++ SEP ++ "c".toList) ≠ task.mk "a<-$->b".toList "c".toList ∧
      before.length < "a<-$->b".toList.length :=
  separator_in_title_corrupts (newStorage []) (task.mk "a<-$->b".toList "c".toList)
    (by decide) (by decide)


/-! ## Help and the empty line -/

/-- C18 (as stated, refuted): the input line is 65536 blanks. It is empty after
trimming, so by the claim the pass sets the message to the empty string and
redraws; but the pass ends in the fatal error of the Scanner when it reads the
line. -/
theorem long_blank_line_is_fatal :
    TrimSpace (List.replicate 65536 ' ') = [] ∧
    loopBody { tasks := [], message := "old".toList, modifying := false }
      { input := [List.replicate 65536 ' '], store := newStorage [], trace := [] } =
    .error (Failure.fatal ErrTooLong
      { input := [List.replicate 65536 ' '], store := newStorage [],
        trace := [Event.print (draw { tasks := [], message := "old".toList,
                                      modifying := false })] }) :=
  ⟨TrimSpace_replicate_space 65536 ' ' (by decide),
   loopBody_long { tasks := [], message := "old".toList, modifying := false }
    { input := [List.replicate 65536 ' '], store := newStorage [], trace := [] }
    (List.replicate 65536 ' ') [] rfl
    (by rw [byteLen_replicate_ascii 65536 ' ' (by decide)]; decide)⟩

/-- C18 (amended): on an input line shorter than 65536 bytes that trims to
`help` the pass of the command loop sets the message to the five-line command
summary, leaves the task list and the selecting flag unchanged, prints only the
frame of the pass, does not call `storage.write`, leaves the storage untouched
and keeps the loop running; on a line shorter than 65536 bytes that is empty
after trimming (or at the end of the input) it sets the message to the empty
string and changes nothing else; and the pass that follows, whatever it reads
and whether it completes or ends in the fatal error of the Scanner, first
prints the frame of that state. -/
theorem help_and_empty_line (st : state) (w : World) :
    (∀ (line : Str) (rest : List Str), w.input = line :: rest →
      byteLen line < MaxScanTokenSize → TrimSpace line = "help".toList →
      loopBody st w =
        .ok ({ tasks := st.tasks, message := "(a)dd\n(d)elete\n(e)dit\nhelp\nexit".toList,
               modifying := st.modifying },
             { input := rest, store := w.store,
               trace := w.trace ++ [Event.print (draw st)] }, true)) ∧
    Split "(a)dd\n(d)elete\n(e)dit\nhelp\nexit".toList =
      ["(a)dd".toList, "(d)elete".toList, "(e)dit".toList, "help".toList, "exit".toList] ∧
    (byteLen (w.input.headD []) < MaxScanTokenSize → TrimSpace (w.input.headD []) = [] →
      loopBody st w =
        .ok ({ tasks := st.tasks, message := [], modifying := st.modifying },
             { input := w.input.tail, store := w.store,
               trace := w.trace ++ [Event.print (draw st)] }, true) ∧
      ((∃ (st2 : state) (w2 : World) (r2 : Bool),
          loopBody { tasks := st.tasks, message := [], modifying := st.modifying }
            { input := w.input.tail, store := w.store,
              trace := w.trace ++ [Event.print (draw st)] } = .ok (st2, w2, r2) ∧
          w.trace ++ [Event.print (draw st),
              Event.print (draw { tasks := st.tasks, message := [],
                                  modifying := st.modifying })] <+: w2.trace) ∨
       (∃ w2 : World,
          loopBody { tasks := st.tasks, message := [], modifying := st.modifying }
            { input := w.input.tail, store := w.store,
              trace := w.trace ++ [Event.print (draw st)] } =
            .error (Failure.fatal ErrTooLong w2) ∧
          w.trace ++ [Event.print (draw st),
              Event.print (draw { tasks := st.tasks, message := [],
                                  modifying := st.modifying })] <+: w2.trace))) := by
  refine ⟨?_, by decide, ?_⟩
  · intro line rest hin hshort hhelp
    rw [loopBody_cons st w line rest hin hshort (by rw [hhelp]; decide), hhelp]
    rfl
  · intro hshort hblank
    refine ⟨loopBody_blank st w hshort hblank, ?_⟩
    rcases loopBody_effect
      { tasks := st.tasks, message := [], modifying := st.modifying }
      { input := w.input.tail, store := w.store, trace := w.trace ++ [Event.print (draw st)] }
      with ⟨st2, w2, r2, h2, _, hpre⟩ | ⟨e, he, _, w2, hw2, hpre⟩
    · exact Or.inl ⟨st2, w2, r2, h2, by simpa using hpre⟩
    · rw [hw2] at he
      exact Or.inr ⟨w2, he, by simpa using hpre⟩

/-- Witness for `help_and_empty_line`: the line ` help ` on a list of one task,
and a line of spaces. -/
theorem help_and_empty_line_witness :
    loopBody { tasks := [task.mk "a".toList []], message := [], modifying := false }
      { input := [" help ".toList, "exit".toList], store := newStorage [], trace := [] } =
      .ok ({ tasks := [task.mk "a".toList []],
             message := "(a)dd\n(d)elete\n(e)dit\nhelp\nexit".toList, modifying := false },
           { input := ["exit".toList], store := newStorage [],
             trace := [] ++ [Event.print
               (draw { tasks := [task.mk "a".toList []], message := [],
                       modifying := false })] }, true) ∧
    loopBody { tasks := [task.mk "a".toList []], message := "old".toList, modifying := false }
      { input := ["   ".toList, "exit".toList], store := newStorage [], trace := [] } =
      .ok ({ tasks := [task.mk "a".toList []], message := [], modifying := false },
           { input := ["exit".toList], store := newStorage [],
             trace := [] ++ [Event.print
               (draw { tasks := [task.mk "a".toList []], message := "old".toList,
                       modifying := false })] }, true) :=
  ⟨(help_and_empty_line
      { tasks := [task.mk "a".toList []], message := [], modifying := false }
      { input := [" help ".toList, "exit".toList], store := newStorage [], trace := [] }).1
      " help ".toList ["exit".toList] rfl (by decide) (by decide),
   ((help_and_empty_line
      { tasks := [task.mk "a".toList []], message := "old".toList, modifying := false }
      { input := ["   ".toList, "exit".toList], store := newStorage [], trace := [] }).2.2
      (by decide) (by decide)).1⟩

/-! ## Invariants of the task list -/

theorem Mutated_forall (input : List Str) (tasks tasks1 : List task) (Q : task → Prop)
    (hm : Mutated input tasks tasks1) (hq : ∀ t ∈ tasks, Q t)
    (hadd : ∀ title desc : Str, title ≠ [] → fromInput input title →
      (desc = [] ∨ fromInput input desc) → Q (task.mk title desc))
    (hedit : ∀ (old : task) (title desc : Str), Q old →
      (title = [] ∨ fromInput input title) → (desc = [] ∨ fromInput input desc) →
      Q (task.mk (if title = [] then old.title else title)
          (if desc = [] then old.desc else desc))) :
    ∀ t ∈ tasks1, Q t := by
  rcases hm with ⟨title, desc, h1, h2, h3, rfl⟩ | ⟨k, _, rfl⟩ |
    ⟨k, old, title, desc, h1, _, h3, h4, rfl⟩
  · intro t ht
    rcases List.mem_append.mp ht with h | h
    · exact hq t h
    · rw [List.mem_singleton] at h
      subst h
      exact hadd title desc h1 h2 h3
  · intro t ht
    exact hq t (List.mem_of_mem_eraseIdx ht)
  · intro t ht
    rcases List.mem_or_eq_of_mem_set ht with h | h
    · exact hq t h
    · subst h
      exact hedit old title desc (hq old (List.getElem?_mem h1)) h3 h4

/-- C17: if every task of the state has a non-empty title, then every pass of
the command loop that completes, whatever the input lines are (so after any
single add, delete or edit, carried out or cancelled), ends with a task list in
which every task still has a non-empty title. A pass completes whenever its
input lines are shorter than 65536 bytes; one that does not complete has ended
in the fatal error of the Scanner on a line of 65536 bytes or more, with the
storage as it was. The storage layer does not enforce the property:
`storage.read` accepts a line that starts with the separator and returns for it
a task with an empty title. -/
theorem titles_stay_nonempty :
    (∀ (st : state) (w : World), (∀ t ∈ st.tasks, t.title ≠ []) →
      ((∀ x ∈ w.input, byteLen x < MaxScanTokenSize) →
        ∃ (st1 : state) (w1 : World) (r : Bool),
          loopBody st w = .ok (st1, w1, r) ∧ ∀ t ∈ st1.tasks, t.title ≠ []) ∧
      (∀ (st1 : state) (w1 : World) (r : Bool), loopBody st w = .ok (st1, w1, r) →
        ∀ t ∈ st1.tasks, t.title ≠ []) ∧
      (∀ e : Failure, loopBody st w = .error e →
        (∃ w1 : World, e = Failure.fatal ErrTooLong w1 ∧ w1.store = w.store) ∧
        ∃ line ∈ w.input, MaxScanTokenSize ≤ byteLen line)) ∧
    (∀ d : Str, d ≠ SENTINEL → readLine (SEP ++ d) = some (task.mk [] d)) ∧
    (newStorage "<-$->x\n".toList).read =
      .ok ([task.mk [] "x".toList],
           { fd := { contents := "<-$->x\n".toList, offset := 7 } }) := by
  refine ⟨?_, ?_, by rfl⟩
  · intro st w hinv
    have hkeep : ∀ (st1 : state) (w1 : World), Effect st.tasks w st1.tasks w1 →
        ∀ t ∈ st1.tasks, t.title ≠ [] := by
      intro st1 w1 heff
      obtain ⟨frames, _, hcase⟩ := heff
      rcases hcase with ⟨h1, _, _⟩ | ⟨hm, _, _⟩
      · rw [h1]
        exact hinv
      · apply Mutated_forall w.input st.tasks st1.tasks (fun t => t.title ≠ []) hm hinv
        · intro title desc h _ _
          exact h
        · intro old title desc hold _ _
          by_cases ht : title = []
          · simp only [ht, if_true]
            exact hold
          · simp only [ht, if_false]
            exact ht
    refine ⟨?_, ?_, ?_⟩
    · intro hall
      obtain ⟨st1, w1, r, hloop, heff, _⟩ := loopBody_total st w hall
      exact ⟨st1, w1, r, hloop, hkeep st1 w1 heff⟩
    · intro st1 w1 r hloop
      rcases loopBody_effect st w with ⟨st2, w2, r2, h2, heff, _⟩ | ⟨e, he, _⟩
      · rw [h2] at hloop
        cases hloop
        exact hkeep st1 w1 heff
      · rw [he] at hloop
        cases hloop
    · intro e he
      exact Aborted_long_mem w e (loopBody_failure st w e he).1
  · intro d hd
    have h := Cut_SEP_append [] d (by decide)
    simp only [List.nil_append] at h
    simp [readLine, h, hd]

/-- Witness for `titles_stay_nonempty`: an edit that leaves the title input
empty keeps the old title. -/
theorem titles_stay_nonempty_witness :
    ∃ (st1 : state) (w1 : World) (r : Bool),
      loopBody { tasks := [task.mk "a".toList []], message := [], modifying := false }
        { input := ["e".toList, "1".toList, "".toList, "note".toList],
          store := newStorage [], trace := [] } = .ok (st1, w1, r) ∧
      ∀ t ∈ st1.tasks, t.title ≠ [] :=
  (titles_stay_nonempty.1
    { tasks := [task.mk "a".toList []], message := [], modifying := false }
    { input := ["e".toList, "1".toList, "".toList, "note".toList],
      store := newStorage [], trace := [] }
    (by decide)).1 (by decide)

/-! ## The exact round-trip condition -/

theorem readLoop_eq_ok (lines : List Str) (items res : List task)
    (h : readLoop lines items = .ok res) :
    ∃ rs : List task, lines.map readLine = rs.map some ∧ res = items ++ rs := by
  induction lines generalizing items with
  | nil =>
    simp only [readLoop, Except.ok.injEq] at h
    exact ⟨[], rfl, by simp [h]⟩
  | cons l lines ih =>
    unfold readLoop at h
    cases hl : readLine l with
    | none => simp [hl] at h
    | some t =>
      simp only [hl] at h
      obtain ⟨rs, h1, h2⟩ := ih _ h
      exact ⟨t :: rs, by simp [hl, h1], by simp [h2]⟩

theorem Split_length (s : Str) : (Split s).length = s.count '\n' + 1 := by
  induction s with
  | nil => rfl
  | cons c s ih =>
    by_cases hc : c = '\n'
    · subst hc
      simp [Split, ih]
    · have hne := Split_ne_nil s
      cases hs : Split s with
      | nil => exact absurd hs hne
      | cons seg segs =>
        rw [hs] at ih
        simp only [Split, hc, if_false, hs, List.length_cons] at ih ⊢
        rw [List.count_cons_of_ne (fun h => hc h.symm)]
        exact ih

theorem count_storedLine (t : task) :
    (storedLine t).count '\n' = t.title.count '\n' + t.desc.count '\n' + 1 := by
  unfold storedLine
  by_cases hd : t.desc = []
  · simp [hd, SEP, SENTINEL, NL]
  · simp only [hd, if_false, List.count_append]
    simp [SEP, NL]

theorem count_serialize (ts : List task) :
    (serialize ts).count '\n' =
      ts.length + (ts.map (fun t => t.title.count '\n' + t.desc.count '\n')).sum := by
  rw [serialize_eq]
  induction ts with
  | nil => rfl
  | cons t ts ih =>
    simp only [List.map_cons, List.flatten_cons, List.count_append, ih, count_storedLine,
      List.length_cons, List.sum_cons]
    omega

theorem no_newline_of_parse_serialize (ts res : List task)
    (h : parse (serialize ts) = .ok res) (hlen : res.length = ts.length) :
    ∀ t ∈ ts, '\n' ∉ t.title ∧ '\n' ∉ t.desc := by
  rw [parse_eq_readLoop] at h
  obtain ⟨rs, h1, h2⟩ := readLoop_eq_ok _ _ _ h
  have hl := congrArg List.length h1
  simp only [List.length_map, List.length_dropLast, Split_length, count_serialize] at hl
  simp only [List.nil_append] at h2
  subst h2
  have hsum : (ts.map (fun t => t.title.count '\n' + t.desc.count '\n')).sum = 0 := by omega
  intro t ht
  have hz := List.sum_eq_zero_iff.mp hsum (t.title.count '\n' + t.desc.count '\n')
    (List.mem_map.mpr ⟨t, ht, rfl⟩)
  have h1 : t.title.count '\n' = 0 := by omega
  have h2 : t.desc.count '\n' = 0 := by omega
  exact ⟨List.count_eq_zero.mp h1, List.count_eq_zero.mp h2⟩

theorem readLine_storedLine_inv (t : task)
    (h : readLine (t.title ++ SEP ++ (if t.desc = [] then SENTINEL else t.desc)) = some t) :
    Contains t.title SEP = false ∧ t.desc ≠ SENTINEL := by
  cases hi : Index SEP t.title with
  | some i =>
    exfalso
    rw [readLine_title_with_SEP _ _ i hi] at h
    have hlen := (Index_some_spec SEP t.title i hi).2
    have h5 : SEP.length = 5 := rfl
    have := congrArg (fun x => x.map (fun y => y.title.length)) h
    simp only [Option.map_some', Option.some.injEq, List.length_take] at this
    omega
  | none =>
    refine ⟨(Contains_false_iff _ _).mpr hi, ?_⟩
    intro hd
    unfold readLine at h
    rw [List.append_assoc, Cut_SEP_append _ _ hi] at h
    have hne : t.desc ≠ [] := by
      rw [hd]
      decide
    simp only [hne, if_false, hd, if_true, Option.some.injEq] at h
    have := congrArg task.desc h
    simp only [hd] at this
    revert this
    decide

theorem parse_serialize_iff (ts : List task) :
    parse (serialize ts) = .ok ts ↔
      ∀ t ∈ ts, Contains t.title SEP = false ∧ '\n' ∉ t.title ∧ '\n' ∉ t.desc ∧
        t.desc ≠ SENTINEL := by
  constructor
  · intro h
    have hnl := no_newline_of_parse_serialize ts ts h rfl
    rw [parse_serialize_eq_readLoop ts hnl] at h
    obtain ⟨rs, h1, h2⟩ := readLoop_eq_ok _ _ _ h
    simp only [List.nil_append] at h2
    subst h2
    rw [List.map_map] at h1
    intro t ht
    have hline := List.map_inj_left.mp h1 t ht
    simp only [Function.comp_apply] at hline
    have hinv := readLine_storedLine_inv t hline
    exact ⟨hinv.1, (hnl t ht).1, (hnl t ht).2, hinv.2⟩
  · intro h
    exact parse_serialize ts (fun t ht => (h t ht).1) (fun t ht => ⟨(h t ht).2.1, (h t ht).2.2.1⟩)
      (fun t ht => (h t ht).2.2.2)

/-- C19: for every sequence of tasks, parsing (as `storage.read` does, from the
start of the file) the contents that `storage.write` leaves for it succeeds and
returns the same sequence if and only if no title contains the separator
`<-$->`, no title or description contains a newline, and no description is
the text `-$-`. In particular a description that contains the separator
round-trips unchanged, while a description equal to `-$-` is read back as the
empty string. -/
theorem roundtrip_iff (store : storage) (ts : List task) :
    ((∃ store1 : storage,
        (newStorage (store.write ts).fd.contents).read = .ok (ts, store1)) ↔
      ∀ t ∈ ts, Contains t.title SEP = false ∧ '\n' ∉ t.title ∧ '\n' ∉ t.desc ∧
        t.desc ≠ SENTINEL) ∧
    (∀ title d : Str, Contains title SEP = false → '\n' ∉ title → '\n' ∉ d →
      d ≠ SENTINEL → Contains d SEP = true →
      (newStorage (store.write [task.mk title d]).fd.contents).read =
        .ok ([task.mk title d],
             { fd := { contents := serialize [task.mk title d],
                       offset := (serialize [task.mk title d]).length } })) ∧
    (∀ title : Str, Contains title SEP = false → '\n' ∉ title →
      (newStorage (store.write [task.mk title SENTINEL]).fd.contents).read =
        .ok ([task.mk title []],
             { fd := { contents := serialize [task.mk title SENTINEL],
                       offset := (serialize [task.mk title SENTINEL]).length } })) := by
  refine ⟨?_, ?_, ?_⟩
  · rw [write_contents, read_newStorage, ← parse_serialize_iff]
    constructor
    · rintro ⟨store1, h⟩
      cases hp : parse (serialize ts) with
      | error e => simp [hp, Except.map] at h
      | ok res =>
        simp only [hp, Except.map, Except.ok.injEq, Prod.mk.injEq] at h
        rw [h.1]
    · intro h
      rw [h]
      exact ⟨_, rfl⟩
  · intro title d h1 h2 h3 h4 _
    rw [write_contents, read_newStorage,
      (parse_serialize_iff [task.mk title d]).mpr (by simpa using ⟨h1, h2, h3, h4⟩)]
    rfl
  · intro title h1 h2
    rw [write_contents, read_newStorage,
      parse_serialize_eq_readLoop [task.mk title SENTINEL]
        (by simpa using ⟨h2, not_mem_SENTINEL⟩)]
    have hcut := Cut_SEP_append title SENTINEL ((Contains_false_iff _ _).mp h1)
    have hne : SENTINEL ≠ [] := by decide
    simp only [List.map_cons, List.map_nil, readLoop, readLine, if_neg hne, List.append_assoc,
      hcut, if_true, List.nil_append]
    rfl

/-- Witness for `roundtrip_iff`: a description that holds the separator comes
back unchanged, and the description `-$-` comes back empty. -/
theorem roundtrip_iff_witness :
    (newStorage ((newStorage []).write [task.mk "a".toList "x<-$->y".toList]).fd.contents).read =
      .ok ([task.mk "a".toList "x<-$->y".toList],
           { fd := { contents := serialize [task.mk "a".toList "x<-$->y".toList],
                     offset := (serialize [task.mk "a".toList "x<-$->y".toList]).length } }) ∧
    (newStorage ((newStorage []).write [task.mk "a".toList SENTINEL]).fd.contents).read =
      .ok ([task.mk "a".toList []],
           { fd := { contents := serialize [task.mk "a".toList SENTINEL],
                     offset := (serialize [task.mk "a".toList SENTINEL]).length } }) :=
  ⟨(roundtrip_iff (newStorage []) []).2.1 "a".toList "x<-$->y".toList
      (by decide) (by decide) (by decide) (by decide) (by decide),
   (roundtrip_iff (newStorage []) []).2.2 "a".toList (by decide) (by decide)⟩


/-! ## Files written by the command loop -/

theorem TrimSpace_subset (l : Str) : ∀ c ∈ TrimSpace l, c ∈ l := by
  intro c hc
  unfold TrimSpace at hc
  rw [List.mem_reverse] at hc
  have h1 := (List.dropWhile_suffix isSpace).subset hc
  rw [List.mem_reverse] at h1
  exact (List.dropWhile_suffix isSpace).subset h1

theorem fromInput_no_newline (input : List Str) (s : Str) (hin : ∀ l ∈ input, '\n' ∉ l)
    (h : fromInput input s) : '\n' ∉ s := by
  obtain ⟨l, hl, rfl⟩ := h
  exact fun hc => hin l hl (TrimSpace_subset l _ hc)

theorem Mutated_NoNewline (input : List Str) (tasks tasks1 : List task)
    (hin : ∀ l ∈ input, '\n' ∉ l) (hm : Mutated input tasks tasks1) (h : NoNewline tasks) :
    NoNewline tasks1 := by
  apply Mutated_forall input tasks tasks1 (fun t => '\n' ∉ t.title ∧ '\n' ∉ t.desc) hm h
  · intro title desc _ ht hd
    refine ⟨fromInput_no_newline input title hin ht, ?_⟩
    rcases hd with rfl | hd
    · simp
    · exact fromInput_no_newline input desc hin hd
  · intro old title desc hold ht hd
    constructor
    · by_cases h0 : title = []
      · simp only [h0, if_true]
        exact hold.1
      · simp only [h0, if_false]
        rcases ht with h1 | h1
        · exact absurd h1 h0
        · exact fromInput_no_newline input title hin h1
    · by_cases h0 : desc = []
      · simp only [h0, if_true]
        exact hold.2
      · simp only [h0, if_false]
        rcases hd with h1 | h1
        · exact absurd h1 h0
        · exact fromInput_no_newline input desc hin h1

theorem parse_serialize_length (ts : List task) (h : NoNewline ts) :
    ∃ ts1 : List task, parse (serialize ts) = .ok ts1 ∧ ts1.length = ts.length := by
  rw [parse_serialize_eq_readLoop ts h]
  refine ⟨_, readLoop_ok _ [] (fun l => (readLine l).getD (task.mk [] [])) ?_, by simp⟩
  intro l hl
  obtain ⟨t, _, rfl⟩ := List.mem_map.mp hl
  have hc : Contains (t.title ++ SEP ++ (if t.desc = [] then SENTINEL else t.desc)) SEP = true := by
    rw [Contains_iff]
    exact ⟨t.title, (if t.desc = [] then SENTINEL else t.desc), rfl⟩
  obtain ⟨x, hx⟩ := Option.isSome_iff_exists.mp ((readLine_isSome_iff _).mpr hc)
  simp only [hx, Option.getD_some]

theorem loopBody_run (st : state) (w : World) (hst : NoNewline st.tasks)
    (hin : ∀ l ∈ w.input, '\n' ∉ l) :
    (∃ (st1 : state) (w1 : World) (r : Bool) (evs : List Event),
      loopBody st w = .ok (st1, w1, r) ∧ w1.trace = w.trace ++ evs ∧
      NoNewline st1.tasks ∧ w1.input <:+ w.input ∧
      (∀ ts, Event.write ts ∈ evs → NoNewline ts) ∧
      (((∀ ts, Event.write ts ∉ evs) ∧ w1.store = w.store ∧ st1.tasks = st.tasks) ∨
       ((∃ ts, Event.write ts ∈ evs) ∧ w1.store.fd.contents = serialize st1.tasks))) ∨
    (∃ (w1 : World) (evs : List Event),
      loopBody st w = .error (Failure.fatal ErrTooLong w1) ∧ w1.trace = w.trace ++ evs ∧
      (∀ ts, Event.write ts ∉ evs) ∧ w1.store = w.store ∧
      ∃ line ∈ w.input, MaxScanTokenSize ≤ byteLen line) := by
  rcases loopBody_effect st w with ⟨st1, w1, r, hloop, ⟨frames, hsuf, hcase⟩, _⟩ |
    ⟨e, he, ⟨frames, line, rest, hfat, hsuf, hlong⟩, _⟩
  · left
    rcases hcase with ⟨h1, h2, h3⟩ | ⟨hm, h2, h3⟩
    · refine ⟨st1, w1, r, frames.map Event.print, hloop, h3, by rw [h1]; exact hst, hsuf, ?_,
        Or.inl ⟨?_, h2, h1⟩⟩
      · intro ts hts
        simp at hts
      · intro ts hts
        simp at hts
    · have hnl := Mutated_NoNewline w.input st.tasks st1.tasks hin hm hst
      refine ⟨st1, w1, r, frames.map Event.print ++ [Event.write st1.tasks], hloop,
        by rw [h3, List.append_assoc], hnl, hsuf, ?_, Or.inr ⟨⟨st1.tasks, by simp⟩, ?_⟩⟩
      · intro ts hts
        simp at hts
        rw [hts]
        exact hnl
      · rw [h2, write_contents]
  · right
    rw [hfat] at he
    refine ⟨_, frames.map Event.print, he, rfl, ?_, rfl, line, hsuf.subset (by simp), hlong⟩
    intro ts hts
    simp at hts

theorem mainLoop_run (fuel : Nat) (st : state) (w : World) (hst : NoNewline st.tasks)
    (hin : ∀ l ∈ w.input, '\n' ∉ l) :
    (∃ (st1 : state) (w1 : World) (r : Bool) (evs : List Event),
      mainLoop fuel st w = .ok (st1, w1, r) ∧ w1.trace = w.trace ++ evs ∧
      NoNewline st1.tasks ∧ w1.input <:+ w.input ∧
      (∀ ts, Event.write ts ∈ evs → NoNewline ts) ∧
      (((∀ ts, Event.write ts ∉ evs) ∧ w1.store = w.store ∧ st1.tasks = st.tasks) ∨
       ((∃ ts, Event.write ts ∈ evs) ∧ w1.store.fd.contents = serialize st1.tasks))) ∨
    (∃ (w1 : World) (evs : List Event),
      mainLoop fuel st w = .error (Failure.fatal ErrTooLong w1) ∧ w1.trace = w.trace ++ evs ∧
      (∀ ts, Event.write ts ∈ evs → NoNewline ts) ∧
      (((∀ ts, Event.write ts ∉ evs) ∧ w1.store = w.store) ∨
       ((∃ ts, Event.write ts ∈ evs) ∧
         ∃ ts, NoNewline ts ∧ w1.store.fd.contents = serialize ts)) ∧
      ∃ line ∈ w.input, MaxScanTokenSize ≤ byteLen line) := by
  induction fuel generalizing st w with
  | zero =>
    refine Or.inl ⟨st, w, true, [], rfl, by simp, hst, List.suffix_refl _, ?_,
      Or.inl ⟨?_, rfl, rfl⟩⟩
    · intro ts hts
      simp at hts
    · intro ts hts
      simp at hts
  | succ fuel ih =>
    rcases loopBody_run st w hst hin with
      ⟨st1, w1, r, evs1, hloop, htr1, hnl1, hsuf1, hw1, hc1⟩ |
      ⟨w1, evs1, hloop, htr1, hno1, hs1, hlong⟩
    · have hin1 : ∀ l ∈ w1.input, '\n' ∉ l := fun l hl => hin l (hsuf1.subset hl)
      cases r with
      | false =>
        exact Or.inl ⟨st1, w1, false, evs1, by simp [mainLoop, hloop], htr1, hnl1, hsuf1,
          hw1, hc1⟩
      | true =>
        rcases ih st1 w1 hnl1 hin1 with
          ⟨st2, w2, r2, evs2, hrun, htr2, hnl2, hsuf2, hw2, hc2⟩ |
          ⟨w2, evs2, hrun, htr2, hw2, hc2, line, hmem, hlong⟩
        · refine Or.inl ⟨st2, w2, r2, evs1 ++ evs2, by simp [mainLoop, hloop, hrun],
            by rw [htr2, htr1, List.append_assoc], hnl2, hsuf2.trans hsuf1, ?_, ?_⟩
          · intro ts hts
            rcases List.mem_append.mp hts with h | h
            · exact hw1 ts h
            · exact hw2 ts h
          · rcases hc2 with ⟨hno2, hs2, ht2⟩ | ⟨hex2, hs2⟩
            · rcases hc1 with ⟨hno1, hs1, ht1⟩ | ⟨hex1, hs1⟩
              · refine Or.inl ⟨?_, hs2.trans hs1, ht2.trans ht1⟩
                intro ts hts
                rcases List.mem_append.mp hts with h | h
                · exact hno1 ts h
                · exact hno2 ts h
              · obtain ⟨ts, hts⟩ := hex1
                exact Or.inr ⟨⟨ts, List.mem_append_left _ hts⟩, by rw [hs2, ht2, hs1]⟩
            · obtain ⟨ts, hts⟩ := hex2
              exact Or.inr ⟨⟨ts, List.mem_append_right _ hts⟩, hs2⟩
        · refine Or.inr ⟨w2, evs1 ++ evs2, by simp [mainLoop, hloop, hrun],
            by rw [htr2, htr1, List.append_assoc], ?_, ?_, line, hsuf1.subset hmem, hlong⟩
          · intro ts hts
            rcases List.mem_append.mp hts with h | h
            · exact hw1 ts h
            · exact hw2 ts h
          · rcases hc2 with ⟨hno2, hs2⟩ | ⟨hex2, hs2⟩
            · rcases hc1 with ⟨hno1, hs1, _⟩ | ⟨hex1, hs1⟩
              · refine Or.inl ⟨?_, hs2.trans hs1⟩
                intro ts hts
                rcases List.mem_append.mp hts with h | h
                · exact hno1 ts h
                · exact hno2 ts h
              · obtain ⟨ts, hts⟩ := hex1
                exact Or.inr ⟨⟨ts, List.mem_append_left _ hts⟩, st1.tasks, hnl1,
                  by rw [hs2, hs1]⟩
            · obtain ⟨ts, hts⟩ := hex2
              exact Or.inr ⟨⟨ts, List.mem_append_right _ hts⟩, hs2⟩
    · refine Or.inr ⟨w1, evs1, by simp [mainLoop, hloop], htr1, ?_, Or.inl ⟨hno1, hs1⟩, hlong⟩
      intro ts hts
      exact absurd hts (hno1 ts)

/-- C20: if no title or description of the starting state contains a newline
and no input line does, then for every number of passes of the command loop,
every task list handed to `storage.write` on the way leaves contents that
`storage.read`, from the start of the file, parses without reaching the fatal
branch, into exactly as many tasks as the list holds; whenever a write has
happened, the file holds the serialisation of the in-memory list, which parses
into as many tasks as that list holds, and otherwise the storage is as it was.
The passes complete, without a panic, whenever the input lines are shorter than
65536 bytes; a run that does not complete has ended in the fatal error of the
Scanner on a longer line, and the same holds of what it wrote and of the file
it leaves. Nothing is asked of the typed titles and descriptions beyond being
free of newlines: they may contain `<-$->` or `-$-`. -/
theorem written_files_always_parse (fuel : Nat) (st : state) (w : World)
    (hst : ∀ t ∈ st.tasks, '\n' ∉ t.title ∧ '\n' ∉ t.desc)
    (hin : ∀ l ∈ w.input, '\n' ∉ l) :
    ((∀ x ∈ w.input, byteLen x < MaxScanTokenSize) →
      ∃ (st1 : state) (w1 : World) (r : Bool), mainLoop fuel st w = .ok (st1, w1, r)) ∧
    (∀ (st1 : state) (w1 : World) (r : Bool), mainLoop fuel st w = .ok (st1, w1, r) →
      ∃ evs : List Event, w1.trace = w.trace ++ evs ∧
        (∀ (ts : List task) (store : storage), Event.write ts ∈ evs →
          ∃ ts1 : List task,
            (newStorage (store.write ts).fd.contents).read =
              .ok (ts1, { fd := { contents := serialize ts,
                                  offset := (serialize ts).length } }) ∧
            ts1.length = ts.length) ∧
        ((∃ ts, Event.write ts ∈ evs) →
          w1.store.fd.contents = serialize st1.tasks ∧
          ∃ ts1 : List task,
            (newStorage w1.store.fd.contents).read =
              .ok (ts1, { fd := { contents := serialize st1.tasks,
                                  offset := (serialize st1.tasks).length } }) ∧
            ts1.length = st1.tasks.length) ∧
        ((∀ ts, Event.write ts ∉ evs) → w1.store = w.store ∧ st1.tasks = st.tasks)) ∧
    (∀ e : Failure, mainLoop fuel st w = .error e →
      (∃ line ∈ w.input, MaxScanTokenSize ≤ byteLen line) ∧
      ∃ (w1 : World) (evs : List Event),
        e = Failure.fatal ErrTooLong w1 ∧ w1.trace = w.trace ++ evs ∧
        (∀ (ts : List task) (store : storage), Event.write ts ∈ evs →
          ∃ ts1 : List task,
            (newStorage (store.write ts).fd.contents).read =
              .ok (ts1, { fd := { contents := serialize ts,
                                  offset := (serialize ts).length } }) ∧
            ts1.length = ts.length) ∧
        ((∃ ts, Event.write ts ∈ evs) →
          ∃ ts ts1 : List task,
            w1.store.fd.contents = serialize ts ∧
            (newStorage w1.store.fd.contents).read =
              .ok (ts1, { fd := { contents := serialize ts,
                                  offset := (serialize ts).length } }) ∧
            ts1.length = ts.length) ∧
        ((∀ ts, Event.write ts ∉ evs) → w1.store = w.store)) := by
  have hparse : ∀ ts : List task, NoNewline ts →
      ∃ ts1 : List task,
        (newStorage (serialize ts)).read =
          .ok (ts1, { fd := { contents := serialize ts, offset := (serialize ts).length } }) ∧
        ts1.length = ts.length := by
    intro ts hts
    obtain ⟨ts1, h1, h2⟩ := parse_serialize_length ts hts
    exact ⟨ts1, by rw [read_newStorage, h1]; rfl, h2⟩
  have hok : ∀ (st1 : state) (w1 : World) (evs : List Event),
      NoNewline st1.tasks → (∀ ts, Event.write ts ∈ evs → NoNewline ts) →
      (((∀ ts, Event.write ts ∉ evs) ∧ w1.store = w.store ∧ st1.tasks = st.tasks) ∨
       ((∃ ts, Event.write ts ∈ evs) ∧ w1.store.fd.contents = serialize st1.tasks)) →
      (∀ (ts : List task) (store : storage), Event.write ts ∈ evs →
          ∃ ts1 : List task,
            (newStorage (store.write ts).fd.contents).read =
              .ok (ts1, { fd := { contents := serialize ts,
                                  offset := (serialize ts).length } }) ∧
            ts1.length = ts.length) ∧
        ((∃ ts, Event.write ts ∈ evs) →
          w1.store.fd.contents = serialize st1.tasks ∧
          ∃ ts1 : List task,
            (newStorage w1.store.fd.contents).read =
              .ok (ts1, { fd := { contents := serialize st1.tasks,
                                  offset := (serialize st1.tasks).length } }) ∧
            ts1.length = st1.tasks.length) ∧
        ((∀ ts, Event.write ts ∉ evs) → w1.store = w.store ∧ st1.tasks = st.tasks) := by
    intro st1 w1 evs hnl hw hc
    refine ⟨?_, ?_, ?_⟩
    · intro ts store hts
      rw [write_contents]
      exact hparse ts (hw ts hts)
    · intro hex
      rcases hc with ⟨hno, _, _⟩ | ⟨_, hs⟩
      · obtain ⟨ts, hts⟩ := hex
        exact absurd hts (hno ts)
      · rw [hs]
        exact ⟨rfl, hparse st1.tasks hnl⟩
    · intro hno
      rcases hc with ⟨_, hs, ht⟩ | ⟨hex, _⟩
      · exact ⟨hs, ht⟩
      · obtain ⟨ts, hts⟩ := hex
        exact absurd hts (hno ts)
  refine ⟨?_, ?_, ?_⟩
  · intro hall
    rcases mainLoop_run fuel st w hst hin with ⟨st1, w1, r, _, hrun, _⟩ |
      ⟨_, _, _, _, _, _, line, hmem, hlong⟩
    · exact ⟨st1, w1, r, hrun⟩
    · exact absurd (hall line hmem) (Nat.not_lt.mpr hlong)
  · intro st1 w1 r hrun1
    rcases mainLoop_run fuel st w hst hin with ⟨st2, w2, r2, evs, hrun, htr, hnl, _, hw, hc⟩ |
      ⟨_, _, hrun, _⟩
    · rw [hrun] at hrun1
      cases hrun1
      exact ⟨evs, htr, hok st1 w1 evs hnl hw hc⟩
    · rw [hrun] at hrun1
      cases hrun1
  · intro e he
    rcases mainLoop_run fuel st w hst hin with ⟨_, _, _, _, hrun, _⟩ |
      ⟨w1, evs, hrun, htr, hw, hc, hlong⟩
    · rw [hrun] at he
      cases he
    · rw [hrun] at he
      cases he
      refine ⟨hlong, w1, evs, rfl, htr, ?_, ?_, ?_⟩
      · intro ts store hts
        rw [write_contents]
        exact hparse ts (hw ts hts)
      · intro hex
        rcases hc with ⟨hno, _⟩ | ⟨_, ts, hnl, hs⟩
        · obtain ⟨ts, hts⟩ := hex
          exact absurd hts (hno ts)
        · obtain ⟨ts1, h1, h2⟩ := hparse ts hnl
          exact ⟨ts, ts1, hs, by rw [hs]; exact h1, h2⟩
      · intro hno
        rcases hc with ⟨_, hs⟩ | ⟨hex, _⟩
        · exact hs
        · obtain ⟨ts, hts⟩ := hex
          exact absurd hts (hno ts)

/-- Witness for `written_files_always_parse`: starting from no task, the user
adds a task whose title holds the separator and whose description is the
sentinel text, renames it to the separator alone and adds another one. -/
theorem written_files_always_parse_witness :
    ∃ (st1 : state) (w1 : World) (r : Bool),
      mainLoop 3 { tasks := [], message := [], modifying := false }
        { input := ["a".toList, "x<-$->y".toList, "-$-".toList,
                    "e".toList, "1".toList, "<-$->".toList, "".toList,
                    "a".toList, "-$-".toList, "".toList],
          store := newStorage [], trace := [] } = .ok (st1, w1, r) ∧
      ∃ evs : List Event, w1.trace = [] ++ evs ∧
        (∀ (ts : List task) (store : storage), Event.write ts ∈ evs →
          ∃ ts1 : List task,
            (newStorage (store.write ts).fd.contents).read =
              .ok (ts1, { fd := { contents := serialize ts,
                                  offset := (serialize ts).length } }) ∧
            ts1.length = ts.length) ∧
        ((∃ ts, Event.write ts ∈ evs) →
          w1.store.fd.contents = serialize st1.tasks ∧
          ∃ ts1 : List task,
            (newStorage w1.store.fd.contents).read =
              .ok (ts1, { fd := { contents := serialize st1.tasks,
                                  offset := (serialize st1.tasks).length } }) ∧
            ts1.length = st1.tasks.length) ∧
        ((∀ ts, Event.write ts ∉ evs) →
          w1.store = newStorage [] ∧ st1.tasks = []) := by
  obtain ⟨h1, h2, _⟩ := written_files_always_parse 3
    { tasks := [], message := [], modifying := false }
    { input := ["a".toList, "x<-$->y".toList, "-$-".toList,
                "e".toList, "1".toList, "<-$->".toList, "".toList,
                "a".toList, "-$-".toList, "".toList],
      store := newStorage [], trace := [] }
    (by decide) (by decide)
  obtain ⟨st1, w1, r, h⟩ := h1 (by decide)
  exact ⟨st1, w1, r, h, h2 st1 w1 r h⟩

/-! ## Persistence -/

theorem caseAdd_store (st : state) (w : World) (r : state × World)
    (h : caseAdd st w = .ok r) :
    (TrimSpace (w.input.headD []) = [] → r.2.store = w.store ∧ r.1.tasks = st.tasks) ∧
    (TrimSpace (w.input.headD []) ≠ [] → r.2.store = w.store.write r.1.tasks) := by
  rcases caseAdd_cases st w with ⟨_, _, _, _, h1⟩ | ⟨_, he, h1⟩ | ⟨_, _, _, _, _, _, h1⟩ |
    ⟨_, hne, _, h1⟩
  · rw [h1] at h
    cases h
  · rw [h1] at h
    cases h
    exact ⟨fun _ => ⟨rfl, rfl⟩, fun hn => absurd he hn⟩
  · rw [h1] at h
    cases h
  · rw [h1] at h
    cases h
    exact ⟨fun he => absurd he hne, fun _ => rfl⟩

theorem caseDelete_store (st : state) (w : World) (r : state × World)
    (h : caseDelete st w = .ok r) :
    (st.tasks = [] → r.2.store = w.store ∧ r.1.tasks = st.tasks) ∧
    ∀ sel : Int × World,
      readTaskId
        (w.print (draw { st with message := "Choose task to delete (empty to cancel):".toList,
                                 modifying := true }))
        { st with message := "Choose task to delete (empty to cancel):".toList,
                  modifying := true } = .ok sel →
      (sel.1 = -1 → r.2.store = w.store ∧ r.1.tasks = st.tasks) ∧
      (st.tasks ≠ [] → sel.1 ≠ -1 → r.2.store = w.store.write r.1.tasks) := by
  rcases caseDelete_cases st w with ⟨hts, h1⟩ | ⟨hts, ⟨e, _, h1, _⟩ |
    ⟨id, k, rest, hsel, _, ⟨hid, h1⟩ | ⟨h0, _, h1⟩⟩⟩
  · rw [h1] at h
    cases h
    exact ⟨fun _ => ⟨rfl, rfl⟩, fun sel _ => ⟨fun _ => ⟨rfl, rfl⟩, fun hne => absurd hts hne⟩⟩
  · rw [h1] at h
    cases h
  · rw [h1] at h
    cases h
    refine ⟨fun he => absurd he hts, fun sel hs => ?_⟩
    rw [hsel] at hs
    cases hs
    exact ⟨fun _ => ⟨rfl, rfl⟩, fun _ hn => absurd hid hn⟩
  · rw [h1] at h
    cases h
    refine ⟨fun he => absurd he hts, fun sel hs => ?_⟩
    rw [hsel] at hs
    cases hs
    refine ⟨fun he => ?_, fun _ _ => rfl⟩
    simp only at he
    omega

theorem caseEdit_store (st : state) (w : World) (r : state × World)
    (h : caseEdit st w = .ok r) :
    (st.tasks = [] → r.2.store = w.store ∧ r.1.tasks = st.tasks) ∧
    ∀ (sel : Int × World) (title desc : Str),
      readTaskId
        (w.print (draw { st with message := "Choose task to edit (empty to cancel):".toList,
                                 modifying := true }))
        { st with message := "Choose task to edit (empty to cancel):".toList,
                  modifying := true } = .ok sel →
      title = TrimSpace (sel.2.input.headD []) →
      desc = TrimSpace (sel.2.input.tail.headD []) →
      (sel.1 = -1 ∨ (title = [] ∧ desc = []) → r.2.store = w.store ∧ r.1.tasks = st.tasks) ∧
      (st.tasks ≠ [] → sel.1 ≠ -1 → title ≠ [] ∨ desc ≠ [] →
        r.2.store = w.store.write r.1.tasks) := by
  rcases caseEdit_cases st w with ⟨hts, h1⟩ | ⟨hts, ⟨e, _, h1, _⟩ |
    ⟨id, k, rest, hsel, _, ⟨hid, h1⟩ | ⟨h0, _, ⟨e, h1, _⟩ |
      ⟨frames, _, _, ⟨ht0, hd0, h1⟩ | ⟨old, _, hnb, h1⟩⟩⟩⟩⟩
  · rw [h1] at h
    cases h
    exact ⟨fun _ => ⟨rfl, rfl⟩,
      fun sel _ _ _ _ _ => ⟨fun _ => ⟨rfl, rfl⟩, fun hne => absurd hts hne⟩⟩
  · rw [h1] at h
    cases h
  · rw [h1] at h
    cases h
    refine ⟨fun he => absurd he hts, fun sel title desc hs _ _ => ?_⟩
    rw [hsel] at hs
    cases hs
    exact ⟨fun _ => ⟨rfl, rfl⟩, fun _ hn => absurd hid hn⟩
  · rw [h1] at h
    cases h
  · rw [h1] at h
    cases h
    refine ⟨fun he => absurd he hts, fun sel title desc hs htitle hdesc => ?_⟩
    rw [hsel] at hs
    cases hs
    simp only at htitle hdesc
    refine ⟨fun _ => ⟨rfl, rfl⟩, fun _ _ hn => ?_⟩
    rcases hn with hn | hn
    · exact absurd (htitle.trans ht0) hn
    · exact absurd (hdesc.trans hd0) hn
  · rw [h1] at h
    cases h
    refine ⟨fun he => absurd he hts, fun sel title desc hs htitle hdesc => ?_⟩
    rw [hsel] at hs
    cases hs
    simp only at htitle hdesc
    refine ⟨fun hc => ?_, fun _ _ _ => rfl⟩
    rcases hc with hc | ⟨hc1, hc2⟩
    · simp only at hc
      omega
    · rcases hnb with hn | hn
      · exact absurd (htitle.symm.trans hc1) hn
      · exact absurd (hdesc.symm.trans hc2) hn

/-- C16: with the storage modelled as file contents and handle offset,
`storage.write` leaves the file contents equal to exactly the concatenation, in
list order, of title, `<-$->`, description (or `-$-` for an empty one) and
newline for each task, whatever the previous contents and offset were. In the
command loop every pass that completes either leaves task list and storage as
they were without calling `storage.write`, or calls it once, last, with the new
in-memory list, so that the file holds the serialisation of that list. The
second holds after `add`/`a` with a non-empty title, after `delete`/`d` on a
non-empty list with a selection other than `-1`, and after `edit`/`e` on a
non-empty list with a selection other than `-1` and at least one non-empty
input; the first holds for every other command: a cancelled or refused add,
delete or edit, `help`, `exit`, unknown text and the empty line. A pass
completes whenever its input lines are shorter than 65536 bytes; one that does
not complete has ended in the fatal error of the Scanner, having printed frames
only, with the storage as it was. -/
theorem wholesale_persistence (st : state) (w : World) :
    (∀ (store : storage) (ts : List task),
      (store.write ts).fd.contents = serialize ts ∧
      serialize ts =
        (ts.map (fun t =>
          t.title ++ SEP ++ (if t.desc = [] then SENTINEL else t.desc) ++ NL)).flatten) ∧
    ((∀ x ∈ w.input, byteLen x < MaxScanTokenSize) →
      ∃ (st1 : state) (w1 : World) (r : Bool), loopBody st w = .ok (st1, w1, r)) ∧
    (∀ e : Failure, loopBody st w = .error e →
      ∃ (w1 : World) (frames : List Str),
        e = Failure.fatal ErrTooLong w1 ∧ w1.store = w.store ∧
        w1.trace = w.trace ++ frames.map Event.print) ∧
    (∀ (st1 : state) (w1 : World) (r : Bool), loopBody st w = .ok (st1, w1, r) →
      ((w1.store = w.store ∧ st1.tasks = st.tasks ∧
          ∃ frames : List Str, w1.trace = w.trace ++ frames.map Event.print) ∨
        (w1.store.fd.contents = serialize st1.tasks ∧
          ∃ frames : List Str,
            w1.trace = w.trace ++ frames.map Event.print ++ [Event.write st1.tasks])) ∧
      (∀ (c : Str) (w0 : World), c = TrimSpace (w.input.headD []) →
        w0 = { input := w.input.tail, store := w.store,
               trace := w.trace ++ [Event.print (draw st)] } →
        (c ≠ "add".toList ∧ c ≠ "a".toList ∧ c ≠ "delete".toList ∧ c ≠ "d".toList ∧
          c ≠ "edit".toList ∧ c ≠ "e".toList → w1.store = w.store) ∧
        (c = "add".toList ∨ c = "a".toList →
          (TrimSpace (w0.input.headD []) = [] → w1.store = w.store) ∧
          (TrimSpace (w0.input.headD []) ≠ [] →
            w1.store.fd.contents = serialize st1.tasks)) ∧
        (c = "delete".toList ∨ c = "d".toList →
          (st.tasks = [] → w1.store = w.store) ∧
          ∀ sel : Int × World,
            readTaskId
              (w0.print (draw { st with
                message := "Choose task to delete (empty to cancel):".toList,
                modifying := true }))
              { st with message := "Choose task to delete (empty to cancel):".toList,
                        modifying := true } = .ok sel →
            (sel.1 = -1 → w1.store = w.store) ∧
            (st.tasks ≠ [] → sel.1 ≠ -1 → w1.store.fd.contents = serialize st1.tasks)) ∧
        (c = "edit".toList ∨ c = "e".toList →
          (st.tasks = [] → w1.store = w.store) ∧
          ∀ (sel : Int × World) (title desc : Str),
            readTaskId
              (w0.print (draw { st with
                message := "Choose task to edit (empty to cancel):".toList,
                modifying := true }))
              { st with message := "Choose task to edit (empty to cancel):".toList,
                        modifying := true } = .ok sel →
            title = TrimSpace (sel.2.input.headD []) →
            desc = TrimSpace (sel.2.input.tail.headD []) →
            (sel.1 = -1 ∨ (title = [] ∧ desc = []) → w1.store = w.store) ∧
            (st.tasks ≠ [] → sel.1 ≠ -1 → title ≠ [] ∨ desc ≠ [] →
              w1.store.fd.contents = serialize st1.tasks)))) := by
  refine ⟨fun store ts => ⟨by rw [write_contents], ?_⟩, ?_, ?_, ?_⟩
  · rw [serialize_eq]
    rfl
  · intro hall
    obtain ⟨st1, w1, r, h, _⟩ := loopBody_total st w hall
    exact ⟨st1, w1, r, h⟩
  · intro e he
    obtain ⟨⟨frames, line, rest, hfat, _, _⟩, _⟩ := loopBody_failure st w e he
    exact ⟨_, frames, hfat, rfl, rfl⟩
  intro st1 w1 r hok
  refine ⟨?_, ?_⟩
  · rcases loopBody_effect st w with ⟨st2, w2, r2, h2, ⟨frames, _, hcase⟩, _⟩ | ⟨e, he, _⟩
    · rw [h2] at hok
      cases hok
      rcases hcase with ⟨h1, h2, h3⟩ | ⟨_, h2, h3⟩
      · exact Or.inl ⟨h2, h1, frames, h3⟩
      · exact Or.inr ⟨by rw [h2, write_contents], frames, h3⟩
    · rw [he] at hok
      cases hok
  intro c w0 hc hw0
  have heq := loopBody_short st w (loopBody_ok_short st st1 w w1 r hok)
  rw [← hc, ← hw0, hok] at heq
  have hst0 : w0.store = w.store := by rw [hw0]
  refine ⟨?_, ?_, ?_, ?_⟩
  · rintro ⟨h1, h2, h3, h4, h5, h6⟩
    by_cases h0 : c = []
    · rw [if_pos h0] at heq
      simp only [Except.ok.injEq, Prod.mk.injEq] at heq
      rw [heq.2.1, hst0]
    · rw [if_neg h0] at heq
      unfold dispatch at heq
      rw [if_neg (not_or.mpr ⟨h1, h2⟩), if_neg (not_or.mpr ⟨h3, h4⟩),
        if_neg (not_or.mpr ⟨h5, h6⟩)] at heq
      split at heq
      · simp only [Except.ok.injEq, Prod.mk.injEq] at heq
        rw [heq.2.1, hst0]
      · split at heq
        · simp only [Except.ok.injEq, Prod.mk.injEq] at heq
          rw [heq.2.1, hst0]
        · simp only [Except.ok.injEq, Prod.mk.injEq] at heq
          rw [heq.2.1, hst0]
  · intro hadd
    have h0 : c ≠ [] := by
      rcases hadd with h | h <;> rw [h] <;> decide
    rw [if_neg h0, dispatch_add _ _ _ hadd] at heq
    cases hres : caseAdd st w0 with
    | error e =>
      rw [hres] at heq
      cases heq
    | ok res =>
      rw [hres] at heq
      simp only [Except.ok.injEq, Prod.mk.injEq] at heq
      have hs := caseAdd_store st w0 res hres
      rw [heq.1, heq.2.1]
      exact ⟨fun h => by rw [(hs.1 h).1, hst0], fun h => by rw [hs.2 h, write_contents]⟩
  · intro hdel
    have h0 : c ≠ [] := by
      rcases hdel with h | h <;> rw [h] <;> decide
    rw [if_neg h0, dispatch_delete _ _ _ hdel] at heq
    cases hres : caseDelete st w0 with
    | error e =>
      rw [hres] at heq
      cases heq
    | ok res =>
      rw [hres] at heq
      simp only [Except.ok.injEq, Prod.mk.injEq] at heq
      have hs := caseDelete_store st w0 res hres
      rw [heq.1, heq.2.1]
      exact ⟨fun h => by rw [(hs.1 h).1, hst0],
        fun sel hsel => ⟨fun h => by rw [((hs.2 sel hsel).1 h).1, hst0],
          fun h1 h2 => by rw [(hs.2 sel hsel).2 h1 h2, write_contents]⟩⟩
  · intro hed
    have h0 : c ≠ [] := by
      rcases hed with h | h <;> rw [h] <;> decide
    rw [if_neg h0, dispatch_edit _ _ _ hed] at heq
    cases hres : caseEdit st w0 with
    | error e =>
      rw [hres] at heq
      cases heq
    | ok res =>
      rw [hres] at heq
      simp only [Except.ok.injEq, Prod.mk.injEq] at heq
      have hs := caseEdit_store st w0 res hres
      rw [heq.1, heq.2.1]
      exact ⟨fun h => by rw [(hs.1 h).1, hst0],
        fun sel title desc hsel htitle hdesc =>
          ⟨fun h => by rw [((hs.2 sel title desc hsel htitle hdesc).1 h).1, hst0],
           fun h1 h2 h3 => by
            rw [(hs.2 sel title desc hsel htitle hdesc).2 h1 h2 h3, write_contents]⟩⟩

/-- Witness for `wholesale_persistence`: a write of one short task over a longer
file, with the handle at its end, leaves only the line of that task. -/
theorem wholesale_persistence_witness :
    ((storage.mk { contents := "a long stale line<-$->x\n".toList, offset := 24 }).write
      [task.mk "a".toList []]).fd.contents = "a<-$->-$-\n".toList :=
  ((wholesale_persistence { tasks := [], message := [], modifying := false }
      { input := [], store := newStorage [], trace := [] }).1
    (storage.mk { contents := "a long stale line<-$->x\n".toList, offset := 24 })
    [task.mk "a".toList []]).1.trans (by decide)

end TaskList
